import Mathlib

/-!
QTcpModbus: a shallow embedding of `src/qtcpmodbus.cpp`

The Modbus/TCP client of the repository is embedded as pure functions over an explicit
socket state.  Every public operation of the class becomes a function that takes the socket
state, the value drawn from the random generator for the transaction id, the arguments of
the C++ method and the value held by the status variable of the caller, and returns the
result, the value of the status variable after the call and the socket state after the call.
The status pointer of the C++ methods is taken to be non-null.
-/

namespace QTcpModbus

/-! ## Data model -/

/-- A `QByteArray`: the list of its byte values, each one in the range 0..255. -/
abbrev Bytes := List Nat

/-- Modelled from the spec: the status enumeration of the class header, which is not among the
sources.  A value of this type is what a call assigns to the status variable, kept as the
expression of the assignment: one of the four named constants, whose numeric values the sources
do not show, or `Code b`, the raw byte that the code copies from a received frame
(`*status = static_cast<quint8>(pdu[8])`).  The variable itself is one `quint8`: the byte that
it holds after the assignment is `Status.toByte`, and two different expressions can store the
same byte, `Code b` and `Ok` do when `b` is the numeric value of `Ok`. -/
inductive Status where
  | Ok
  | NoConnection
  | Timeout
  | UnknownError
  | Code (byte : Nat)
  deriving DecidableEq, Repr

/-- Modelled from the spec: the numeric values that the class header gives to the four named
constants of the status enumeration; the header is not among the sources, so the values are
left open. -/
structure StatusValues where
  ok : Nat
  noConnection : Nat
  timeout : Nat
  unknownError : Nat
  deriving DecidableEq, Repr

/-- The byte that the `quint8` status variable of the caller holds after the assignment of `s`:
the numeric value of the named constant, or the raw byte itself, converted to `quint8`. -/
def Status.toByte (e : StatusValues) : Status → Nat
  | Status.Ok => e.ok % 256
  | Status.NoConnection => e.noConnection % 256
  | Status.Timeout => e.timeout % 256
  | Status.UnknownError => e.unknownError % 256
  | Status.Code b => b % 256

/-- The `QTcpSocket` as the operations see it.  `connected` is the answer of `isConnected()`;
`rxBuffer` holds the bytes that were received and not read yet; `incoming` scripts the outcome
of each future `waitForReadyRead`: `none` is a wait that times out, `some c` is a wait during
which the bytes `c` arrive, and once the script is used up every wait times out; `written` logs
the argument of every `write`, oldest first. -/
structure Socket where
  connected : Bool
  rxBuffer : Bytes
  incoming : List (Option Bytes)
  written : List Bytes
  deriving DecidableEq, Repr

/-- What a call hands back: the returned value, the value of the status variable of the caller
after the call, and the socket after the call. -/
structure Outcome (α : Type) where
  result : α
  status : Status
  socket : Socket
  deriving DecidableEq, Repr

/-! ## Socket primitives -/

/-- `_socket.readAll()`: returns the buffered bytes and leaves the buffer empty. -/
def Socket.readAll (s : Socket) : Bytes × Socket :=
  (s.rxBuffer, { s with rxBuffer := [] })

/-- `_socket.write( data )`. -/
def Socket.write (s : Socket) (data : Bytes) : Socket :=
  { s with written := s.written ++ [data] }

/-- `_socket.waitForReadyRead( _timeout )`: true when new bytes arrived during the wait. -/
def Socket.waitForReadyRead (s : Socket) : Bool × Socket :=
  match s.incoming with
  | [] => (false, s)
  | none :: evs => (false, { s with incoming := evs })
  | some c :: evs => (true, { s with rxBuffer := s.rxBuffer ++ c, incoming := evs })

/-- `_socket.read( maxSize )`: at most `maxSize` bytes taken from the front of the buffer. -/
def Socket.read (s : Socket) (maxSize : Nat) : Bytes × Socket :=
  (s.rxBuffer.take maxSize, { s with rxBuffer := s.rxBuffer.drop maxSize })

/-! ## Stream helpers (`QDataStream`, big endian) -/

/-- The test `pdu[7] & 0x80` applied to one byte. -/
def highBit (b : Nat) : Bool := (b &&& 0x80) != 0

/-- `pduStream << (quint8) x`. -/
def putU8 (x : Nat) : Bytes := [x % 256]

/-- `pduStream << (quint16) x`, high byte first. -/
def putU16 (x : Nat) : Bytes := [x / 256 % 256, x % 256]

/-- `rxStream >> (quint8&) x`: the value read and the rest of the stream; reading past the end
yields 0. -/
def getU8 : Bytes → Nat × Bytes
  | [] => (0, [])
  | b :: s => (b, s)

/-- `rxStream >> (quint16&) x`: the value read and the rest of the stream; when fewer than two
bytes are left the stream is drained and the value is 0. -/
def getU16 : Bytes → Nat × Bytes
  | hi :: lo :: s => (hi * 256 + lo, s)
  | _ => (0, [])

/-- The accumulation loop shared by the fixed-length operations,
`while ( pdu.size() < target ) { if ( ( pdu.size() >= 9 && pdu[7] & 0x80 ) ||
!_socket.waitForReadyRead( _timeout ) ) break; pdu += _socket.read( target - pdu.size() ); }`,
by recursion on the script of the waits.  A wait during which a chunk arrives appends it to
the receive buffer, as `Socket.waitForReadyRead` does, and the read takes at most the missing
bytes from the front of the buffer, as `Socket.read` does; the test of the exception bit comes
first, so a wait is only consumed when that test fails.  Arguments: script, receive buffer,
`pdu`; the result is the final `pdu`, the receive buffer and what is left of the script. -/
def recvLoop (target : Nat) : List (Option Bytes) → Bytes → Bytes → Bytes × Bytes × List (Option Bytes)
  | [], rx, pdu => (pdu, rx, [])
  | none :: evs, rx, pdu =>
    if pdu.length < target then
      if 9 ≤ pdu.length && highBit (pdu.getD 7 0) then (pdu, rx, none :: evs)
      else (pdu, rx, evs)
    else (pdu, rx, none :: evs)
  | some c :: evs, rx, pdu =>
    if pdu.length < target then
      if 9 ≤ pdu.length && highBit (pdu.getD 7 0) then (pdu, rx, some c :: evs)
      else recvLoop target evs ((rx ++ c).drop (target - pdu.length))
        (pdu ++ (rx ++ c).take (target - pdu.length))
    else (pdu, rx, some c :: evs)

/-- The accumulation loop run on a socket, starting from the cleared `pdu`. -/
def Socket.awaitResponse (s : Socket) (target : Nat) : Bytes × Socket :=
  let r := recvLoop target s.incoming s.rxBuffer []
  (r.1, { s with rxBuffer := r.2.1, incoming := r.2.2 })

/-- The block under the comment "What was wrong ?", the same in every framed operation:
`if ( pdu.size() == 9 ) *status = static_cast<quint8>(pdu[8]); else *status = Timeout;`. -/
def whatWasWrong (pdu : Bytes) : Status :=
  if pdu.length = 9 then Status.Code (pdu.getD 8 0) else Status.Timeout

/-- The conversion loop of the two bit reads, `for ( int i = 0 ; i < quantity ; i++ )
{ if ( i % 8 == 0 ) rxStream >> tmp; list.append( tmp & ( 0x01 << ( i % 8 ) ) ); }`;
the first argument counts the iterations that are left. -/
def coilsLoop : Nat → Nat → Nat → Bytes → List Bool
  | 0, _, _, _ => []
  | n + 1, i, tmp, rxStream =>
    let r := if i % 8 = 0 then getU8 rxStream else (tmp, rxStream)
    ((r.1 &&& (0x01 <<< (i % 8))) != 0) :: coilsLoop n (i + 1) r.1 r.2

/-- The conversion loop of the register reads, `for ( int i = 0 ; i < quantity ; i++ )
{ rxStream >> tmp; list.append( tmp ); }`. -/
def regsLoop : Nat → Bytes → List Nat
  | 0, _ => []
  | n + 1, rxStream => (getU16 rxStream).1 :: regsLoop n (getU16 rxStream).2

/-- The packing loop of `writeMultipleCoils`: `for ( int i = 0 ; i < outputValues.count() ; i++ )
{ if ( i % 8 == 0 ) { if ( i != 0 ) pduStream << tmp; tmp = 0; }
if ( outputValues[i] ) tmp |= 0x01 << ( i % 8 ); }`.  Arguments: the values not visited yet,
`i`, `tmp`, the bytes streamed so far; the result is the stream and the final `tmp`. -/
def packLoop : List Bool → Nat → Nat → Bytes → Bytes × Nat
  | [], _, tmp, out => (out, tmp)
  | v :: vs, i, tmp, out =>
    let out1 := if i % 8 = 0 ∧ i ≠ 0 then out ++ putU8 tmp else out
    let tmp1 := if i % 8 = 0 then 0 else tmp
    let tmp2 := if v then (tmp1 ||| (0x01 <<< (i % 8))) % 256 else tmp1
    packLoop vs (i + 1) tmp2 out1

/-- The 16-bit variable of the two bit reads,
`quint16 neededRxBytes = quantity / 8; if ( quantity % 8 ) neededRxBytes++;`. -/
def neededBits (quantity : Nat) : Nat :=
  if quantity % 8 ≠ 0 then (quantity / 8 + 1) % 65536 else quantity / 8

/-- The 16-bit variable of the register reads, `quint16 neededRxBytes = quantity * 2;`. -/
def neededRegs (quantity : Nat) : Nat := quantity * 2 % 65536

/-- The loop `foreach ( quint16 reg , values ) pduStream << reg;`. -/
def putRegs : List Nat → Bytes
  | [] => []
  | reg :: regs => putU16 reg ++ putRegs regs

/-! ## The operations -/

/-- `QTcpModbus::readCoils` (function 0x01).  `rand` is the value of `qrand()`. -/
def readCoils (sock : Socket) (rand deviceAddress startingAddress quantityOfCoils : Nat)
    (_status : Status) : Outcome (List Bool) :=
  if !sock.connected then ⟨[], Status.NoConnection, sock⟩ else
  let transactionId := rand % 65536
  let pdu := putU16 transactionId ++ putU16 0 ++ putU16 6 ++ putU8 deviceAddress ++ putU8 0x01
    ++ putU16 startingAddress ++ putU16 quantityOfCoils
  let sock := sock.readAll.2
  let sock := sock.write pdu
  let neededRxBytes := neededBits quantityOfCoils
  let rx := sock.awaitResponse (neededRxBytes + 9)
  let pdu := rx.1
  let sock := rx.2
  if pdu.length = neededRxBytes + 9 then
    let (rxTransactionId, rxStream) := getU16 pdu
    let (rxProtocolId, rxStream) := getU16 rxStream
    let (rxLength, rxStream) := getU16 rxStream
    let (rxDeviceAddress, rxStream) := getU8 rxStream
    let (rxFunctionCode, rxStream) := getU8 rxStream
    let (byteCount, rxStream) := getU8 rxStream
    if rxTransactionId = transactionId ∧ rxProtocolId = 0 ∧ rxLength = neededRxBytes + 3 ∧
        rxDeviceAddress = deviceAddress ∧ rxFunctionCode = 0x01 ∧ byteCount = neededRxBytes then
      ⟨coilsLoop quantityOfCoils 0 0 rxStream, Status.Ok, sock⟩
    else ⟨[], Status.UnknownError, sock⟩
  else ⟨[], whatWasWrong pdu, sock⟩

/-- `QTcpModbus::readDiscreteInputs` (function 0x02). -/
def readDiscreteInputs (sock : Socket) (rand deviceAddress startingAddress quantityOfInputs : Nat)
    (_status : Status) : Outcome (List Bool) :=
  if !sock.connected then ⟨[], Status.NoConnection, sock⟩ else
  let transactionId := rand % 65536
  let pdu := putU16 transactionId ++ putU16 0 ++ putU16 6 ++ putU8 deviceAddress ++ putU8 0x02
    ++ putU16 startingAddress ++ putU16 quantityOfInputs
  let sock := sock.readAll.2
  let sock := sock.write pdu
  let neededRxBytes := neededBits quantityOfInputs
  let rx := sock.awaitResponse (neededRxBytes + 9)
  let pdu := rx.1
  let sock := rx.2
  if pdu.length = neededRxBytes + 9 then
    let (rxTransactionId, rxStream) := getU16 pdu
    let (rxProtocolId, rxStream) := getU16 rxStream
    let (rxLength, rxStream) := getU16 rxStream
    let (rxDeviceAddress, rxStream) := getU8 rxStream
    let (rxFunctionCode, rxStream) := getU8 rxStream
    let (byteCount, rxStream) := getU8 rxStream
    if rxTransactionId = transactionId ∧ rxProtocolId = 0 ∧ rxLength = neededRxBytes + 3 ∧
        rxDeviceAddress = deviceAddress ∧ rxFunctionCode = 0x02 ∧ byteCount = neededRxBytes then
      ⟨coilsLoop quantityOfInputs 0 0 rxStream, Status.Ok, sock⟩
    else ⟨[], Status.UnknownError, sock⟩
  else ⟨[], whatWasWrong pdu, sock⟩

/-- `QTcpModbus::readHoldingRegisters` (function 0x03). -/
def readHoldingRegisters (sock : Socket) (rand deviceAddress startingAddress quantityOfRegisters : Nat)
    (_status : Status) : Outcome (List Nat) :=
  if !sock.connected then ⟨[], Status.NoConnection, sock⟩ else
  let transactionId := rand % 65536
  let pdu := putU16 transactionId ++ putU16 0 ++ putU16 6 ++ putU8 deviceAddress ++ putU8 0x03
    ++ putU16 startingAddress ++ putU16 quantityOfRegisters
  let sock := sock.readAll.2
  let sock := sock.write pdu
  let neededRxBytes := neededRegs quantityOfRegisters
  let rx := sock.awaitResponse (neededRxBytes + 9)
  let pdu := rx.1
  let sock := rx.2
  if pdu.length = neededRxBytes + 9 then
    let (rxTransactionId, rxStream) := getU16 pdu
    let (rxProtocolId, rxStream) := getU16 rxStream
    let (rxLength, rxStream) := getU16 rxStream
    let (rxDeviceAddress, rxStream) := getU8 rxStream
    let (rxFunctionCode, rxStream) := getU8 rxStream
    let (byteCount, rxStream) := getU8 rxStream
    if rxTransactionId = transactionId ∧ rxProtocolId = 0 ∧ rxLength = neededRxBytes + 3 ∧
        rxDeviceAddress = deviceAddress ∧ rxFunctionCode = 0x03 ∧ byteCount = neededRxBytes then
      ⟨regsLoop quantityOfRegisters rxStream, Status.Ok, sock⟩
    else ⟨[], Status.UnknownError, sock⟩
  else ⟨[], whatWasWrong pdu, sock⟩

/-- `QTcpModbus::readInputRegisters` (function 0x04). -/
def readInputRegisters (sock : Socket) (rand deviceAddress startingAddress quantityOfInputRegisters : Nat)
    (_status : Status) : Outcome (List Nat) :=
  if !sock.connected then ⟨[], Status.NoConnection, sock⟩ else
  let transactionId := rand % 65536
  let pdu := putU16 transactionId ++ putU16 0 ++ putU16 6 ++ putU8 deviceAddress ++ putU8 0x04
    ++ putU16 startingAddress ++ putU16 quantityOfInputRegisters
  let sock := sock.readAll.2
  let sock := sock.write pdu
  let neededRxBytes := neededRegs quantityOfInputRegisters
  let rx := sock.awaitResponse (neededRxBytes + 9)
  let pdu := rx.1
  let sock := rx.2
  if pdu.length = neededRxBytes + 9 then
    let (rxTransactionId, rxStream) := getU16 pdu
    let (rxProtocolId, rxStream) := getU16 rxStream
    let (rxLength, rxStream) := getU16 rxStream
    let (rxDeviceAddress, rxStream) := getU8 rxStream
    let (rxFunctionCode, rxStream) := getU8 rxStream
    let (byteCount, rxStream) := getU8 rxStream
    if rxTransactionId = transactionId ∧ rxProtocolId = 0 ∧ rxLength = neededRxBytes + 3 ∧
        rxDeviceAddress = deviceAddress ∧ rxFunctionCode = 0x04 ∧ byteCount = neededRxBytes then
      ⟨regsLoop quantityOfInputRegisters rxStream, Status.Ok, sock⟩
    else ⟨[], Status.UnknownError, sock⟩
  else ⟨[], whatWasWrong pdu, sock⟩

/-- `QTcpModbus::writeSingleCoil` (function 0x05). -/
def writeSingleCoil (sock : Socket) (rand deviceAddress outputAddress : Nat) (outputValue : Bool)
    (_status : Status) : Outcome Bool :=
  if !sock.connected then ⟨false, Status.NoConnection, sock⟩ else
  let transactionId := rand % 65536
  let pdu := putU16 transactionId ++ putU16 0 ++ putU16 6 ++ putU8 deviceAddress ++ putU8 0x05
    ++ putU16 outputAddress ++ putU16 (if outputValue then 0xFF00 else 0x0000)
  let sock := sock.readAll.2
  let sock := sock.write pdu
  let rx := sock.awaitResponse 12
  let pdu := rx.1
  let sock := rx.2
  if pdu.length = 12 then
    let (rxTransactionId, rxStream) := getU16 pdu
    let (rxProtocolId, rxStream) := getU16 rxStream
    let (rxLength, rxStream) := getU16 rxStream
    let (rxDeviceAddress, rxStream) := getU8 rxStream
    let (rxFunctionCode, rxStream) := getU8 rxStream
    let (rxOutputAddress, rxStream) := getU16 rxStream
    let (rxOutputValue, _) := getU16 rxStream
    if rxTransactionId = transactionId ∧ rxProtocolId = 0 ∧ rxLength = 6 ∧
        rxDeviceAddress = deviceAddress ∧ rxFunctionCode = 0x05 ∧ rxOutputAddress = outputAddress ∧
        ((outputValue = true ∧ rxOutputValue = 0xFF00) ∨
          (outputValue = false ∧ rxOutputValue = 0x0000)) then
      ⟨true, Status.Ok, sock⟩
    else ⟨false, Status.UnknownError, sock⟩
  else ⟨false, whatWasWrong pdu, sock⟩

/-- `QTcpModbus::writeSingleRegister` (function 0x06). -/
def writeSingleRegister (sock : Socket) (rand deviceAddress outputAddress registerValue : Nat)
    (_status : Status) : Outcome Bool :=
  if !sock.connected then ⟨false, Status.NoConnection, sock⟩ else
  let transactionId := rand % 65536
  let pdu := putU16 transactionId ++ putU16 0 ++ putU16 6 ++ putU8 deviceAddress ++ putU8 0x06
    ++ putU16 outputAddress ++ putU16 registerValue
  let sock := sock.readAll.2
  let sock := sock.write pdu
  let rx := sock.awaitResponse 12
  let pdu := rx.1
  let sock := rx.2
  if pdu.length = 12 then
    let (rxTransactionId, rxStream) := getU16 pdu
    let (rxProtocolId, rxStream) := getU16 rxStream
    let (rxLength, rxStream) := getU16 rxStream
    let (rxDeviceAddress, rxStream) := getU8 rxStream
    let (rxFunctionCode, rxStream) := getU8 rxStream
    let (rxOutputAddress, rxStream) := getU16 rxStream
    let (rxRegisterValue, _) := getU16 rxStream
    if rxTransactionId = transactionId ∧ rxProtocolId = 0 ∧ rxLength = 6 ∧
        rxDeviceAddress = deviceAddress ∧ rxFunctionCode = 0x06 ∧ rxOutputAddress = outputAddress ∧
        rxRegisterValue = registerValue then
      ⟨true, Status.Ok, sock⟩
    else ⟨false, Status.UnknownError, sock⟩
  else ⟨false, whatWasWrong pdu, sock⟩

/-- `QTcpModbus::writeMultipleCoils` (function 0x0F). -/
def writeMultipleCoils (sock : Socket) (rand deviceAddress startingAddress : Nat)
    (outputValues : List Bool) (_status : Status) : Outcome Bool :=
  if !sock.connected then ⟨false, Status.NoConnection, sock⟩ else
  let transactionId := rand % 65536
  let txBytes := outputValues.length / 8 % 256
  let txBytes := if outputValues.length % 8 ≠ 0 then (txBytes + 1) % 256 else txBytes
  let pdu := putU16 transactionId ++ putU16 0 ++ putU16 ((txBytes + 7) % 65536)
    ++ putU8 deviceAddress ++ putU8 0x0F ++ putU16 startingAddress
    ++ putU16 (outputValues.length % 65536) ++ putU8 txBytes
  let packed := packLoop outputValues 0 0 pdu
  let pdu := packed.1 ++ putU8 packed.2
  let sock := sock.readAll.2
  let sock := sock.write pdu
  let rx := sock.awaitResponse 12
  let pdu := rx.1
  let sock := rx.2
  if pdu.length = 12 then
    let (rxTransactionId, rxStream) := getU16 pdu
    let (rxProtocolId, rxStream) := getU16 rxStream
    let (rxLength, rxStream) := getU16 rxStream
    let (rxDeviceAddress, rxStream) := getU8 rxStream
    let (rxFunctionCode, rxStream) := getU8 rxStream
    let (rxStartingAddress, rxStream) := getU16 rxStream
    let (rxQuantityOfOutputs, _) := getU16 rxStream
    if rxTransactionId = transactionId ∧ rxProtocolId = 0 ∧ rxLength = 6 ∧
        rxDeviceAddress = deviceAddress ∧ rxFunctionCode = 0x0F ∧
        rxStartingAddress = startingAddress ∧ rxQuantityOfOutputs = outputValues.length then
      ⟨true, Status.Ok, sock⟩
    else ⟨false, Status.UnknownError, sock⟩
  else ⟨false, whatWasWrong pdu, sock⟩

/-- `QTcpModbus::writeMultipleRegisters` (function 0x10). -/
def writeMultipleRegisters (sock : Socket) (rand deviceAddress startingAddress : Nat)
    (registersValues : List Nat) (_status : Status) : Outcome Bool :=
  if !sock.connected then ⟨false, Status.NoConnection, sock⟩ else
  let transactionId := rand % 65536
  let txBytes := registersValues.length * 2 % 256
  let pdu := putU16 transactionId ++ putU16 0 ++ putU16 ((txBytes + 7) % 65536)
    ++ putU8 deviceAddress ++ putU8 0x10 ++ putU16 startingAddress
    ++ putU16 (registersValues.length % 65536) ++ putU8 txBytes
  let pdu := pdu ++ putRegs registersValues
  let sock := sock.readAll.2
  let sock := sock.write pdu
  let rx := sock.awaitResponse 12
  let pdu := rx.1
  let sock := rx.2
  if pdu.length = 12 then
    let (rxTransactionId, rxStream) := getU16 pdu
    let (rxProtocolId, rxStream) := getU16 rxStream
    let (rxLength, rxStream) := getU16 rxStream
    let (rxDeviceAddress, rxStream) := getU8 rxStream
    let (rxFunctionCode, rxStream) := getU8 rxStream
    let (rxStartingAddress, rxStream) := getU16 rxStream
    let (rxQuantityOfRegisters, _) := getU16 rxStream
    if rxTransactionId = transactionId ∧ rxProtocolId = 0 ∧ rxLength = 6 ∧
        rxDeviceAddress = deviceAddress ∧ rxFunctionCode = 0x10 ∧
        rxStartingAddress = startingAddress ∧ rxQuantityOfRegisters = registersValues.length then
      ⟨true, Status.Ok, sock⟩
    else ⟨false, Status.UnknownError, sock⟩
  else ⟨false, whatWasWrong pdu, sock⟩

/-- `QTcpModbus::maskWriteRegister` (function 0x16). -/
def maskWriteRegister (sock : Socket) (rand deviceAddress referenceAddress andMask orMask : Nat)
    (_status : Status) : Outcome Bool :=
  if !sock.connected then ⟨false, Status.NoConnection, sock⟩ else
  let transactionId := rand % 65536
  let pdu := putU16 transactionId ++ putU16 0 ++ putU16 8 ++ putU8 deviceAddress ++ putU8 0x16
    ++ putU16 referenceAddress ++ putU16 andMask ++ putU16 orMask
  let sock := sock.readAll.2
  let sock := sock.write pdu
  let rx := sock.awaitResponse 14
  let pdu := rx.1
  let sock := rx.2
  if pdu.length = 14 then
    let (rxTransactionId, rxStream) := getU16 pdu
    let (rxProtocolId, rxStream) := getU16 rxStream
    let (rxLength, rxStream) := getU16 rxStream
    let (rxDeviceAddress, rxStream) := getU8 rxStream
    let (rxFunctionCode, rxStream) := getU8 rxStream
    let (rxReferenceAddress, rxStream) := getU16 rxStream
    let (rxAndMask, rxStream) := getU16 rxStream
    let (rxOrMask, _) := getU16 rxStream
    if rxTransactionId = transactionId ∧ rxProtocolId = 0 ∧ rxLength = 8 ∧
        rxDeviceAddress = deviceAddress ∧ rxFunctionCode = 0x16 ∧
        rxReferenceAddress = referenceAddress ∧ rxAndMask = andMask ∧ rxOrMask = orMask then
      ⟨true, Status.Ok, sock⟩
    else ⟨false, Status.UnknownError, sock⟩
  else ⟨false, whatWasWrong pdu, sock⟩

/-- `QTcpModbus::writeReadMultipleRegisters` (function 0x17). -/
def writeReadMultipleRegisters (sock : Socket) (rand deviceAddress writeStartingAddress : Nat)
    (writeValues : List Nat) (readStartingAddress quantityToRead : Nat) (_status : Status) :
    Outcome (List Nat) :=
  if !sock.connected then ⟨[], Status.NoConnection, sock⟩ else
  let transactionId := rand % 65536
  let pdu := putU16 transactionId ++ putU16 0 ++ putU16 ((writeValues.length * 2 + 12) % 65536)
    ++ putU8 deviceAddress ++ putU8 0x17 ++ putU16 readStartingAddress ++ putU16 quantityToRead
    ++ putU16 writeStartingAddress ++ putU16 (writeValues.length % 65536)
    ++ putU16 (writeValues.length * 2 % 65536)
  let pdu := pdu ++ putRegs writeValues
  let sock := sock.readAll.2
  let sock := sock.write pdu
  let neededRxBytes := neededRegs quantityToRead
  let rx := sock.awaitResponse (neededRxBytes + 9)
  let pdu := rx.1
  let sock := rx.2
  if pdu.length = neededRxBytes + 9 then
    let (rxTransactionId, rxStream) := getU16 pdu
    let (rxProtocolId, rxStream) := getU16 rxStream
    let (rxLength, rxStream) := getU16 rxStream
    let (rxDeviceAddress, rxStream) := getU8 rxStream
    let (rxFunctionCode, rxStream) := getU8 rxStream
    let (byteCount, rxStream) := getU8 rxStream
    if rxTransactionId = transactionId ∧ rxProtocolId = 0 ∧ rxLength = neededRxBytes + 3 ∧
        rxDeviceAddress = deviceAddress ∧ rxFunctionCode = 0x17 ∧ byteCount = neededRxBytes then
      ⟨regsLoop quantityToRead rxStream, Status.Ok, sock⟩
    else ⟨[], Status.UnknownError, sock⟩
  else ⟨[], whatWasWrong pdu, sock⟩

/-- `QTcpModbus::readFifoQueue` (function 0x18).  The comparisons `rxLength == byteCount - 2`
and `byteCount == fifoCount * 2` are made on `int` in the source, hence without wrap-around. -/
def readFifoQueue (sock : Socket) (rand deviceAddress fifoPointerAddress : Nat)
    (_status : Status) : Outcome (List Nat) :=
  if !sock.connected then ⟨[], Status.NoConnection, sock⟩ else
  let transactionId := rand % 65536
  let pdu := putU16 transactionId ++ putU16 0 ++ putU16 4 ++ putU8 deviceAddress ++ putU8 0x18
    ++ putU16 fifoPointerAddress
  let sock := sock.readAll.2
  let sock := sock.write pdu
  let w := sock.waitForReadyRead
  if !w.1 then ⟨[], Status.Timeout, w.2⟩ else
  let rx := w.2.readAll
  let pdu := rx.1
  let sock := rx.2
  if 12 ≤ pdu.length ∧ highBit (pdu.getD 7 0) = false then
    let (rxTransactionId, rxStream) := getU16 pdu
    let (rxProtocolId, rxStream) := getU16 rxStream
    let (rxLength, rxStream) := getU16 rxStream
    let (rxDeviceAddress, rxStream) := getU8 rxStream
    let (rxFunctionCode, rxStream) := getU8 rxStream
    let (byteCount, rxStream) := getU16 rxStream
    let (fifoCount, rxStream) := getU16 rxStream
    if rxTransactionId = transactionId ∧ rxProtocolId = 0 ∧
        (rxLength : Int) = (byteCount : Int) - 2 ∧ rxDeviceAddress = deviceAddress ∧
        rxFunctionCode = 0x18 ∧ byteCount = fifoCount * 2 ∧ pdu.length = rxLength + 6 then
      ⟨regsLoop fifoCount rxStream, Status.Ok, sock⟩
    else ⟨[], Status.UnknownError, sock⟩
  else ⟨[], whatWasWrong pdu, sock⟩

/-- `QTcpModbus::executeCustomFunction`.  On the accepting path the source returns
`pdu.right( pdu.size() - 8 )` without assigning the status variable, which therefore keeps the
value `status` it had before the call. -/
def executeCustomFunction (sock : Socket) (rand deviceAddress modbusFunction : Nat) (data : Bytes)
    (status : Status) : Outcome Bytes :=
  if !sock.connected then ⟨[], Status.NoConnection, sock⟩ else
  let transactionId := rand % 65536
  let pdu := putU16 transactionId ++ putU16 0 ++ putU16 ((data.length + 2) % 65536)
    ++ putU8 deviceAddress ++ putU8 modbusFunction
  let pdu := pdu ++ data
  let sock := sock.readAll.2
  let sock := sock.write pdu
  let w := sock.waitForReadyRead
  if !w.1 then ⟨[], Status.Timeout, w.2⟩ else
  let rx := w.2.readAll
  let pdu := rx.1
  let sock := rx.2
  if 9 ≤ pdu.length ∧ highBit (pdu.getD 7 0) = false then
    let (rxTransactionId, rxStream) := getU16 pdu
    let (rxProtocolId, rxStream) := getU16 rxStream
    let (rxLength, rxStream) := getU16 rxStream
    let (rxDeviceAddress, rxStream) := getU8 rxStream
    let (rxFunctionCode, _) := getU8 rxStream
    if rxTransactionId = transactionId ∧ rxProtocolId = 0 ∧ rxDeviceAddress = deviceAddress ∧
        rxFunctionCode = modbusFunction ∧ pdu.length = rxLength + 6 then
      ⟨pdu.drop (pdu.length - (pdu.length - 8)), status, sock⟩
    else ⟨[], Status.UnknownError, sock⟩
  else ⟨[], whatWasWrong pdu, sock⟩

/-- `QTcpModbus::executeRaw`.  After a successful wait the source returns `_socket.readAll()`
without assigning the status variable, which keeps the value `status`. -/
def executeRaw (sock : Socket) (data : Bytes) (status : Status) : Outcome Bytes :=
  if !sock.connected then ⟨[], Status.NoConnection, sock⟩ else
  let sock := sock.readAll.2
  let sock := sock.write data
  let w := sock.waitForReadyRead
  if !w.1 then ⟨[], Status.Timeout, w.2⟩ else
  let rx := w.2.readAll
  ⟨rx.1, status, rx.2⟩

/-! ## Auxiliary facts -/

theorem getU16_cons (hi lo : Nat) (s : Bytes) : getU16 (hi :: lo :: s) = (hi * 256 + lo, s) := rfl

theorem getU8_cons (b : Nat) (s : Bytes) : getU8 (b :: s) = (b, s) := rfl

theorem putRegs_length (ws : List Nat) : (putRegs ws).length = 2 * ws.length := by
  induction ws with
  | nil => rfl
  | cons w ws ih => simp [putRegs, putU16, ih]; omega

theorem u16_join (w : Nat) (hw : w < 65536) : w / 256 % 256 * 256 + w % 256 = w := by omega

/-- Reading back the words that `putRegs` streamed. -/
theorem regsLoop_putRegs (ws : List Nat) (tail : Bytes) (hws : ∀ w ∈ ws, w < 65536) :
    regsLoop ws.length (putRegs ws ++ tail) = ws := by
  induction ws with
  | nil => rfl
  | cons w ws ih =>
    have hw : w < 65536 := hws w (List.mem_cons_self _ _)
    have hrest : ∀ v ∈ ws, v < 65536 := fun v hv => hws v (List.mem_cons_of_mem _ hv)
    simp only [List.length_cons, putRegs, putU16, regsLoop, List.cons_append, List.nil_append,
      getU16_cons, List.append_assoc]
    rw [u16_join w hw, ih hrest]

theorem getD_append_left (a b : Bytes) (i : Nat) (h : i < a.length) :
    (a ++ b).getD i 0 = a.getD i 0 := by
  simp only [List.getD_eq_getElem?_getD]
  rw [List.getElem?_append_left h]

/-- When the chunks that arrive add up to a frame of the target length whose function code has
the high bit clear, the accumulation loop returns the frame. -/
theorem recvLoop_chunks (target : Nat) (rest : List (Option Bytes)) :
    ∀ (chunks : List Bytes) (pdu : Bytes),
      (pdu ++ chunks.flatten).length = target →
      highBit ((pdu ++ chunks.flatten).getD 7 0) = false →
      (recvLoop target (chunks.map some ++ rest) [] pdu).1 = pdu ++ chunks.flatten := by
  intro chunks
  induction chunks with
  | nil =>
    intro pdu hlen _
    simp only [List.flatten_nil, List.append_nil] at hlen
    have hlt : ¬ pdu.length < target := by omega
    cases rest with
    | nil => simp [recvLoop]
    | cons e rest =>
      cases e <;> simp [recvLoop, hlt]
  | cons c cs ih =>
    intro pdu hlen h7
    simp only [List.flatten_cons, List.map_cons, List.cons_append] at hlen h7 ⊢
    unfold recvLoop
    by_cases hlt : pdu.length < target
    · have hexc : (decide (9 ≤ pdu.length) && highBit (pdu.getD 7 0)) = false := by
        by_cases h9 : 9 ≤ pdu.length
        · rw [getD_append_left pdu _ 7 (by omega)] at h7
          rw [h7, Bool.and_false]
        · simp [h9]
      have hc : c.length ≤ target - pdu.length := by
        simp only [List.length_append] at hlen
        omega
      simp only [hlt, if_true, hexc, List.nil_append, List.take_of_length_le hc,
        List.drop_of_length_le hc]
      simp only [Bool.false_eq_true, if_false]
      rw [ih (pdu ++ c) (by simpa using hlen) (by simpa using h7)]
      simp
    · have hnil : c ++ cs.flatten = [] := by
        simp only [List.length_append] at hlen
        apply List.eq_nil_of_length_eq_zero
        simp only [List.length_append]
        omega
      simp [hlt, hnil]

/-- The accumulation on a connected socket after the stale input was discarded and the request
written, when the chunks that arrive add up to a complete frame without exception bit. -/
theorem await_frame (stale : Bytes) (wr : List Bytes) (req : Bytes) (chunks : List Bytes)
    (rest : List (Option Bytes)) (target : Nat)
    (hlen : chunks.flatten.length = target) (h7 : highBit (chunks.flatten.getD 7 0) = false) :
    ((((Socket.mk true stale (chunks.map some ++ rest) wr).readAll.2).write req).awaitResponse
      target).1 = chunks.flatten := by
  have h := recvLoop_chunks target rest chunks [] (by simpa using hlen) (by simpa using h7)
  simpa [Socket.awaitResponse, Socket.readAll, Socket.write] using h

/-- The mask test of the bit loops is the bit test of the byte. -/
theorem mask_test (x k : Nat) : ((x &&& (0x01 <<< k)) != 0) = x.testBit k := by
  rw [Nat.one_shiftLeft]
  cases hb : x.testBit k with
  | true =>
    have h : (x &&& 2 ^ k).testBit k = true := by
      rw [Nat.testBit_and, hb, Nat.testBit_two_pow_self]; rfl
    have hne : x &&& 2 ^ k ≠ 0 := by
      intro h0
      rw [h0, Nat.zero_testBit] at h
      exact Bool.false_ne_true h
    simpa using hne
  | false =>
    have h0 : x &&& 2 ^ k = 0 := by
      apply Nat.eq_of_testBit_eq
      intro i
      rw [Nat.testBit_and, Nat.zero_testBit, Nat.testBit_two_pow]
      by_cases hki : k = i
      · subst hki; simp [hb]
      · simp [hki]
    simp [h0]

theorem getU8_drop (d : Bytes) (k : Nat) : getU8 (d.drop k) = (d.getD k 0, d.drop (k + 1)) := by
  induction d generalizing k with
  | nil => simp [getU8]
  | cons b d ih =>
    cases k with
    | zero => simp [getU8]
    | succ k => simpa using ih k

/-- The bit loop, started at any index `i` with the stream and `tmp` as the loop leaves them
there, yields the bits `i`, `i+1`, ... of the data bytes `d`. -/
theorem coilsLoop_bits (d : Bytes) :
    ∀ (n i tmp : Nat) (s : Bytes),
      (i % 8 = 0 → s = d.drop (i / 8)) →
      (i % 8 ≠ 0 → tmp = d.getD (i / 8) 0 ∧ s = d.drop (i / 8 + 1)) →
      coilsLoop n i tmp s =
        (List.range n).map (fun k => (d.getD ((i + k) / 8) 0).testBit ((i + k) % 8)) := by
  intro n
  induction n with
  | zero => intro i tmp s _ _; rfl
  | succ n ih =>
    intro i tmp s h0 h1
    rw [List.range_succ_eq_map, List.map_cons, List.map_map]
    unfold coilsLoop
    by_cases hi : i % 8 = 0
    · have hs := h0 hi
      subst hs
      simp only [hi, if_true, getU8_drop, mask_test, Nat.add_zero]
      rw [ih (i + 1) (d.getD (i / 8) 0) (d.drop (i / 8 + 1))
        (fun h => by omega)
        (fun _ => ⟨by congr 1; omega, by congr 1; omega⟩)]
      congr 1
      apply List.map_congr_left
      intro k _
      simp only [Function.comp, Nat.succ_eq_add_one]
      congr 2 <;> omega
    · obtain ⟨ht, hs⟩ := h1 hi
      subst ht hs
      simp only [hi, if_false, mask_test, Nat.add_zero]
      rw [ih (i + 1) (d.getD (i / 8) 0) (d.drop (i / 8 + 1))
        (fun h => by congr 1; omega)
        (fun _ => ⟨by congr 1; omega, by congr 1; omega⟩)]
      congr 1
      apply List.map_congr_left
      intro k _
      simp only [Function.comp, Nat.succ_eq_add_one]
      congr 2 <;> omega

theorem coilsLoop_data (q : Nat) (d : Bytes) :
    coilsLoop q 0 0 d = (List.range q).map (fun i => (d.getD (i / 8) 0).testBit (i % 8)) := by
  have h := coilsLoop_bits d q 0 0 d (fun _ => by simp) (fun h => absurd rfl h)
  simpa using h

theorem highBit_small (b : Nat) (h : b < 128) : highBit b = false := by
  unfold highBit
  have : b &&& 0x80 = 0 := by
    interval_cases b <;> rfl
  simp [this]

theorem readHoldingRegisters_frame (stale : Bytes) (wr : List Bytes) (rest : List (Option Bytes))
    (chunks : List Bytes) (rand dev start q : Nat) (ws : List Nat) (st : Status)
    (hdev : dev < 256) (hq : q ≤ 125) (hlen : ws.length = q)
    (hws : ∀ w ∈ ws, w < 65536)
    (hframe : chunks.flatten = putU16 (rand % 65536) ++ putU16 0 ++ putU16 (3 + 2 * q) ++
      putU8 dev ++ putU8 0x03 ++ putU8 (2 * q) ++ putRegs ws) :
    (readHoldingRegisters (Socket.mk true stale (chunks.map some ++ rest) wr) rand dev start q
        st).result = ws ∧
    (readHoldingRegisters (Socket.mk true stale (chunks.map some ++ rest) wr) rand dev start q
        st).status = Status.Ok := by
  have hneeded : neededRegs q = 2 * q := by unfold neededRegs; omega
  have hflen : chunks.flatten.length = 2 * q + 9 := by
    rw [hframe]; simp [putU16, putU8, putRegs_length, hlen]
  have h7 : highBit (chunks.flatten.getD 7 0) = false := by
    rw [hframe]; simp [putU16, putU8]; exact highBit_small 3 (by omega)
  have hrx := await_frame stale wr
    (putU16 (rand % 65536) ++ putU16 0 ++ putU16 6 ++ putU8 dev ++ putU8 0x03
      ++ putU16 start ++ putU16 q) chunks rest (2 * q + 9) hflen h7
  unfold readHoldingRegisters
  simp only [hneeded, Bool.not_true, Bool.false_eq_true, if_false, hrx, hflen, if_true]
  rw [hframe]
  simp only [putU16, putU8, List.cons_append, List.nil_append, getU16_cons, getU8_cons]
  have e1 : rand % 65536 / 256 % 256 * 256 + rand % 65536 % 256 = rand % 65536 := by omega
  have e2 : (3 + 2 * q) / 256 % 256 * 256 + (3 + 2 * q) % 256 = 2 * q + 3 := by omega
  have e3 : dev % 256 = dev := by omega
  have e4 : 2 * q % 256 = 2 * q := by omega
  have hreg := regsLoop_putRegs ws [] hws
  rw [hlen, List.append_nil] at hreg
  simp [e1, e2, e3, e4, hreg]

theorem readInputRegisters_frame (stale : Bytes) (wr : List Bytes) (rest : List (Option Bytes))
    (chunks : List Bytes) (rand dev start q : Nat) (ws : List Nat) (st : Status)
    (hdev : dev < 256) (hq : q ≤ 125) (hlen : ws.length = q)
    (hws : ∀ w ∈ ws, w < 65536)
    (hframe : chunks.flatten = putU16 (rand % 65536) ++ putU16 0 ++ putU16 (3 + 2 * q) ++
      putU8 dev ++ putU8 0x04 ++ putU8 (2 * q) ++ putRegs ws) :
    (readInputRegisters (Socket.mk true stale (chunks.map some ++ rest) wr) rand dev start q
        st).result = ws ∧
    (readInputRegisters (Socket.mk true stale (chunks.map some ++ rest) wr) rand dev start q
        st).status = Status.Ok := by
  have hneeded : neededRegs q = 2 * q := by unfold neededRegs; omega
  have hflen : chunks.flatten.length = 2 * q + 9 := by
    rw [hframe]; simp [putU16, putU8, putRegs_length, hlen]
  have h7 : highBit (chunks.flatten.getD 7 0) = false := by
    rw [hframe]; simp [putU16, putU8]; exact highBit_small 4 (by omega)
  have hrx := await_frame stale wr
    (putU16 (rand % 65536) ++ putU16 0 ++ putU16 6 ++ putU8 dev ++ putU8 0x04
      ++ putU16 start ++ putU16 q) chunks rest (2 * q + 9) hflen h7
  unfold readInputRegisters
  simp only [hneeded, Bool.not_true, Bool.false_eq_true, if_false, hrx, hflen, if_true]
  rw [hframe]
  simp only [putU16, putU8, List.cons_append, List.nil_append, getU16_cons, getU8_cons]
  have e1 : rand % 65536 / 256 % 256 * 256 + rand % 65536 % 256 = rand % 65536 := by omega
  have e2 : (3 + 2 * q) / 256 % 256 * 256 + (3 + 2 * q) % 256 = 2 * q + 3 := by omega
  have e3 : dev % 256 = dev := by omega
  have e4 : 2 * q % 256 = 2 * q := by omega
  have hreg := regsLoop_putRegs ws [] hws
  rw [hlen, List.append_nil] at hreg
  simp [e1, e2, e3, e4, hreg]

theorem readCoils_frame (stale : Bytes) (wr : List Bytes) (rest : List (Option Bytes))
    (chunks : List Bytes) (rand dev start q : Nat) (d : Bytes) (st : Status)
    (hdev : dev < 256) (hq : q ≤ 2000) (hlen : d.length = (q + 7) / 8)
    (hframe : chunks.flatten = putU16 (rand % 65536) ++ putU16 0 ++ putU16 (3 + (q + 7) / 8) ++
      putU8 dev ++ putU8 0x01 ++ putU8 ((q + 7) / 8) ++ d) :
    (readCoils (Socket.mk true stale (chunks.map some ++ rest) wr) rand dev start q st).result =
      (List.range q).map (fun i => (d.getD (i / 8) 0).testBit (i % 8)) ∧
    (readCoils (Socket.mk true stale (chunks.map some ++ rest) wr) rand dev start q st).status =
      Status.Ok := by
  have hneeded : neededBits q = (q + 7) / 8 := by unfold neededBits; split <;> omega
  have hflen : chunks.flatten.length = (q + 7) / 8 + 9 := by
    rw [hframe]; simp [putU16, putU8, hlen]
  have h7 : highBit (chunks.flatten.getD 7 0) = false := by
    rw [hframe]; simp [putU16, putU8]; exact highBit_small 1 (by omega)
  have hrx := await_frame stale wr
    (putU16 (rand % 65536) ++ putU16 0 ++ putU16 6 ++ putU8 dev ++ putU8 0x01
      ++ putU16 start ++ putU16 q) chunks rest ((q + 7) / 8 + 9) hflen h7
  unfold readCoils
  simp only [hneeded, Bool.not_true, Bool.false_eq_true, if_false, hrx, hflen, if_true]
  rw [hframe]
  simp only [putU16, putU8, List.cons_append, List.nil_append, getU16_cons, getU8_cons]
  have e1 : rand % 65536 / 256 % 256 * 256 + rand % 65536 % 256 = rand % 65536 := by omega
  have e2 : (3 + (q + 7) / 8) / 256 % 256 * 256 + (3 + (q + 7) / 8) % 256 = (q + 7) / 8 + 3 := by
    omega
  have e3 : dev % 256 = dev := by omega
  have e4 : (q + 7) / 8 % 256 = (q + 7) / 8 := by omega
  simp [e1, e2, e3, e4, coilsLoop_data]

theorem readDiscreteInputs_frame (stale : Bytes) (wr : List Bytes) (rest : List (Option Bytes))
    (chunks : List Bytes) (rand dev start q : Nat) (d : Bytes) (st : Status)
    (hdev : dev < 256) (hq : q ≤ 2000) (hlen : d.length = (q + 7) / 8)
    (hframe : chunks.flatten = putU16 (rand % 65536) ++ putU16 0 ++ putU16 (3 + (q + 7) / 8) ++
      putU8 dev ++ putU8 0x02 ++ putU8 ((q + 7) / 8) ++ d) :
    (readDiscreteInputs (Socket.mk true stale (chunks.map some ++ rest) wr) rand dev start q st).result =
      (List.range q).map (fun i => (d.getD (i / 8) 0).testBit (i % 8)) ∧
    (readDiscreteInputs (Socket.mk true stale (chunks.map some ++ rest) wr) rand dev start q st).status =
      Status.Ok := by
  have hneeded : neededBits q = (q + 7) / 8 := by unfold neededBits; split <;> omega
  have hflen : chunks.flatten.length = (q + 7) / 8 + 9 := by
    rw [hframe]; simp [putU16, putU8, hlen]
  have h7 : highBit (chunks.flatten.getD 7 0) = false := by
    rw [hframe]; simp [putU16, putU8]; exact highBit_small 2 (by omega)
  have hrx := await_frame stale wr
    (putU16 (rand % 65536) ++ putU16 0 ++ putU16 6 ++ putU8 dev ++ putU8 0x02
      ++ putU16 start ++ putU16 q) chunks rest ((q + 7) / 8 + 9) hflen h7
  unfold readDiscreteInputs
  simp only [hneeded, Bool.not_true, Bool.false_eq_true, if_false, hrx, hflen, if_true]
  rw [hframe]
  simp only [putU16, putU8, List.cons_append, List.nil_append, getU16_cons, getU8_cons]
  have e1 : rand % 65536 / 256 % 256 * 256 + rand % 65536 % 256 = rand % 65536 := by omega
  have e2 : (3 + (q + 7) / 8) / 256 % 256 * 256 + (3 + (q + 7) / 8) % 256 = (q + 7) / 8 + 3 := by
    omega
  have e3 : dev % 256 = dev := by omega
  have e4 : (q + 7) / 8 % 256 = (q + 7) / 8 := by omega
  simp [e1, e2, e3, e4, coilsLoop_data]

theorem awaitResponse_fst (s : Socket) (req : Bytes) (target : Nat) :
    ((s.readAll.2.write req).awaitResponse target).1 = (recvLoop target s.incoming [] []).1 := rfl

theorem exists_nine (l : Bytes) (h : 9 ≤ l.length) :
    ∃ b0 b1 b2 b3 b4 b5 b6 b7 b8 r, l = b0 :: b1 :: b2 :: b3 :: b4 :: b5 :: b6 :: b7 :: b8 :: r := by
  match l, h with
  | b0 :: b1 :: b2 :: b3 :: b4 :: b5 :: b6 :: b7 :: b8 :: r, _ =>
    exact ⟨b0, b1, b2, b3, b4, b5, b6, b7, b8, r, rfl⟩

theorem readCoils_tid (sock : Socket) (r r' : Nat) (dev a q : Nat) (st st' : Status)
    (hne : r % 65536 ≠ r' % 65536)
    (hfull : (recvLoop (neededBits q + 9) sock.incoming [] []).1.length = neededBits q + 9)
    (h : (readCoils sock r dev a q st).status = Status.Ok) :
    (readCoils sock r' dev a q st').status = Status.UnknownError ∧
    (readCoils sock r' dev a q st').result = [] := by
  unfold readCoils at h ⊢
  cases hc : sock.connected
  · simp [hc] at h
  · simp only [hc, Bool.not_true, Bool.false_eq_true, if_false, awaitResponse_fst] at h ⊢
    by_cases hlen : (recvLoop (neededBits q + 9) sock.incoming [] []).1.length = neededBits q + 9
    · obtain ⟨b0, b1, b2, b3, b4, b5, b6, b7, b8, rest, hp⟩ :=
        exists_nine (recvLoop (neededBits q + 9) sock.incoming [] []).1 (by omega)
      rw [hp] at hlen
      simp only [hp, hlen, if_true, getU16_cons, getU8_cons] at h ⊢
      split at h
      · rename_i hcond
        rw [if_neg (by intro hc'; exact hne (hcond.1.symm.trans hc'.1))]
        exact ⟨rfl, rfl⟩
      · simp at h
    · exact absurd hfull hlen

theorem readDiscreteInputs_tid (sock : Socket) (r r' : Nat) (dev a q : Nat) (st st' : Status)
    (hne : r % 65536 ≠ r' % 65536)
    (hfull : (recvLoop (neededBits q + 9) sock.incoming [] []).1.length = neededBits q + 9)
    (h : (readDiscreteInputs sock r dev a q st).status = Status.Ok) :
    (readDiscreteInputs sock r' dev a q st').status = Status.UnknownError ∧
    (readDiscreteInputs sock r' dev a q st').result = [] := by
  unfold readDiscreteInputs at h ⊢
  cases hc : sock.connected
  · simp [hc] at h
  · simp only [hc, Bool.not_true, Bool.false_eq_true, if_false, awaitResponse_fst] at h ⊢
    by_cases hlen : (recvLoop (neededBits q + 9) sock.incoming [] []).1.length = neededBits q + 9
    · obtain ⟨b0, b1, b2, b3, b4, b5, b6, b7, b8, rest, hp⟩ :=
        exists_nine (recvLoop (neededBits q + 9) sock.incoming [] []).1 (by omega)
      rw [hp] at hlen
      simp only [hp, hlen, if_true, getU16_cons, getU8_cons] at h ⊢
      split at h
      · rename_i hcond
        rw [if_neg (by intro hc'; exact hne (hcond.1.symm.trans hc'.1))]
        exact ⟨rfl, rfl⟩
      · simp at h
    · exact absurd hfull hlen

theorem readHoldingRegisters_tid (sock : Socket) (r r' : Nat) (dev a q : Nat) (st st' : Status)
    (hne : r % 65536 ≠ r' % 65536)
    (hfull : (recvLoop (neededRegs q + 9) sock.incoming [] []).1.length = neededRegs q + 9)
    (h : (readHoldingRegisters sock r dev a q st).status = Status.Ok) :
    (readHoldingRegisters sock r' dev a q st').status = Status.UnknownError ∧
    (readHoldingRegisters sock r' dev a q st').result = [] := by
  unfold readHoldingRegisters at h ⊢
  cases hc : sock.connected
  · simp [hc] at h
  · simp only [hc, Bool.not_true, Bool.false_eq_true, if_false, awaitResponse_fst] at h ⊢
    by_cases hlen : (recvLoop (neededRegs q + 9) sock.incoming [] []).1.length = neededRegs q + 9
    · obtain ⟨b0, b1, b2, b3, b4, b5, b6, b7, b8, rest, hp⟩ :=
        exists_nine (recvLoop (neededRegs q + 9) sock.incoming [] []).1 (by omega)
      rw [hp] at hlen
      simp only [hp, hlen, if_true, getU16_cons, getU8_cons] at h ⊢
      split at h
      · rename_i hcond
        rw [if_neg (by intro hc'; exact hne (hcond.1.symm.trans hc'.1))]
        exact ⟨rfl, rfl⟩
      · simp at h
    · exact absurd hfull hlen

theorem readInputRegisters_tid (sock : Socket) (r r' : Nat) (dev a q : Nat) (st st' : Status)
    (hne : r % 65536 ≠ r' % 65536)
    (hfull : (recvLoop (neededRegs q + 9) sock.incoming [] []).1.length = neededRegs q + 9)
    (h : (readInputRegisters sock r dev a q st).status = Status.Ok) :
    (readInputRegisters sock r' dev a q st').status = Status.UnknownError ∧
    (readInputRegisters sock r' dev a q st').result = [] := by
  unfold readInputRegisters at h ⊢
  cases hc : sock.connected
  · simp [hc] at h
  · simp only [hc, Bool.not_true, Bool.false_eq_true, if_false, awaitResponse_fst] at h ⊢
    by_cases hlen : (recvLoop (neededRegs q + 9) sock.incoming [] []).1.length = neededRegs q + 9
    · obtain ⟨b0, b1, b2, b3, b4, b5, b6, b7, b8, rest, hp⟩ :=
        exists_nine (recvLoop (neededRegs q + 9) sock.incoming [] []).1 (by omega)
      rw [hp] at hlen
      simp only [hp, hlen, if_true, getU16_cons, getU8_cons] at h ⊢
      split at h
      · rename_i hcond
        rw [if_neg (by intro hc'; exact hne (hcond.1.symm.trans hc'.1))]
        exact ⟨rfl, rfl⟩
      · simp at h
    · exact absurd hfull hlen

theorem writeSingleCoil_tid (sock : Socket) (r r' : Nat) (dev a : Nat) (v : Bool) (st st' : Status)
    (hne : r % 65536 ≠ r' % 65536)
    (hfull : (recvLoop (12) sock.incoming [] []).1.length = 12)
    (h : (writeSingleCoil sock r dev a v st).status = Status.Ok) :
    (writeSingleCoil sock r' dev a v st').status = Status.UnknownError ∧
    (writeSingleCoil sock r' dev a v st').result = false := by
  unfold writeSingleCoil at h ⊢
  cases hc : sock.connected
  · simp [hc] at h
  · simp only [hc, Bool.not_true, Bool.false_eq_true, if_false, awaitResponse_fst] at h ⊢
    by_cases hlen : (recvLoop (12) sock.incoming [] []).1.length = 12
    · obtain ⟨b0, b1, b2, b3, b4, b5, b6, b7, b8, rest, hp⟩ :=
        exists_nine (recvLoop (12) sock.incoming [] []).1 (by omega)
      rw [hp] at hlen
      simp only [hp, hlen, if_true, getU16_cons, getU8_cons] at h ⊢
      split at h
      · rename_i hcond
        rw [if_neg (by intro hc'; exact hne (hcond.1.symm.trans hc'.1))]
        exact ⟨rfl, rfl⟩
      · simp at h
    · exact absurd hfull hlen

theorem writeSingleRegister_tid (sock : Socket) (r r' : Nat) (dev a x : Nat) (st st' : Status)
    (hne : r % 65536 ≠ r' % 65536)
    (hfull : (recvLoop (12) sock.incoming [] []).1.length = 12)
    (h : (writeSingleRegister sock r dev a x st).status = Status.Ok) :
    (writeSingleRegister sock r' dev a x st').status = Status.UnknownError ∧
    (writeSingleRegister sock r' dev a x st').result = false := by
  unfold writeSingleRegister at h ⊢
  cases hc : sock.connected
  · simp [hc] at h
  · simp only [hc, Bool.not_true, Bool.false_eq_true, if_false, awaitResponse_fst] at h ⊢
    by_cases hlen : (recvLoop (12) sock.incoming [] []).1.length = 12
    · obtain ⟨b0, b1, b2, b3, b4, b5, b6, b7, b8, rest, hp⟩ :=
        exists_nine (recvLoop (12) sock.incoming [] []).1 (by omega)
      rw [hp] at hlen
      simp only [hp, hlen, if_true, getU16_cons, getU8_cons] at h ⊢
      split at h
      · rename_i hcond
        rw [if_neg (by intro hc'; exact hne (hcond.1.symm.trans hc'.1))]
        exact ⟨rfl, rfl⟩
      · simp at h
    · exact absurd hfull hlen

theorem writeMultipleCoils_tid (sock : Socket) (r r' : Nat) (dev a : Nat) (coils : List Bool) (st st' : Status)
    (hne : r % 65536 ≠ r' % 65536)
    (hfull : (recvLoop (12) sock.incoming [] []).1.length = 12)
    (h : (writeMultipleCoils sock r dev a coils st).status = Status.Ok) :
    (writeMultipleCoils sock r' dev a coils st').status = Status.UnknownError ∧
    (writeMultipleCoils sock r' dev a coils st').result = false := by
  unfold writeMultipleCoils at h ⊢
  cases hc : sock.connected
  · simp [hc] at h
  · simp only [hc, Bool.not_true, Bool.false_eq_true, if_false, awaitResponse_fst] at h ⊢
    by_cases hlen : (recvLoop (12) sock.incoming [] []).1.length = 12
    · obtain ⟨b0, b1, b2, b3, b4, b5, b6, b7, b8, rest, hp⟩ :=
        exists_nine (recvLoop (12) sock.incoming [] []).1 (by omega)
      rw [hp] at hlen
      simp only [hp, hlen, if_true, getU16_cons, getU8_cons] at h ⊢
      split at h
      · rename_i hcond
        rw [if_neg (by intro hc'; exact hne (hcond.1.symm.trans hc'.1))]
        exact ⟨rfl, rfl⟩
      · simp at h
    · exact absurd hfull hlen

theorem writeMultipleRegisters_tid (sock : Socket) (r r' : Nat) (dev a : Nat) (regs : List Nat) (st st' : Status)
    (hne : r % 65536 ≠ r' % 65536)
    (hfull : (recvLoop (12) sock.incoming [] []).1.length = 12)
    (h : (writeMultipleRegisters sock r dev a regs st).status = Status.Ok) :
    (writeMultipleRegisters sock r' dev a regs st').status = Status.UnknownError ∧
    (writeMultipleRegisters sock r' dev a regs st').result = false := by
  unfold writeMultipleRegisters at h ⊢
  cases hc : sock.connected
  · simp [hc] at h
  · simp only [hc, Bool.not_true, Bool.false_eq_true, if_false, awaitResponse_fst] at h ⊢
    by_cases hlen : (recvLoop (12) sock.incoming [] []).1.length = 12
    · obtain ⟨b0, b1, b2, b3, b4, b5, b6, b7, b8, rest, hp⟩ :=
        exists_nine (recvLoop (12) sock.incoming [] []).1 (by omega)
      rw [hp] at hlen
      simp only [hp, hlen, if_true, getU16_cons, getU8_cons] at h ⊢
      split at h
      · rename_i hcond
        rw [if_neg (by intro hc'; exact hne (hcond.1.symm.trans hc'.1))]
        exact ⟨rfl, rfl⟩
      · simp at h
    · exact absurd hfull hlen

theorem maskWriteRegister_tid (sock : Socket) (r r' : Nat) (dev a am om : Nat) (st st' : Status)
    (hne : r % 65536 ≠ r' % 65536)
    (hfull : (recvLoop (14) sock.incoming [] []).1.length = 14)
    (h : (maskWriteRegister sock r dev a am om st).status = Status.Ok) :
    (maskWriteRegister sock r' dev a am om st').status = Status.UnknownError ∧
    (maskWriteRegister sock r' dev a am om st').result = false := by
  unfold maskWriteRegister at h ⊢
  cases hc : sock.connected
  · simp [hc] at h
  · simp only [hc, Bool.not_true, Bool.false_eq_true, if_false, awaitResponse_fst] at h ⊢
    by_cases hlen : (recvLoop (14) sock.incoming [] []).1.length = 14
    · obtain ⟨b0, b1, b2, b3, b4, b5, b6, b7, b8, rest, hp⟩ :=
        exists_nine (recvLoop (14) sock.incoming [] []).1 (by omega)
      rw [hp] at hlen
      simp only [hp, hlen, if_true, getU16_cons, getU8_cons] at h ⊢
      split at h
      · rename_i hcond
        rw [if_neg (by intro hc'; exact hne (hcond.1.symm.trans hc'.1))]
        exact ⟨rfl, rfl⟩
      · simp at h
    · exact absurd hfull hlen

theorem writeReadMultipleRegisters_tid (sock : Socket) (r r' : Nat) (dev wa : Nat) (wv : List Nat) (ra rq : Nat) (st st' : Status)
    (hne : r % 65536 ≠ r' % 65536)
    (hfull : (recvLoop (neededRegs rq + 9) sock.incoming [] []).1.length = neededRegs rq + 9)
    (h : (writeReadMultipleRegisters sock r dev wa wv ra rq st).status = Status.Ok) :
    (writeReadMultipleRegisters sock r' dev wa wv ra rq st').status = Status.UnknownError ∧
    (writeReadMultipleRegisters sock r' dev wa wv ra rq st').result = [] := by
  unfold writeReadMultipleRegisters at h ⊢
  cases hc : sock.connected
  · simp [hc] at h
  · simp only [hc, Bool.not_true, Bool.false_eq_true, if_false, awaitResponse_fst] at h ⊢
    by_cases hlen : (recvLoop (neededRegs rq + 9) sock.incoming [] []).1.length = neededRegs rq + 9
    · obtain ⟨b0, b1, b2, b3, b4, b5, b6, b7, b8, rest, hp⟩ :=
        exists_nine (recvLoop (neededRegs rq + 9) sock.incoming [] []).1 (by omega)
      rw [hp] at hlen
      simp only [hp, hlen, if_true, getU16_cons, getU8_cons] at h ⊢
      split at h
      · rename_i hcond
        rw [if_neg (by intro hc'; exact hne (hcond.1.symm.trans hc'.1))]
        exact ⟨rfl, rfl⟩
      · simp at h
    · exact absurd hfull hlen

theorem readFifoQueue_tid (sock : Socket) (r r' : Nat) (dev a : Nat) (st st' : Status)
    (c : Bytes) (rest : List (Option Bytes))
    (hne : r % 65536 ≠ r' % 65536) (hin : sock.incoming = some c :: rest)
    (hsize : 12 ≤ c.length) (hbit : highBit (c.getD 7 0) = false)
    (h : (readFifoQueue sock r dev a st).status = Status.Ok) :
    (readFifoQueue sock r' dev a st').status = Status.UnknownError ∧
    (readFifoQueue sock r' dev a st').result = [] := by
  unfold readFifoQueue at h ⊢
  cases hc : sock.connected
  · simp [hc] at h
  · simp only [hc, Bool.not_true, Bool.false_eq_true, if_false] at h ⊢
    simp only [Socket.waitForReadyRead, Socket.readAll, Socket.write, hin, Bool.not_true,
      Bool.false_eq_true, if_false, List.nil_append] at h ⊢
    have hlen : 12 ≤ c.length ∧ highBit (c.getD 7 0) = false := ⟨hsize, hbit⟩
    obtain ⟨b0, b1, b2, b3, b4, b5, b6, b7, b8, tl, hp⟩ := exists_nine c (by omega)
    rw [hp] at hlen
    simp only [hp, hlen, and_self, if_true, getU16_cons, getU8_cons] at h ⊢
    split at h
    · rename_i hcond
      rw [if_neg (by intro hc'; exact hne (hcond.1.symm.trans hc'.1))]
      exact ⟨rfl, rfl⟩
    · simp at h

theorem executeCustomFunction_tid (sock : Socket) (r r' : Nat) (dev f : Nat) (data : Bytes)
    (st st' : Status) (c : Bytes) (rest : List (Option Bytes))
    (hne : r % 65536 ≠ r' % 65536) (hin : sock.incoming = some c :: rest)
    (hsize : 9 ≤ c.length) (hbit : highBit (c.getD 7 0) = false)
    (h : (executeCustomFunction sock r dev f data st).status = Status.Ok) :
    (executeCustomFunction sock r' dev f data st').status = Status.UnknownError ∧
    (executeCustomFunction sock r' dev f data st').result = [] := by
  unfold executeCustomFunction at h ⊢
  cases hc : sock.connected
  · simp [hc] at h
  · simp only [hc, Bool.not_true, Bool.false_eq_true, if_false] at h ⊢
    simp only [Socket.waitForReadyRead, Socket.readAll, Socket.write, hin, Bool.not_true,
      Bool.false_eq_true, if_false, List.nil_append] at h ⊢
    have hlen : 9 ≤ c.length ∧ highBit (c.getD 7 0) = false := ⟨hsize, hbit⟩
    obtain ⟨b0, b1, b2, b3, b4, b5, b6, b7, b8, tl, hp⟩ := exists_nine c (by omega)
    rw [hp] at hlen
    simp only [hp, hlen, and_self, if_true, getU16_cons, getU8_cons] at h ⊢
    split at h
    · rename_i hcond
      rw [if_neg (by intro hc'; exact hne (hcond.1.symm.trans hc'.1))]
      exact ⟨rfl, rfl⟩
    · simp at h

theorem readCoils_short (sock : Socket) (r : Nat) (dev a q : Nat) (st : Status)
    (hc : sock.connected = true)
    (hlt : (recvLoop (neededBits q + 9) sock.incoming [] []).1.length < neededBits q + 9)
    (h9 : (recvLoop (neededBits q + 9) sock.incoming [] []).1.length ≠ 9) :
    (readCoils sock r dev a q st).status = Status.Timeout ∧ (readCoils sock r dev a q st).result = [] := by
  have hne : ¬ (recvLoop (neededBits q + 9) sock.incoming [] []).1.length = neededBits q + 9 := by omega
  unfold readCoils
  simp only [hc, Bool.not_true, Bool.false_eq_true, if_false, awaitResponse_fst, hne]
  simp [whatWasWrong, h9]

theorem readDiscreteInputs_short (sock : Socket) (r : Nat) (dev a q : Nat) (st : Status)
    (hc : sock.connected = true)
    (hlt : (recvLoop (neededBits q + 9) sock.incoming [] []).1.length < neededBits q + 9)
    (h9 : (recvLoop (neededBits q + 9) sock.incoming [] []).1.length ≠ 9) :
    (readDiscreteInputs sock r dev a q st).status = Status.Timeout ∧ (readDiscreteInputs sock r dev a q st).result = [] := by
  have hne : ¬ (recvLoop (neededBits q + 9) sock.incoming [] []).1.length = neededBits q + 9 := by omega
  unfold readDiscreteInputs
  simp only [hc, Bool.not_true, Bool.false_eq_true, if_false, awaitResponse_fst, hne]
  simp [whatWasWrong, h9]

theorem readHoldingRegisters_short (sock : Socket) (r : Nat) (dev a q : Nat) (st : Status)
    (hc : sock.connected = true)
    (hlt : (recvLoop (neededRegs q + 9) sock.incoming [] []).1.length < neededRegs q + 9)
    (h9 : (recvLoop (neededRegs q + 9) sock.incoming [] []).1.length ≠ 9) :
    (readHoldingRegisters sock r dev a q st).status = Status.Timeout ∧ (readHoldingRegisters sock r dev a q st).result = [] := by
  have hne : ¬ (recvLoop (neededRegs q + 9) sock.incoming [] []).1.length = neededRegs q + 9 := by omega
  unfold readHoldingRegisters
  simp only [hc, Bool.not_true, Bool.false_eq_true, if_false, awaitResponse_fst, hne]
  simp [whatWasWrong, h9]

theorem readInputRegisters_short (sock : Socket) (r : Nat) (dev a q : Nat) (st : Status)
    (hc : sock.connected = true)
    (hlt : (recvLoop (neededRegs q + 9) sock.incoming [] []).1.length < neededRegs q + 9)
    (h9 : (recvLoop (neededRegs q + 9) sock.incoming [] []).1.length ≠ 9) :
    (readInputRegisters sock r dev a q st).status = Status.Timeout ∧ (readInputRegisters sock r dev a q st).result = [] := by
  have hne : ¬ (recvLoop (neededRegs q + 9) sock.incoming [] []).1.length = neededRegs q + 9 := by omega
  unfold readInputRegisters
  simp only [hc, Bool.not_true, Bool.false_eq_true, if_false, awaitResponse_fst, hne]
  simp [whatWasWrong, h9]

theorem writeSingleCoil_short (sock : Socket) (r : Nat) (dev a : Nat) (v : Bool) (st : Status)
    (hc : sock.connected = true)
    (hlt : (recvLoop (12) sock.incoming [] []).1.length < 12)
    (h9 : (recvLoop (12) sock.incoming [] []).1.length ≠ 9) :
    (writeSingleCoil sock r dev a v st).status = Status.Timeout ∧ (writeSingleCoil sock r dev a v st).result = false := by
  have hne : ¬ (recvLoop (12) sock.incoming [] []).1.length = 12 := by omega
  unfold writeSingleCoil
  simp only [hc, Bool.not_true, Bool.false_eq_true, if_false, awaitResponse_fst, hne]
  simp [whatWasWrong, h9]

theorem writeSingleRegister_short (sock : Socket) (r : Nat) (dev a x : Nat) (st : Status)
    (hc : sock.connected = true)
    (hlt : (recvLoop (12) sock.incoming [] []).1.length < 12)
    (h9 : (recvLoop (12) sock.incoming [] []).1.length ≠ 9) :
    (writeSingleRegister sock r dev a x st).status = Status.Timeout ∧ (writeSingleRegister sock r dev a x st).result = false := by
  have hne : ¬ (recvLoop (12) sock.incoming [] []).1.length = 12 := by omega
  unfold writeSingleRegister
  simp only [hc, Bool.not_true, Bool.false_eq_true, if_false, awaitResponse_fst, hne]
  simp [whatWasWrong, h9]

theorem writeMultipleCoils_short (sock : Socket) (r : Nat) (dev a : Nat) (coils : List Bool) (st : Status)
    (hc : sock.connected = true)
    (hlt : (recvLoop (12) sock.incoming [] []).1.length < 12)
    (h9 : (recvLoop (12) sock.incoming [] []).1.length ≠ 9) :
    (writeMultipleCoils sock r dev a coils st).status = Status.Timeout ∧ (writeMultipleCoils sock r dev a coils st).result = false := by
  have hne : ¬ (recvLoop (12) sock.incoming [] []).1.length = 12 := by omega
  unfold writeMultipleCoils
  simp only [hc, Bool.not_true, Bool.false_eq_true, if_false, awaitResponse_fst, hne]
  simp [whatWasWrong, h9]

theorem writeMultipleRegisters_short (sock : Socket) (r : Nat) (dev a : Nat) (regs : List Nat) (st : Status)
    (hc : sock.connected = true)
    (hlt : (recvLoop (12) sock.incoming [] []).1.length < 12)
    (h9 : (recvLoop (12) sock.incoming [] []).1.length ≠ 9) :
    (writeMultipleRegisters sock r dev a regs st).status = Status.Timeout ∧ (writeMultipleRegisters sock r dev a regs st).result = false := by
  have hne : ¬ (recvLoop (12) sock.incoming [] []).1.length = 12 := by omega
  unfold writeMultipleRegisters
  simp only [hc, Bool.not_true, Bool.false_eq_true, if_false, awaitResponse_fst, hne]
  simp [whatWasWrong, h9]

theorem maskWriteRegister_short (sock : Socket) (r : Nat) (dev a am om : Nat) (st : Status)
    (hc : sock.connected = true)
    (hlt : (recvLoop (14) sock.incoming [] []).1.length < 14)
    (h9 : (recvLoop (14) sock.incoming [] []).1.length ≠ 9) :
    (maskWriteRegister sock r dev a am om st).status = Status.Timeout ∧ (maskWriteRegister sock r dev a am om st).result = false := by
  have hne : ¬ (recvLoop (14) sock.incoming [] []).1.length = 14 := by omega
  unfold maskWriteRegister
  simp only [hc, Bool.not_true, Bool.false_eq_true, if_false, awaitResponse_fst, hne]
  simp [whatWasWrong, h9]

theorem writeReadMultipleRegisters_short (sock : Socket) (r : Nat) (dev a : Nat) (regs : List Nat) (ra rq : Nat) (st : Status)
    (hc : sock.connected = true)
    (hlt : (recvLoop (neededRegs rq + 9) sock.incoming [] []).1.length < neededRegs rq + 9)
    (h9 : (recvLoop (neededRegs rq + 9) sock.incoming [] []).1.length ≠ 9) :
    (writeReadMultipleRegisters sock r dev a regs ra rq st).status = Status.Timeout ∧ (writeReadMultipleRegisters sock r dev a regs ra rq st).result = [] := by
  have hne : ¬ (recvLoop (neededRegs rq + 9) sock.incoming [] []).1.length = neededRegs rq + 9 := by omega
  unfold writeReadMultipleRegisters
  simp only [hc, Bool.not_true, Bool.false_eq_true, if_false, awaitResponse_fst, hne]
  simp [whatWasWrong, h9]

theorem putU16_of_lt (x : Nat) (h : x < 65536) : putU16 x = [x / 256, x % 256] := by
  unfold putU16
  rw [Nat.mod_eq_of_lt (show x / 256 < 256 by omega)]

theorem putU8_of_lt (x : Nat) (h : x < 256) : putU8 x = [x] := by
  unfold putU8
  rw [Nat.mod_eq_of_lt h]

theorem readCoils_written (sock : Socket) (r : Nat) (dev a q : Nat) (st : Status)
    (hc : sock.connected = true) :
    (readCoils sock r dev a q st).socket.written = sock.written ++
      [putU16 (r % 65536) ++ putU16 0 ++ putU16 6 ++ putU8 dev ++ putU8 0x01 ++ putU16 a ++
        putU16 q] := by
  unfold readCoils
  simp only [hc, Bool.not_true, Bool.false_eq_true, if_false]
  repeat' split
  all_goals rfl

theorem readDiscreteInputs_written (sock : Socket) (r : Nat) (dev a q : Nat) (st : Status)
    (hc : sock.connected = true) :
    (readDiscreteInputs sock r dev a q st).socket.written = sock.written ++
      [putU16 (r % 65536) ++ putU16 0 ++ putU16 6 ++ putU8 dev ++ putU8 0x02 ++ putU16 a ++
        putU16 q] := by
  unfold readDiscreteInputs
  simp only [hc, Bool.not_true, Bool.false_eq_true, if_false]
  repeat' split
  all_goals rfl

theorem readHoldingRegisters_written (sock : Socket) (r : Nat) (dev a q : Nat) (st : Status)
    (hc : sock.connected = true) :
    (readHoldingRegisters sock r dev a q st).socket.written = sock.written ++
      [putU16 (r % 65536) ++ putU16 0 ++ putU16 6 ++ putU8 dev ++ putU8 0x03 ++ putU16 a ++
        putU16 q] := by
  unfold readHoldingRegisters
  simp only [hc, Bool.not_true, Bool.false_eq_true, if_false]
  repeat' split
  all_goals rfl

theorem readInputRegisters_written (sock : Socket) (r : Nat) (dev a q : Nat) (st : Status)
    (hc : sock.connected = true) :
    (readInputRegisters sock r dev a q st).socket.written = sock.written ++
      [putU16 (r % 65536) ++ putU16 0 ++ putU16 6 ++ putU8 dev ++ putU8 0x04 ++ putU16 a ++
        putU16 q] := by
  unfold readInputRegisters
  simp only [hc, Bool.not_true, Bool.false_eq_true, if_false]
  repeat' split
  all_goals rfl

theorem writeSingleCoil_written (sock : Socket) (r : Nat) (dev a : Nat) (v : Bool) (st : Status)
    (hc : sock.connected = true) :
    (writeSingleCoil sock r dev a v st).socket.written = sock.written ++
      [putU16 (r % 65536) ++ putU16 0 ++ putU16 6 ++ putU8 dev ++ putU8 0x05 ++ putU16 a ++
        putU16 (if v then 0xFF00 else 0x0000)] := by
  unfold writeSingleCoil
  simp only [hc, Bool.not_true, Bool.false_eq_true, if_false]
  repeat' split
  all_goals rfl

theorem writeSingleRegister_written (sock : Socket) (r : Nat) (dev a x : Nat) (st : Status)
    (hc : sock.connected = true) :
    (writeSingleRegister sock r dev a x st).socket.written = sock.written ++
      [putU16 (r % 65536) ++ putU16 0 ++ putU16 6 ++ putU8 dev ++ putU8 0x06 ++ putU16 a ++
        putU16 x] := by
  unfold writeSingleRegister
  simp only [hc, Bool.not_true, Bool.false_eq_true, if_false]
  repeat' split
  all_goals rfl

theorem maskWriteRegister_written (sock : Socket) (r : Nat) (dev a am om : Nat) (st : Status)
    (hc : sock.connected = true) :
    (maskWriteRegister sock r dev a am om st).socket.written = sock.written ++
      [putU16 (r % 65536) ++ putU16 0 ++ putU16 8 ++ putU8 dev ++ putU8 0x16 ++ putU16 a ++
        putU16 am ++ putU16 om] := by
  unfold maskWriteRegister
  simp only [hc, Bool.not_true, Bool.false_eq_true, if_false]
  repeat' split
  all_goals rfl

theorem writeMultipleRegisters_written (sock : Socket) (r dev a : Nat) (regs : List Nat)
    (st : Status) (hc : sock.connected = true) :
    (writeMultipleRegisters sock r dev a regs st).socket.written = sock.written ++
      [putU16 (r % 65536) ++ putU16 0 ++ putU16 ((regs.length * 2 % 256 + 7) % 65536) ++
        putU8 dev ++ putU8 0x10 ++ putU16 a ++ putU16 (regs.length % 65536) ++
        putU8 (regs.length * 2 % 256) ++ putRegs regs] := by
  unfold writeMultipleRegisters
  simp only [hc, Bool.not_true, Bool.false_eq_true, if_false]
  repeat' split
  all_goals rfl

theorem writeSingleCoil_value_mismatch (stale : Bytes) (wr : List Bytes)
    (rest : List (Option Bytes)) (chunks : List Bytes) (r dev a x : Nat) (v : Bool) (st : Status)
    (hx : x < 65536) (hne : x ≠ if v then 0xFF00 else 0x0000)
    (hframe : chunks.flatten = putU16 (r % 65536) ++ putU16 0 ++ putU16 6 ++ putU8 dev ++
      putU8 0x05 ++ putU16 a ++ putU16 x) :
    (writeSingleCoil (Socket.mk true stale (chunks.map some ++ rest) wr) r dev a v st).status =
      Status.UnknownError ∧
    (writeSingleCoil (Socket.mk true stale (chunks.map some ++ rest) wr) r dev a v st).result =
      false := by
  have hflen : chunks.flatten.length = 12 := by
    rw [hframe]; simp [putU16, putU8]
  have h7 : highBit (chunks.flatten.getD 7 0) = false := by
    rw [hframe]; simp [putU16, putU8]; exact highBit_small 5 (by omega)
  have hrx := await_frame stale wr
    (putU16 (r % 65536) ++ putU16 0 ++ putU16 6 ++ putU8 dev ++ putU8 0x05
      ++ putU16 a ++ putU16 (if v then 0xFF00 else 0x0000)) chunks rest 12 hflen h7
  unfold writeSingleCoil
  simp only [Bool.not_true, Bool.false_eq_true, if_false, hrx, hflen, if_true]
  rw [hframe]
  simp only [putU16, putU8, List.cons_append, List.nil_append, getU16_cons, getU8_cons]
  have e : x / 256 % 256 * 256 + x % 256 = x := u16_join x hx
  rw [e]
  have hcond : ¬ (v = true ∧ x = 0xFF00 ∨ v = false ∧ x = 0x0000) := by
    cases v <;> simp at hne ⊢ <;> exact hne
  rw [if_neg (fun hc => hcond hc.2.2.2.2.2.2)]
  exact ⟨rfl, rfl⟩

/-! ## Supporting results: exception frames, request length fields, result and status -/

/-- When the chunks that arrive add up to nine bytes whose function code has the high bit set
and the target is longer than nine bytes, the accumulation loop stops with those nine bytes. -/
theorem recvLoop_exception (target : Nat) (rest : List (Option Bytes)) (htarget : 9 < target) :
    ∀ (chunks : List Bytes) (pdu : Bytes),
      (pdu ++ chunks.flatten).length = 9 →
      highBit ((pdu ++ chunks.flatten).getD 7 0) = true →
      (recvLoop target (chunks.map some ++ rest) [] pdu).1 = pdu ++ chunks.flatten := by
  intro chunks
  induction chunks with
  | nil =>
    intro pdu hlen h7
    simp only [List.flatten_nil, List.append_nil] at hlen h7
    have hlt : pdu.length < target := by omega
    have hexc : (decide (9 ≤ pdu.length) && highBit (pdu.getD 7 0)) = true := by
      rw [h7, Bool.and_true]; exact decide_eq_true (by omega)
    cases rest with
    | nil => simp [recvLoop]
    | cons e rest =>
      cases e <;> simp only [recvLoop, hlt, if_true, hexc, List.flatten_nil, List.append_nil,
        List.map_nil, List.nil_append]
  | cons c cs ih =>
    intro pdu hlen h7
    simp only [List.flatten_cons, List.map_cons, List.cons_append] at hlen h7 ⊢
    unfold recvLoop
    have hlt : pdu.length < target := by
      simp only [List.length_append] at hlen
      omega
    by_cases h9 : 9 ≤ pdu.length
    · have hnil : c ++ cs.flatten = [] := by
        simp only [List.length_append] at hlen
        apply List.eq_nil_of_length_eq_zero
        simp only [List.length_append]
        omega
      rw [hnil, List.append_nil] at h7 ⊢
      have hexc : (decide (9 ≤ pdu.length) && highBit (pdu.getD 7 0)) = true := by
        rw [h7, Bool.and_true]; exact decide_eq_true h9
      simp only [hlt, if_true, hexc]
    · have hexc : (decide (9 ≤ pdu.length) && highBit (pdu.getD 7 0)) = false := by
        simp [h9]
      have hc : c.length ≤ target - pdu.length := by
        simp only [List.length_append] at hlen
        omega
      simp only [hlt, if_true, hexc, List.nil_append, List.take_of_length_le hc,
        List.drop_of_length_le hc]
      simp only [Bool.false_eq_true, if_false]
      rw [ih (pdu ++ c) (by simpa using hlen) (by simpa using h7)]
      simp

theorem await_exception (stale : Bytes) (wr : List Bytes) (req : Bytes) (chunks : List Bytes)
    (rest : List (Option Bytes)) (target : Nat) (htarget : 9 < target)
    (hlen : chunks.flatten.length = 9) (h7 : highBit (chunks.flatten.getD 7 0) = true) :
    ((((Socket.mk true stale (chunks.map some ++ rest) wr).readAll.2).write req).awaitResponse
      target).1 = chunks.flatten := by
  have h := recvLoop_exception target rest htarget chunks [] (by simpa using hlen)
    (by simpa using h7)
  simpa [Socket.awaitResponse, Socket.readAll, Socket.write] using h

theorem readCoils_exception (stale : Bytes) (wr : List Bytes) (rest : List (Option Bytes))
    (chunks : List Bytes) (r : Nat) (dev a q : Nat) (st : Status) (htarget : 9 < neededBits q + 9)
    (hlen : chunks.flatten.length = 9) (h7 : highBit (chunks.flatten.getD 7 0) = true) :
    (readCoils (Socket.mk true stale (chunks.map some ++ rest) wr) r dev a q st).status =
      Status.Code (chunks.flatten.getD 8 0) ∧
    (readCoils (Socket.mk true stale (chunks.map some ++ rest) wr) r dev a q st).result = [] := by
  have hne : ¬ (9 = neededBits q + 9) := by omega
  unfold readCoils
  simp only [Bool.not_true, Bool.false_eq_true, if_false]
  rw [await_exception stale wr _ chunks rest (neededBits q + 9) htarget hlen h7]
  simp only [hlen, hne, if_false, whatWasWrong, if_true]
  exact ⟨trivial, trivial⟩

theorem readDiscreteInputs_exception (stale : Bytes) (wr : List Bytes) (rest : List (Option Bytes))
    (chunks : List Bytes) (r : Nat) (dev a q : Nat) (st : Status) (htarget : 9 < neededBits q + 9)
    (hlen : chunks.flatten.length = 9) (h7 : highBit (chunks.flatten.getD 7 0) = true) :
    (readDiscreteInputs (Socket.mk true stale (chunks.map some ++ rest) wr) r dev a q st).status =
      Status.Code (chunks.flatten.getD 8 0) ∧
    (readDiscreteInputs (Socket.mk true stale (chunks.map some ++ rest) wr) r dev a q st).result = [] := by
  have hne : ¬ (9 = neededBits q + 9) := by omega
  unfold readDiscreteInputs
  simp only [Bool.not_true, Bool.false_eq_true, if_false]
  rw [await_exception stale wr _ chunks rest (neededBits q + 9) htarget hlen h7]
  simp only [hlen, hne, if_false, whatWasWrong, if_true]
  exact ⟨trivial, trivial⟩

theorem readHoldingRegisters_exception (stale : Bytes) (wr : List Bytes) (rest : List (Option Bytes))
    (chunks : List Bytes) (r : Nat) (dev a q : Nat) (st : Status) (htarget : 9 < neededRegs q + 9)
    (hlen : chunks.flatten.length = 9) (h7 : highBit (chunks.flatten.getD 7 0) = true) :
    (readHoldingRegisters (Socket.mk true stale (chunks.map some ++ rest) wr) r dev a q st).status =
      Status.Code (chunks.flatten.getD 8 0) ∧
    (readHoldingRegisters (Socket.mk true stale (chunks.map some ++ rest) wr) r dev a q st).result = [] := by
  have hne : ¬ (9 = neededRegs q + 9) := by omega
  unfold readHoldingRegisters
  simp only [Bool.not_true, Bool.false_eq_true, if_false]
  rw [await_exception stale wr _ chunks rest (neededRegs q + 9) htarget hlen h7]
  simp only [hlen, hne, if_false, whatWasWrong, if_true]
  exact ⟨trivial, trivial⟩

theorem readInputRegisters_exception (stale : Bytes) (wr : List Bytes) (rest : List (Option Bytes))
    (chunks : List Bytes) (r : Nat) (dev a q : Nat) (st : Status) (htarget : 9 < neededRegs q + 9)
    (hlen : chunks.flatten.length = 9) (h7 : highBit (chunks.flatten.getD 7 0) = true) :
    (readInputRegisters (Socket.mk true stale (chunks.map some ++ rest) wr) r dev a q st).status =
      Status.Code (chunks.flatten.getD 8 0) ∧
    (readInputRegisters (Socket.mk true stale (chunks.map some ++ rest) wr) r dev a q st).result = [] := by
  have hne : ¬ (9 = neededRegs q + 9) := by omega
  unfold readInputRegisters
  simp only [Bool.not_true, Bool.false_eq_true, if_false]
  rw [await_exception stale wr _ chunks rest (neededRegs q + 9) htarget hlen h7]
  simp only [hlen, hne, if_false, whatWasWrong, if_true]
  exact ⟨trivial, trivial⟩

theorem writeSingleCoil_exception (stale : Bytes) (wr : List Bytes) (rest : List (Option Bytes))
    (chunks : List Bytes) (r : Nat) (dev a : Nat) (v : Bool) (st : Status) (htarget : 9 < 12)
    (hlen : chunks.flatten.length = 9) (h7 : highBit (chunks.flatten.getD 7 0) = true) :
    (writeSingleCoil (Socket.mk true stale (chunks.map some ++ rest) wr) r dev a v st).status =
      Status.Code (chunks.flatten.getD 8 0) ∧
    (writeSingleCoil (Socket.mk true stale (chunks.map some ++ rest) wr) r dev a v st).result = false := by
  have hne : ¬ (9 = 12) := by omega
  unfold writeSingleCoil
  simp only [Bool.not_true, Bool.false_eq_true, if_false]
  rw [await_exception stale wr _ chunks rest (12) htarget hlen h7]
  simp only [hlen, hne, if_false, whatWasWrong, if_true]
  exact ⟨trivial, trivial⟩

theorem writeSingleRegister_exception (stale : Bytes) (wr : List Bytes) (rest : List (Option Bytes))
    (chunks : List Bytes) (r : Nat) (dev a x : Nat) (st : Status) (htarget : 9 < 12)
    (hlen : chunks.flatten.length = 9) (h7 : highBit (chunks.flatten.getD 7 0) = true) :
    (writeSingleRegister (Socket.mk true stale (chunks.map some ++ rest) wr) r dev a x st).status =
      Status.Code (chunks.flatten.getD 8 0) ∧
    (writeSingleRegister (Socket.mk true stale (chunks.map some ++ rest) wr) r dev a x st).result = false := by
  have hne : ¬ (9 = 12) := by omega
  unfold writeSingleRegister
  simp only [Bool.not_true, Bool.false_eq_true, if_false]
  rw [await_exception stale wr _ chunks rest (12) htarget hlen h7]
  simp only [hlen, hne, if_false, whatWasWrong, if_true]
  exact ⟨trivial, trivial⟩

theorem writeMultipleCoils_exception (stale : Bytes) (wr : List Bytes) (rest : List (Option Bytes))
    (chunks : List Bytes) (r : Nat) (dev a : Nat) (coils : List Bool) (st : Status) (htarget : 9 < 12)
    (hlen : chunks.flatten.length = 9) (h7 : highBit (chunks.flatten.getD 7 0) = true) :
    (writeMultipleCoils (Socket.mk true stale (chunks.map some ++ rest) wr) r dev a coils st).status =
      Status.Code (chunks.flatten.getD 8 0) ∧
    (writeMultipleCoils (Socket.mk true stale (chunks.map some ++ rest) wr) r dev a coils st).result = false := by
  have hne : ¬ (9 = 12) := by omega
  unfold writeMultipleCoils
  simp only [Bool.not_true, Bool.false_eq_true, if_false]
  rw [await_exception stale wr _ chunks rest (12) htarget hlen h7]
  simp only [hlen, hne, if_false, whatWasWrong, if_true]
  exact ⟨trivial, trivial⟩

theorem writeMultipleRegisters_exception (stale : Bytes) (wr : List Bytes) (rest : List (Option Bytes))
    (chunks : List Bytes) (r : Nat) (dev a : Nat) (regs : List Nat) (st : Status) (htarget : 9 < 12)
    (hlen : chunks.flatten.length = 9) (h7 : highBit (chunks.flatten.getD 7 0) = true) :
    (writeMultipleRegisters (Socket.mk true stale (chunks.map some ++ rest) wr) r dev a regs st).status =
      Status.Code (chunks.flatten.getD 8 0) ∧
    (writeMultipleRegisters (Socket.mk true stale (chunks.map some ++ rest) wr) r dev a regs st).result = false := by
  have hne : ¬ (9 = 12) := by omega
  unfold writeMultipleRegisters
  simp only [Bool.not_true, Bool.false_eq_true, if_false]
  rw [await_exception stale wr _ chunks rest (12) htarget hlen h7]
  simp only [hlen, hne, if_false, whatWasWrong, if_true]
  exact ⟨trivial, trivial⟩

theorem maskWriteRegister_exception (stale : Bytes) (wr : List Bytes) (rest : List (Option Bytes))
    (chunks : List Bytes) (r : Nat) (dev a am om : Nat) (st : Status) (htarget : 9 < 14)
    (hlen : chunks.flatten.length = 9) (h7 : highBit (chunks.flatten.getD 7 0) = true) :
    (maskWriteRegister (Socket.mk true stale (chunks.map some ++ rest) wr) r dev a am om st).status =
      Status.Code (chunks.flatten.getD 8 0) ∧
    (maskWriteRegister (Socket.mk true stale (chunks.map some ++ rest) wr) r dev a am om st).result = false := by
  have hne : ¬ (9 = 14) := by omega
  unfold maskWriteRegister
  simp only [Bool.not_true, Bool.false_eq_true, if_false]
  rw [await_exception stale wr _ chunks rest (14) htarget hlen h7]
  simp only [hlen, hne, if_false, whatWasWrong, if_true]
  exact ⟨trivial, trivial⟩

theorem writeReadMultipleRegisters_exception (stale : Bytes) (wr : List Bytes) (rest : List (Option Bytes))
    (chunks : List Bytes) (r : Nat) (dev a : Nat) (regs : List Nat) (ra rq : Nat) (st : Status) (htarget : 9 < neededRegs rq + 9)
    (hlen : chunks.flatten.length = 9) (h7 : highBit (chunks.flatten.getD 7 0) = true) :
    (writeReadMultipleRegisters (Socket.mk true stale (chunks.map some ++ rest) wr) r dev a regs ra rq st).status =
      Status.Code (chunks.flatten.getD 8 0) ∧
    (writeReadMultipleRegisters (Socket.mk true stale (chunks.map some ++ rest) wr) r dev a regs ra rq st).result = [] := by
  have hne : ¬ (9 = neededRegs rq + 9) := by omega
  unfold writeReadMultipleRegisters
  simp only [Bool.not_true, Bool.false_eq_true, if_false]
  rw [await_exception stale wr _ chunks rest (neededRegs rq + 9) htarget hlen h7]
  simp only [hlen, hne, if_false, whatWasWrong, if_true]
  exact ⟨trivial, trivial⟩

theorem readFifoQueue_exception (stale : Bytes) (wr : List Bytes) (rest : List (Option Bytes))
    (frame : Bytes) (r dev a : Nat) (st : Status)
    (hlen : frame.length = 9) (h7 : highBit (frame.getD 7 0) = true) :
    (readFifoQueue (Socket.mk true stale (some frame :: rest) wr) r dev a st).status =
      Status.Code (frame.getD 8 0) ∧
    (readFifoQueue (Socket.mk true stale (some frame :: rest) wr) r dev a st).result = [] := by
  unfold readFifoQueue
  simp only [Socket.waitForReadyRead, Socket.readAll, Socket.write, Bool.not_true,
    Bool.false_eq_true, if_false, List.nil_append, hlen, h7, and_false, whatWasWrong, if_true,
    Bool.true_eq_false]
  exact ⟨trivial, trivial⟩

theorem executeCustomFunction_exception (stale : Bytes) (wr : List Bytes)
    (rest : List (Option Bytes)) (frame : Bytes) (r dev f : Nat) (data : Bytes) (st : Status)
    (hlen : frame.length = 9) (h7 : highBit (frame.getD 7 0) = true) :
    (executeCustomFunction (Socket.mk true stale (some frame :: rest) wr) r dev f data
        st).status = Status.Code (frame.getD 8 0) ∧
    (executeCustomFunction (Socket.mk true stale (some frame :: rest) wr) r dev f data
        st).result = [] := by
  unfold executeCustomFunction
  simp only [Socket.waitForReadyRead, Socket.readAll, Socket.write, Bool.not_true,
    Bool.false_eq_true, if_false, List.nil_append, hlen, h7, and_false, whatWasWrong, if_true,
    Bool.true_eq_false]
  exact ⟨trivial, trivial⟩

/-- Exception frames away from the colliding target length.  When the connection delivers, in
any split into chunks, nine bytes whose byte at offset 7 has the high bit set, every
fixed-length operation whose target length exceeds nine bytes reports the byte at offset 8 as
the status and returns its default result; `readFifoQueue` and `executeCustomFunction` do so
when the nine bytes arrive in one burst. -/
theorem exception_frame_reported (stale : Bytes) (wr : List Bytes) (rest : List (Option Bytes))
    (chunks : List Bytes) (r : Nat) (st : Status) (dev a q x am om ra rq f : Nat) (v : Bool)
    (coils : List Bool) (regs : List Nat) (data : Bytes)
    (hlen : chunks.flatten.length = 9) (h7 : highBit (chunks.flatten.getD 7 0) = true) :
    (0 < neededBits q →
      (readCoils (Socket.mk true stale (chunks.map some ++ rest) wr) r dev a q st).status =
        Status.Code (chunks.flatten.getD 8 0) ∧
      (readCoils (Socket.mk true stale (chunks.map some ++ rest) wr) r dev a q st).result = []) ∧
    (0 < neededBits q →
      (readDiscreteInputs (Socket.mk true stale (chunks.map some ++ rest) wr) r dev a q
        st).status = Status.Code (chunks.flatten.getD 8 0) ∧
      (readDiscreteInputs (Socket.mk true stale (chunks.map some ++ rest) wr) r dev a q
        st).result = []) ∧
    (0 < neededRegs q →
      (readHoldingRegisters (Socket.mk true stale (chunks.map some ++ rest) wr) r dev a q
        st).status = Status.Code (chunks.flatten.getD 8 0) ∧
      (readHoldingRegisters (Socket.mk true stale (chunks.map some ++ rest) wr) r dev a q
        st).result = []) ∧
    (0 < neededRegs q →
      (readInputRegisters (Socket.mk true stale (chunks.map some ++ rest) wr) r dev a q
        st).status = Status.Code (chunks.flatten.getD 8 0) ∧
      (readInputRegisters (Socket.mk true stale (chunks.map some ++ rest) wr) r dev a q
        st).result = []) ∧
    ((writeSingleCoil (Socket.mk true stale (chunks.map some ++ rest) wr) r dev a v st).status =
        Status.Code (chunks.flatten.getD 8 0) ∧
      (writeSingleCoil (Socket.mk true stale (chunks.map some ++ rest) wr) r dev a v st).result =
        false) ∧
    ((writeSingleRegister (Socket.mk true stale (chunks.map some ++ rest) wr) r dev a x
        st).status = Status.Code (chunks.flatten.getD 8 0) ∧
      (writeSingleRegister (Socket.mk true stale (chunks.map some ++ rest) wr) r dev a x
        st).result = false) ∧
    ((writeMultipleCoils (Socket.mk true stale (chunks.map some ++ rest) wr) r dev a coils
        st).status = Status.Code (chunks.flatten.getD 8 0) ∧
      (writeMultipleCoils (Socket.mk true stale (chunks.map some ++ rest) wr) r dev a coils
        st).result = false) ∧
    ((writeMultipleRegisters (Socket.mk true stale (chunks.map some ++ rest) wr) r dev a regs
        st).status = Status.Code (chunks.flatten.getD 8 0) ∧
      (writeMultipleRegisters (Socket.mk true stale (chunks.map some ++ rest) wr) r dev a regs
        st).result = false) ∧
    ((maskWriteRegister (Socket.mk true stale (chunks.map some ++ rest) wr) r dev a am om
        st).status = Status.Code (chunks.flatten.getD 8 0) ∧
      (maskWriteRegister (Socket.mk true stale (chunks.map some ++ rest) wr) r dev a am om
        st).result = false) ∧
    (0 < neededRegs rq →
      (writeReadMultipleRegisters (Socket.mk true stale (chunks.map some ++ rest) wr) r dev a
        regs ra rq st).status = Status.Code (chunks.flatten.getD 8 0) ∧
      (writeReadMultipleRegisters (Socket.mk true stale (chunks.map some ++ rest) wr) r dev a
        regs ra rq st).result = []) ∧
    ((readFifoQueue (Socket.mk true stale (some chunks.flatten :: rest) wr) r dev a st).status =
        Status.Code (chunks.flatten.getD 8 0) ∧
      (readFifoQueue (Socket.mk true stale (some chunks.flatten :: rest) wr) r dev a st).result =
        []) ∧
    ((executeCustomFunction (Socket.mk true stale (some chunks.flatten :: rest) wr) r dev f data
        st).status = Status.Code (chunks.flatten.getD 8 0) ∧
      (executeCustomFunction (Socket.mk true stale (some chunks.flatten :: rest) wr) r dev f data
        st).result = []) :=
  ⟨fun h => readCoils_exception stale wr rest chunks r dev a q st (by omega) hlen h7,
   fun h => readDiscreteInputs_exception stale wr rest chunks r dev a q st (by omega) hlen h7,
   fun h => readHoldingRegisters_exception stale wr rest chunks r dev a q st (by omega) hlen h7,
   fun h => readInputRegisters_exception stale wr rest chunks r dev a q st (by omega) hlen h7,
   writeSingleCoil_exception stale wr rest chunks r dev a v st (by omega) hlen h7,
   writeSingleRegister_exception stale wr rest chunks r dev a x st (by omega) hlen h7,
   writeMultipleCoils_exception stale wr rest chunks r dev a coils st (by omega) hlen h7,
   writeMultipleRegisters_exception stale wr rest chunks r dev a regs st (by omega) hlen h7,
   maskWriteRegister_exception stale wr rest chunks r dev a am om st (by omega) hlen h7,
   fun h => writeReadMultipleRegisters_exception stale wr rest chunks r dev a regs ra rq st
     (by omega) hlen h7,
   readFifoQueue_exception stale wr rest chunks.flatten r dev a st hlen h7,
   executeCustomFunction_exception stale wr rest chunks.flatten r dev f data st hlen h7⟩

/-- The number of bytes the packing loop streams: one flush at every index that is a positive
multiple of 8. -/
theorem packLoop_length :
    ∀ (vs : List Bool) (i tmp : Nat) (out : Bytes), 1 ≤ i →
      (packLoop vs i tmp out).1.length = out.length + ((i + vs.length - 1) / 8 - (i - 1) / 8) := by
  intro vs
  induction vs with
  | nil => intro i tmp out hi; simp [packLoop]
  | cons v vs ih =>
    intro i tmp out hi
    unfold packLoop
    simp only []
    rw [ih (i + 1) _ _ (by omega)]
    by_cases h8 : i % 8 = 0
    · have hcond : i % 8 = 0 ∧ i ≠ 0 := ⟨h8, by omega⟩
      simp only [hcond, and_self, ne_eq, not_false_eq_true, if_true, List.length_append, putU8,
        List.length_cons, List.length_nil]
      omega
    · have hcond : ¬ (i % 8 = 0 ∧ i ≠ 0) := fun h => h8 h.1
      simp only [hcond, if_false, List.length_cons]
      omega

theorem packLoop_length_zero (vs : List Bool) (out : Bytes) (hvs : 1 ≤ vs.length) :
    (packLoop vs 0 0 out).1.length = out.length + (vs.length - 1) / 8 := by
  cases vs with
  | nil => simp at hvs
  | cons v vs =>
    unfold packLoop
    simp only [Nat.zero_mod, ne_eq, not_true_eq_false, and_false, if_false, if_true]
    rw [packLoop_length vs (0 + 1) _ out (by omega)]
    simp only [List.length_cons]
    omega

theorem packLoop_head :
    ∀ (vs : List Bool) (i tmp : Nat) (out : Bytes) (k : Nat), k < out.length →
      (packLoop vs i tmp out).1.getD k 0 = out.getD k 0 := by
  intro vs
  induction vs with
  | nil => intro i tmp out k _; simp [packLoop]
  | cons v vs ih =>
    intro i tmp out k hk
    unfold packLoop
    simp only []
    by_cases hcond : i % 8 = 0 ∧ i ≠ 0
    · rw [if_pos hcond, ih _ _ _ k (by simp; omega), getD_append_left _ _ k hk]
    · rw [if_neg hcond, ih _ _ _ k hk]

theorem writeMultipleCoils_written (sock : Socket) (r dev a : Nat) (coils : List Bool)
    (st : Status) (hc : sock.connected = true) :
    (writeMultipleCoils sock r dev a coils st).socket.written = sock.written ++
      [(packLoop coils 0 0 (putU16 (r % 65536) ++ putU16 0 ++
          putU16 (((if coils.length % 8 ≠ 0 then (coils.length / 8 % 256 + 1) % 256
            else coils.length / 8 % 256) + 7) % 65536) ++
          putU8 dev ++ putU8 0x0F ++ putU16 a ++ putU16 (coils.length % 65536) ++
          putU8 (if coils.length % 8 ≠ 0 then (coils.length / 8 % 256 + 1) % 256
            else coils.length / 8 % 256))).1 ++
        putU8 (packLoop coils 0 0 (putU16 (r % 65536) ++ putU16 0 ++
          putU16 (((if coils.length % 8 ≠ 0 then (coils.length / 8 % 256 + 1) % 256
            else coils.length / 8 % 256) + 7) % 65536) ++
          putU8 dev ++ putU8 0x0F ++ putU16 a ++ putU16 (coils.length % 65536) ++
          putU8 (if coils.length % 8 ≠ 0 then (coils.length / 8 % 256 + 1) % 256
            else coils.length / 8 % 256))).2] := by
  unfold writeMultipleCoils
  simp only [hc, Bool.not_true, Bool.false_eq_true, if_false]
  repeat' split
  all_goals rfl

theorem writeReadMultipleRegisters_written (sock : Socket) (r dev a : Nat) (regs : List Nat)
    (ra rq : Nat) (st : Status) (hc : sock.connected = true) :
    (writeReadMultipleRegisters sock r dev a regs ra rq st).socket.written = sock.written ++
      [putU16 (r % 65536) ++ putU16 0 ++ putU16 ((regs.length * 2 + 12) % 65536) ++
        putU8 dev ++ putU8 0x17 ++ putU16 ra ++ putU16 rq ++ putU16 a ++
        putU16 (regs.length % 65536) ++ putU16 (regs.length * 2 % 65536) ++ putRegs regs] := by
  unfold writeReadMultipleRegisters
  simp only [hc, Bool.not_true, Bool.false_eq_true, if_false]
  repeat' split
  all_goals rfl

theorem readFifoQueue_written (sock : Socket) (r dev a : Nat) (st : Status)
    (hc : sock.connected = true) :
    (readFifoQueue sock r dev a st).socket.written = sock.written ++
      [putU16 (r % 65536) ++ putU16 0 ++ putU16 4 ++ putU8 dev ++ putU8 0x18 ++ putU16 a] := by
  unfold readFifoQueue
  simp only [hc, Bool.not_true, Bool.false_eq_true, if_false]
  rcases hin : sock.incoming with _ | ⟨e, evs⟩
  · simp [Socket.waitForReadyRead, Socket.readAll, Socket.write, hin]
  · cases e with
    | none => simp [Socket.waitForReadyRead, Socket.readAll, Socket.write, hin]
    | some c =>
      simp only [Socket.waitForReadyRead, Socket.readAll, Socket.write, hin, Bool.not_true,
        Bool.false_eq_true, if_false]
      repeat' split
      all_goals rfl

theorem executeCustomFunction_written (sock : Socket) (r dev f : Nat) (data : Bytes)
    (st : Status) (hc : sock.connected = true) :
    (executeCustomFunction sock r dev f data st).socket.written = sock.written ++
      [putU16 (r % 65536) ++ putU16 0 ++ putU16 ((data.length + 2) % 65536) ++ putU8 dev ++
        putU8 f ++ data] := by
  unfold executeCustomFunction
  simp only [hc, Bool.not_true, Bool.false_eq_true, if_false]
  rcases hin : sock.incoming with _ | ⟨e, evs⟩
  · simp [Socket.waitForReadyRead, Socket.readAll, Socket.write, hin]
  · cases e with
    | none => simp [Socket.waitForReadyRead, Socket.readAll, Socket.write, hin]
    | some c =>
      simp only [Socket.waitForReadyRead, Socket.readAll, Socket.write, hin, Bool.not_true,
        Bool.false_eq_true, if_false]
      repeat' split
      all_goals rfl

theorem executeRaw_written (sock : Socket) (data : Bytes) (st : Status)
    (hc : sock.connected = true) :
    (executeRaw sock data st).socket.written = sock.written ++ [data] := by
  unfold executeRaw
  simp only [hc, Bool.not_true, Bool.false_eq_true, if_false]
  rcases hin : sock.incoming with _ | ⟨e, evs⟩
  · simp [Socket.waitForReadyRead, Socket.readAll, Socket.write, hin]
  · cases e <;> simp [Socket.waitForReadyRead, Socket.readAll, Socket.write, hin]

theorem field_of_fixed (t dev fc n : Nat) (tail : Bytes) (hn : n < 65536)
    (htail : tail.length + 2 = n) :
    (putU16 t ++ putU16 0 ++ putU16 n ++ putU8 dev ++ putU8 fc ++ tail).getD 4 0 * 256 +
      (putU16 t ++ putU16 0 ++ putU16 n ++ putU8 dev ++ putU8 fc ++ tail).getD 5 0 + 6 =
      (putU16 t ++ putU16 0 ++ putU16 n ++ putU8 dev ++ putU8 fc ++ tail).length := by
  simp [putU16, putU8]
  omega

/-- Length field of the requests, inside the ranges where no 8-bit or 16-bit counter wraps.
The big-endian field at offsets 4 and 5 of the request written equals the number of bytes that
follow it: always for the fixed-shape requests and `readFifoQueue`; for `writeMultipleCoils`
with 1 to 2040 coils; for `writeMultipleRegisters` with at most 127 values; for
`writeReadMultipleRegisters` and `executeCustomFunction` while the count fits 16 bits. -/
theorem length_field_counts (sock : Socket) (r : Nat) (st : Status)
    (dev a q x am om ra rq f : Nat) (v : Bool) (coils : List Bool) (regs : List Nat)
    (data : Bytes) (hc : sock.connected = true) :
    (∃ req, (readCoils sock r dev a q st).socket.written = sock.written ++ [req] ∧
      req.getD 4 0 * 256 + req.getD 5 0 + 6 = req.length) ∧
    (∃ req, (readDiscreteInputs sock r dev a q st).socket.written = sock.written ++ [req] ∧
      req.getD 4 0 * 256 + req.getD 5 0 + 6 = req.length) ∧
    (∃ req, (readHoldingRegisters sock r dev a q st).socket.written = sock.written ++ [req] ∧
      req.getD 4 0 * 256 + req.getD 5 0 + 6 = req.length) ∧
    (∃ req, (readInputRegisters sock r dev a q st).socket.written = sock.written ++ [req] ∧
      req.getD 4 0 * 256 + req.getD 5 0 + 6 = req.length) ∧
    (∃ req, (writeSingleCoil sock r dev a v st).socket.written = sock.written ++ [req] ∧
      req.getD 4 0 * 256 + req.getD 5 0 + 6 = req.length) ∧
    (∃ req, (writeSingleRegister sock r dev a x st).socket.written = sock.written ++ [req] ∧
      req.getD 4 0 * 256 + req.getD 5 0 + 6 = req.length) ∧
    (1 ≤ coils.length → coils.length ≤ 2040 →
      ∃ req, (writeMultipleCoils sock r dev a coils st).socket.written = sock.written ++ [req] ∧
        req.getD 4 0 * 256 + req.getD 5 0 + 6 = req.length) ∧
    (regs.length ≤ 127 →
      ∃ req, (writeMultipleRegisters sock r dev a regs st).socket.written =
          sock.written ++ [req] ∧
        req.getD 4 0 * 256 + req.getD 5 0 + 6 = req.length) ∧
    (∃ req, (maskWriteRegister sock r dev a am om st).socket.written = sock.written ++ [req] ∧
      req.getD 4 0 * 256 + req.getD 5 0 + 6 = req.length) ∧
    (regs.length * 2 + 12 < 65536 →
      ∃ req, (writeReadMultipleRegisters sock r dev a regs ra rq st).socket.written =
          sock.written ++ [req] ∧
        req.getD 4 0 * 256 + req.getD 5 0 + 6 = req.length) ∧
    (∃ req, (readFifoQueue sock r dev a st).socket.written = sock.written ++ [req] ∧
      req.getD 4 0 * 256 + req.getD 5 0 + 6 = req.length) ∧
    (data.length + 2 < 65536 →
      ∃ req, (executeCustomFunction sock r dev f data st).socket.written =
          sock.written ++ [req] ∧
        req.getD 4 0 * 256 + req.getD 5 0 + 6 = req.length) := by
  refine ⟨⟨_, readCoils_written sock r dev a q st hc, ?_⟩,
    ⟨_, readDiscreteInputs_written sock r dev a q st hc, ?_⟩,
    ⟨_, readHoldingRegisters_written sock r dev a q st hc, ?_⟩,
    ⟨_, readInputRegisters_written sock r dev a q st hc, ?_⟩,
    ⟨_, writeSingleCoil_written sock r dev a v st hc, ?_⟩,
    ⟨_, writeSingleRegister_written sock r dev a x st hc, ?_⟩,
    fun h1 h2 => ⟨_, writeMultipleCoils_written sock r dev a coils st hc, ?_⟩,
    fun h => ⟨_, writeMultipleRegisters_written sock r dev a regs st hc, ?_⟩,
    ⟨_, maskWriteRegister_written sock r dev a am om st hc, ?_⟩,
    fun h => ⟨_, writeReadMultipleRegisters_written sock r dev a regs ra rq st hc, ?_⟩,
    ⟨_, readFifoQueue_written sock r dev a st hc, ?_⟩,
    fun h => ⟨_, executeCustomFunction_written sock r dev f data st hc, ?_⟩⟩
  · simp only [List.append_assoc]
    exact field_of_fixed _ dev 1 6 _ (by omega) (by simp [putU16])
  · simp only [List.append_assoc]
    exact field_of_fixed _ dev 2 6 _ (by omega) (by simp [putU16])
  · simp only [List.append_assoc]
    exact field_of_fixed _ dev 3 6 _ (by omega) (by simp [putU16])
  · simp only [List.append_assoc]
    exact field_of_fixed _ dev 4 6 _ (by omega) (by simp [putU16])
  · simp only [List.append_assoc]
    exact field_of_fixed _ dev 5 6 _ (by omega) (by simp [putU16])
  · simp only [List.append_assoc]
    exact field_of_fixed _ dev 6 6 _ (by omega) (by simp [putU16])
  · have htx : (if coils.length % 8 ≠ 0 then (coils.length / 8 % 256 + 1) % 256
        else coils.length / 8 % 256) = (coils.length + 7) / 8 := by
      split <;> omega
    rw [htx]
    have hfield : ((coils.length + 7) / 8 + 7) % 65536 = (coils.length + 7) / 8 + 7 := by omega
    rw [hfield]
    rw [getD_append_left _ _ 4 (by rw [packLoop_length_zero _ _ h1]; simp [putU16, putU8]; omega),
      getD_append_left _ _ 5 (by rw [packLoop_length_zero _ _ h1]; simp [putU16, putU8]; omega),
      packLoop_head _ _ _ _ 4 (by simp [putU16, putU8]),
      packLoop_head _ _ _ _ 5 (by simp [putU16, putU8]),
      List.length_append, packLoop_length_zero _ _ h1]
    simp [putU16, putU8]
    omega
  · have hfield : (regs.length * 2 % 256 + 7) % 65536 = regs.length * 2 + 7 := by omega
    rw [hfield]
    simp only [List.append_assoc]
    exact field_of_fixed _ dev 16 _ _ (by omega) (by simp [putU16, putU8, putRegs_length]; omega)
  · simp only [List.append_assoc]
    exact field_of_fixed _ dev 22 8 _ (by omega) (by simp [putU16])
  · have hfield : (regs.length * 2 + 12) % 65536 = regs.length * 2 + 12 := by omega
    rw [hfield]
    simp only [List.append_assoc]
    exact field_of_fixed _ dev 23 _ _ (by omega) (by simp [putU16, putRegs_length]; omega)
  · simp only [List.append_assoc]
    exact field_of_fixed _ dev 24 4 _ (by omega) (by simp [putU16])
  · have hfield : (data.length + 2) % 65536 = data.length + 2 := by omega
    rw [hfield]
    simp only [List.append_assoc]
    exact field_of_fixed _ dev f _ _ (by omega) rfl

theorem readCoils_result_ok (sock : Socket) (r : Nat) (dev a q : Nat) (st : Status)
    (h : (readCoils sock r dev a q st).result ≠ []) :
    (readCoils sock r dev a q st).status = Status.Ok := by
  unfold readCoils at h ⊢
  cases hc : sock.connected
  · simp [hc] at h
  · simp only [hc, Bool.not_true, Bool.false_eq_true, if_false, awaitResponse_fst,
      apply_ite Outcome.result, apply_ite Outcome.status] at h ⊢
    split at h
    · rename_i h1
      rw [if_pos h1]
      split at h
      · rename_i h2
        rw [if_pos h2]
      · exact absurd rfl h
    · exact absurd rfl h

theorem readDiscreteInputs_result_ok (sock : Socket) (r : Nat) (dev a q : Nat) (st : Status)
    (h : (readDiscreteInputs sock r dev a q st).result ≠ []) :
    (readDiscreteInputs sock r dev a q st).status = Status.Ok := by
  unfold readDiscreteInputs at h ⊢
  cases hc : sock.connected
  · simp [hc] at h
  · simp only [hc, Bool.not_true, Bool.false_eq_true, if_false, awaitResponse_fst,
      apply_ite Outcome.result, apply_ite Outcome.status] at h ⊢
    split at h
    · rename_i h1
      rw [if_pos h1]
      split at h
      · rename_i h2
        rw [if_pos h2]
      · exact absurd rfl h
    · exact absurd rfl h

theorem readHoldingRegisters_result_ok (sock : Socket) (r : Nat) (dev a q : Nat) (st : Status)
    (h : (readHoldingRegisters sock r dev a q st).result ≠ []) :
    (readHoldingRegisters sock r dev a q st).status = Status.Ok := by
  unfold readHoldingRegisters at h ⊢
  cases hc : sock.connected
  · simp [hc] at h
  · simp only [hc, Bool.not_true, Bool.false_eq_true, if_false, awaitResponse_fst,
      apply_ite Outcome.result, apply_ite Outcome.status] at h ⊢
    split at h
    · rename_i h1
      rw [if_pos h1]
      split at h
      · rename_i h2
        rw [if_pos h2]
      · exact absurd rfl h
    · exact absurd rfl h

theorem readInputRegisters_result_ok (sock : Socket) (r : Nat) (dev a q : Nat) (st : Status)
    (h : (readInputRegisters sock r dev a q st).result ≠ []) :
    (readInputRegisters sock r dev a q st).status = Status.Ok := by
  unfold readInputRegisters at h ⊢
  cases hc : sock.connected
  · simp [hc] at h
  · simp only [hc, Bool.not_true, Bool.false_eq_true, if_false, awaitResponse_fst,
      apply_ite Outcome.result, apply_ite Outcome.status] at h ⊢
    split at h
    · rename_i h1
      rw [if_pos h1]
      split at h
      · rename_i h2
        rw [if_pos h2]
      · exact absurd rfl h
    · exact absurd rfl h

theorem writeSingleCoil_result_ok (sock : Socket) (r : Nat) (dev a : Nat) (v : Bool) (st : Status)
    (h : (writeSingleCoil sock r dev a v st).result ≠ false) :
    (writeSingleCoil sock r dev a v st).status = Status.Ok := by
  unfold writeSingleCoil at h ⊢
  cases hc : sock.connected
  · simp [hc] at h
  · simp only [hc, Bool.not_true, Bool.false_eq_true, if_false, awaitResponse_fst,
      apply_ite Outcome.result, apply_ite Outcome.status] at h ⊢
    split at h
    · rename_i h1
      rw [if_pos h1]
      split at h
      · rename_i h2
        rw [if_pos h2]
      · exact absurd rfl h
    · exact absurd rfl h

theorem writeSingleRegister_result_ok (sock : Socket) (r : Nat) (dev a x : Nat) (st : Status)
    (h : (writeSingleRegister sock r dev a x st).result ≠ false) :
    (writeSingleRegister sock r dev a x st).status = Status.Ok := by
  unfold writeSingleRegister at h ⊢
  cases hc : sock.connected
  · simp [hc] at h
  · simp only [hc, Bool.not_true, Bool.false_eq_true, if_false, awaitResponse_fst,
      apply_ite Outcome.result, apply_ite Outcome.status] at h ⊢
    split at h
    · rename_i h1
      rw [if_pos h1]
      split at h
      · rename_i h2
        rw [if_pos h2]
      · exact absurd rfl h
    · exact absurd rfl h

theorem writeMultipleCoils_result_ok (sock : Socket) (r : Nat) (dev a : Nat) (coils : List Bool) (st : Status)
    (h : (writeMultipleCoils sock r dev a coils st).result ≠ false) :
    (writeMultipleCoils sock r dev a coils st).status = Status.Ok := by
  unfold writeMultipleCoils at h ⊢
  cases hc : sock.connected
  · simp [hc] at h
  · simp only [hc, Bool.not_true, Bool.false_eq_true, if_false, awaitResponse_fst,
      apply_ite Outcome.result, apply_ite Outcome.status] at h ⊢
    split at h
    · rename_i h1
      rw [if_pos h1]
      split at h
      · rename_i h2
        rw [if_pos h2]
      · exact absurd rfl h
    · exact absurd rfl h

theorem writeMultipleRegisters_result_ok (sock : Socket) (r : Nat) (dev a : Nat) (regs : List Nat) (st : Status)
    (h : (writeMultipleRegisters sock r dev a regs st).result ≠ false) :
    (writeMultipleRegisters sock r dev a regs st).status = Status.Ok := by
  unfold writeMultipleRegisters at h ⊢
  cases hc : sock.connected
  · simp [hc] at h
  · simp only [hc, Bool.not_true, Bool.false_eq_true, if_false, awaitResponse_fst,
      apply_ite Outcome.result, apply_ite Outcome.status] at h ⊢
    split at h
    · rename_i h1
      rw [if_pos h1]
      split at h
      · rename_i h2
        rw [if_pos h2]
      · exact absurd rfl h
    · exact absurd rfl h

theorem maskWriteRegister_result_ok (sock : Socket) (r : Nat) (dev a am om : Nat) (st : Status)
    (h : (maskWriteRegister sock r dev a am om st).result ≠ false) :
    (maskWriteRegister sock r dev a am om st).status = Status.Ok := by
  unfold maskWriteRegister at h ⊢
  cases hc : sock.connected
  · simp [hc] at h
  · simp only [hc, Bool.not_true, Bool.false_eq_true, if_false, awaitResponse_fst,
      apply_ite Outcome.result, apply_ite Outcome.status] at h ⊢
    split at h
    · rename_i h1
      rw [if_pos h1]
      split at h
      · rename_i h2
        rw [if_pos h2]
      · exact absurd rfl h
    · exact absurd rfl h

theorem writeReadMultipleRegisters_result_ok (sock : Socket) (r : Nat) (dev a : Nat) (regs : List Nat) (ra rq : Nat) (st : Status)
    (h : (writeReadMultipleRegisters sock r dev a regs ra rq st).result ≠ []) :
    (writeReadMultipleRegisters sock r dev a regs ra rq st).status = Status.Ok := by
  unfold writeReadMultipleRegisters at h ⊢
  cases hc : sock.connected
  · simp [hc] at h
  · simp only [hc, Bool.not_true, Bool.false_eq_true, if_false, awaitResponse_fst,
      apply_ite Outcome.result, apply_ite Outcome.status] at h ⊢
    split at h
    · rename_i h1
      rw [if_pos h1]
      split at h
      · rename_i h2
        rw [if_pos h2]
      · exact absurd rfl h
    · exact absurd rfl h

theorem readFifoQueue_result_ok (sock : Socket) (r dev a : Nat) (st : Status)
    (h : (readFifoQueue sock r dev a st).result ≠ []) :
    (readFifoQueue sock r dev a st).status = Status.Ok := by
  unfold readFifoQueue at h ⊢
  cases hc : sock.connected
  · simp [hc] at h
  · simp only [hc, Bool.not_true, Bool.false_eq_true, if_false] at h ⊢
    rcases hin : sock.incoming with _ | ⟨e, evs⟩
    · simp [Socket.waitForReadyRead, Socket.readAll, Socket.write, hin] at h
    · cases e with
      | none => simp [Socket.waitForReadyRead, Socket.readAll, Socket.write, hin] at h
      | some c =>
        simp only [Socket.waitForReadyRead, Socket.readAll, Socket.write, hin, Bool.not_true,
          Bool.false_eq_true, if_false, List.nil_append, apply_ite Outcome.result,
          apply_ite Outcome.status] at h ⊢
        split at h
        · rename_i h1
          rw [if_pos h1]
          split at h
          · rename_i h2
            rw [if_pos h2]
          · exact absurd rfl h
        · exact absurd rfl h

/-- Result and status of the eleven function-code operations.  Whenever one of them returns a
non-default result (a non-empty list, or true), the status variable holds `Ok` after the call,
whatever it held before. -/
theorem result_implies_ok (sock : Socket) (r : Nat) (st : Status)
    (dev a q x am om ra rq : Nat) (v : Bool) (coils : List Bool) (regs : List Nat) :
    ((readCoils sock r dev a q st).result ≠ [] →
      (readCoils sock r dev a q st).status = Status.Ok) ∧
    ((readDiscreteInputs sock r dev a q st).result ≠ [] →
      (readDiscreteInputs sock r dev a q st).status = Status.Ok) ∧
    ((readHoldingRegisters sock r dev a q st).result ≠ [] →
      (readHoldingRegisters sock r dev a q st).status = Status.Ok) ∧
    ((readInputRegisters sock r dev a q st).result ≠ [] →
      (readInputRegisters sock r dev a q st).status = Status.Ok) ∧
    ((writeSingleCoil sock r dev a v st).result ≠ false →
      (writeSingleCoil sock r dev a v st).status = Status.Ok) ∧
    ((writeSingleRegister sock r dev a x st).result ≠ false →
      (writeSingleRegister sock r dev a x st).status = Status.Ok) ∧
    ((writeMultipleCoils sock r dev a coils st).result ≠ false →
      (writeMultipleCoils sock r dev a coils st).status = Status.Ok) ∧
    ((writeMultipleRegisters sock r dev a regs st).result ≠ false →
      (writeMultipleRegisters sock r dev a regs st).status = Status.Ok) ∧
    ((maskWriteRegister sock r dev a am om st).result ≠ false →
      (maskWriteRegister sock r dev a am om st).status = Status.Ok) ∧
    ((writeReadMultipleRegisters sock r dev a regs ra rq st).result ≠ [] →
      (writeReadMultipleRegisters sock r dev a regs ra rq st).status = Status.Ok) ∧
    ((readFifoQueue sock r dev a st).result ≠ [] →
      (readFifoQueue sock r dev a st).status = Status.Ok) :=
  ⟨readCoils_result_ok sock r dev a q st,
   readDiscreteInputs_result_ok sock r dev a q st,
   readHoldingRegisters_result_ok sock r dev a q st,
   readInputRegisters_result_ok sock r dev a q st,
   writeSingleCoil_result_ok sock r dev a v st,
   writeSingleRegister_result_ok sock r dev a x st,
   writeMultipleCoils_result_ok sock r dev a coils st,
   writeMultipleRegisters_result_ok sock r dev a regs st,
   maskWriteRegister_result_ok sock r dev a am om st,
   writeReadMultipleRegisters_result_ok sock r dev a regs ra rq st,
   readFifoQueue_result_ok sock r dev a st⟩

theorem exists_twelve (l : Bytes) (h : l.length = 12) :
    ∃ b0 b1 b2 b3 b4 b5 b6 b7 b8 b9 b10 b11,
      l = [b0, b1, b2, b3, b4, b5, b6, b7, b8, b9, b10, b11] := by
  match l, h with
  | [b0, b1, b2, b3, b4, b5, b6, b7, b8, b9, b10, b11], _ =>
    exact ⟨b0, b1, b2, b3, b4, b5, b6, b7, b8, b9, b10, b11, rfl⟩

/-- What `writeMultipleRegisters` makes of twelve accumulated bytes. -/
theorem writeMultipleRegisters_full (sock : Socket) (r dev a : Nat) (regs : List Nat)
    (st : Status) (b0 b1 b2 b3 b4 b5 b6 b7 b8 b9 b10 b11 : Nat)
    (hc : sock.connected = true)
    (hp : (recvLoop 12 sock.incoming [] []).1 =
      [b0, b1, b2, b3, b4, b5, b6, b7, b8, b9, b10, b11]) :
    ((b0 * 256 + b1 = r % 65536 ∧ b2 * 256 + b3 = 0 ∧ b4 * 256 + b5 = 6 ∧ b6 = dev ∧
        b7 = 0x10 ∧ b8 * 256 + b9 = a ∧ b10 * 256 + b11 = regs.length) →
      (writeMultipleRegisters sock r dev a regs st).result = true ∧
      (writeMultipleRegisters sock r dev a regs st).status = Status.Ok) ∧
    (¬ (b0 * 256 + b1 = r % 65536 ∧ b2 * 256 + b3 = 0 ∧ b4 * 256 + b5 = 6 ∧ b6 = dev ∧
        b7 = 0x10 ∧ b8 * 256 + b9 = a ∧ b10 * 256 + b11 = regs.length) →
      (writeMultipleRegisters sock r dev a regs st).result = false ∧
      (writeMultipleRegisters sock r dev a regs st).status = Status.UnknownError) := by
  unfold writeMultipleRegisters
  simp only [hc, Bool.not_true, Bool.false_eq_true, if_false, awaitResponse_fst, hp,
    List.length_cons, List.length_nil, getU16_cons, getU8_cons, if_true]
  constructor
  · intro h; rw [if_pos h]; exact ⟨rfl, rfl⟩
  · intro h; rw [if_neg h]; exact ⟨rfl, rfl⟩

theorem or_bit_byte (t k : Nat) (ht : t < 256) (hk : k < 8) :
    (t ||| (0x01 <<< k)) % 256 = t ||| 2 ^ k := by
  rw [Nat.one_shiftLeft]
  apply Nat.mod_eq_of_lt
  have h2 : 2 ^ k < 2 ^ 8 := Nat.pow_lt_pow_right (by decide) hk
  exact Nat.or_lt_two_pow (n := 8) ht h2

theorem getD_append_single (D : Bytes) (x k : Nat) :
    (D ++ [x]).getD k 0 = if k < D.length then D.getD k 0 else if k = D.length then x else 0 := by
  by_cases h1 : k < D.length
  · rw [if_pos h1, getD_append_left D [x] k h1]
  · rw [if_neg h1]
    by_cases h2 : k = D.length
    · rw [if_pos h2, h2]
      simp [List.getD_eq_getElem?_getD]
    · rw [if_neg h2]
      simp only [List.getD_eq_getElem?_getD]
      rw [List.getElem?_eq_none (by simp; omega)]
      rfl

theorem getD_of_drop_cons (all vs : List Bool) (i : Nat) (v : Bool) (h : all.drop i = v :: vs) :
    all.getD i false = v ∧ all.drop (i + 1) = vs := by
  induction all generalizing i with
  | nil => simp at h
  | cons x xs ih =>
    cases i with
    | zero =>
      simp only [List.drop_zero, List.cons.injEq] at h
      simp [h.1, h.2]
    | succ i =>
      simp only [List.drop_succ_cons] at h
      have := ih i h
      simpa using this


/-- One iteration of the packing loop keeps the description of the packed bits: after the
iteration at index `i` the flushed bytes `D1` followed by the current byte `tmp2` hold exactly
the coils below `i + 1`. -/
theorem packStep_bits (all : List Bool) (i tmp : Nat) (D : Bytes) (v : Bool)
    (hv : all.getD i false = v) (hD : D.length = (i - 1) / 8) (htmp : tmp < 256)
    (hbits : ∀ j, ((D ++ [tmp]).getD (j / 8) 0).testBit (j % 8) =
      (decide (j < i) && all.getD j false)) :
    ∀ j, (((if i % 8 = 0 ∧ i ≠ 0 then D ++ [tmp] else D) ++
        [if v = true then ((if i % 8 = 0 then 0 else tmp) ||| (0x01 <<< (i % 8))) % 256
          else (if i % 8 = 0 then 0 else tmp)]).getD (j / 8) 0).testBit (j % 8) =
      (decide (j < i + 1) && all.getD j false) := by
  intro j
  have hk : i % 8 < 8 := Nat.mod_lt _ (by decide)
  have htmp1 : (if i % 8 = 0 then 0 else tmp) < 256 := by split <;> omega
  have hj := hbits j
  rw [getD_append_single] at hj ⊢
  by_cases hflush : i % 8 = 0 ∧ i ≠ 0
  · -- a byte is flushed and a fresh one is started
    have hlen1 : (D ++ [tmp]).length = i / 8 := by
      rw [List.length_append, hD]; simp only [List.length_cons, List.length_nil]; omega
    simp only [hflush, and_self, ne_eq, not_false_eq_true, if_true, hlen1]
    rcases Nat.lt_trichotomy (j / 8) (i / 8) with hlt | heq | hgt
    · have hji : j < i := by omega
      rw [if_pos hlt, getD_append_single]
      simp only [hji, decide_True, Bool.true_and] at hj
      have hji1 : j < i + 1 := by omega
      simp only [hji1, decide_True, Bool.true_and]
      exact hj
    · rw [if_neg (by omega), if_pos heq]
      by_cases hji : j = i
      · subst hji
        have hlt1 : j < j + 1 := by omega
        simp only [hlt1, decide_True, Bool.true_and, hv]
        cases v
        · simp
        · simp only [if_true]
          have h1 : (0 ||| 1 <<< 0) % 256 = 2 ^ 0 := by decide
          rw [h1, Nat.testBit_two_pow]
          simp only [decide_eq_true_eq]
          omega
      · have hgt : ¬ j < i + 1 := by omega
        simp only [hgt, decide_False, Bool.false_and]
        cases v
        · simp
        · simp only [if_true]
          have h1 : (0 ||| 1 <<< 0) % 256 = 2 ^ 0 := by decide
          rw [h1, Nat.testBit_two_pow]
          simp only [decide_eq_false_iff_not]
          omega
    · rw [if_neg (by omega), if_neg (by omega)]
      have hgt1 : ¬ j < i + 1 := by omega
      simp [hgt1]
  · -- the current byte is kept
    have hlen1 : D.length = i / 8 := by
      rw [hD]
      by_cases h0 : i = 0
      · subst h0; rfl
      · have : i % 8 ≠ 0 := fun h => hflush ⟨h, h0⟩
        omega
    rw [if_neg hflush]
    rw [hlen1] at hj ⊢
    rcases Nat.lt_trichotomy (j / 8) (i / 8) with hlt | heq | hgt
    · have hji : j < i := by omega
      have hji1 : j < i + 1 := by omega
      rw [if_pos hlt] at hj ⊢
      simp only [hji, decide_True, Bool.true_and] at hj
      simp only [hji1, decide_True, Bool.true_and]
      exact hj
    · rw [if_neg (by omega), if_pos heq] at hj ⊢
      have hold : (if i % 8 = 0 then 0 else tmp).testBit (j % 8) =
          (decide (j < i) && all.getD j false) := by
        by_cases h0 : i % 8 = 0
        · have hi0 : i = 0 := by
            by_contra hne
            exact hflush ⟨h0, hne⟩
          subst hi0
          simp
        · rw [if_neg h0]; exact hj
      by_cases hji : j = i
      · subst hji
        have hlt1 : j < j + 1 := by omega
        have hlt0 : ¬ j < j := by omega
        simp only [hlt0, decide_False, Bool.false_and] at hold
        simp only [hlt1, decide_True, Bool.true_and, hv]
        cases v
        · simpa using hold
        · simp only [if_true]
          rw [or_bit_byte _ (j % 8) htmp1 hk, Nat.testBit_or, Nat.testBit_two_pow_self,
            Bool.or_true]
      · have hiff : (j < i + 1) ↔ (j < i) := by omega
        have hd : decide (j < i + 1) = decide (j < i) := by simp only [hiff]
        rw [hd, ← hold]
        cases v
        · simp
        · simp only [if_true]
          rw [or_bit_byte _ (i % 8) htmp1 hk, Nat.testBit_or, Nat.testBit_two_pow]
          have hne8 : ¬ i % 8 = j % 8 := by omega
          simp [hne8]
    · rw [if_neg (by omega), if_neg (by omega)]
      have hgt1 : ¬ j < i + 1 := by omega
      simp [hgt1]


/-- The packing loop, started at index `i` with the flushed bytes `D` behind the header and the
current byte `tmp`, ends with a stream that extends the header by the packed bytes of all the
coils: bit `j mod 8` of byte `j div 8` is coil `j`, and no other bit is set. -/
theorem packLoop_bits (all : List Bool) (hdr : Bytes) :
    ∀ (vs : List Bool) (i tmp : Nat) (D : Bytes),
      all.drop i = vs → D.length = (i - 1) / 8 → tmp < 256 → (∀ b ∈ D, b < 256) →
      (∀ j, ((D ++ [tmp]).getD (j / 8) 0).testBit (j % 8) =
        (decide (j < i) && all.getD j false)) →
      ∃ D', (packLoop vs i tmp (hdr ++ D)).1 ++ putU8 (packLoop vs i tmp (hdr ++ D)).2 =
          hdr ++ D' ∧
        D'.length = (i + vs.length - 1) / 8 + 1 ∧ (∀ b ∈ D', b < 256) ∧
        ∀ j, (D'.getD (j / 8) 0).testBit (j % 8) =
          (decide (j < i + vs.length) && all.getD j false) := by
  intro vs
  induction vs with
  | nil =>
    intro i tmp D _ hD htmp hDb hbits
    refine ⟨D ++ [tmp], ?_, ?_, ?_, ?_⟩
    · simp [packLoop, putU8, Nat.mod_eq_of_lt htmp]
    · simp [hD]
    · intro b hb
      rcases List.mem_append.mp hb with h | h
      · exact hDb b h
      · simp only [List.mem_singleton] at h; omega
    · simpa using hbits
  | cons v vs ih =>
    intro i tmp D hdrop hD htmp hDb hbits
    obtain ⟨hv, hdrop1⟩ := getD_of_drop_cons all vs i v hdrop
    have hk : i % 8 < 8 := Nat.mod_lt _ (by decide)
    have htmp1 : (if i % 8 = 0 then 0 else tmp) < 256 := by split <;> omega
    have hstep := packStep_bits all i tmp D v hv hD htmp hbits
    have hout : (if i % 8 = 0 ∧ i ≠ 0 then (hdr ++ D) ++ putU8 tmp else hdr ++ D) =
        hdr ++ (if i % 8 = 0 ∧ i ≠ 0 then D ++ [tmp] else D) := by
      split
      · simp [putU8, Nat.mod_eq_of_lt htmp]
      · rfl
    have hlen1 : (if i % 8 = 0 ∧ i ≠ 0 then D ++ [tmp] else D).length = (i + 1 - 1) / 8 := by
      split
      · rename_i h
        rw [List.length_append, hD]; simp only [List.length_cons, List.length_nil]; omega
      · rename_i h
        rw [hD]
        by_cases h0 : i = 0
        · subst h0; rfl
        · have : i % 8 ≠ 0 := fun h8 => h ⟨h8, h0⟩
          omega
    have htmp2 : (if v = true then ((if i % 8 = 0 then 0 else tmp) ||| (0x01 <<< (i % 8))) % 256
        else (if i % 8 = 0 then 0 else tmp)) < 256 := by
      split
      · exact Nat.mod_lt _ (by decide)
      · exact htmp1
    have hDb1 : ∀ b ∈ (if i % 8 = 0 ∧ i ≠ 0 then D ++ [tmp] else D), b < 256 := by
      intro b hb
      split at hb
      · rcases List.mem_append.mp hb with h | h
        · exact hDb b h
        · simp only [List.mem_singleton] at h; omega
      · exact hDb b hb
    obtain ⟨D', h1, h2, h3, h4⟩ := ih (i + 1) _ _ hdrop1 hlen1 htmp2 hDb1 hstep
    refine ⟨D', ?_, ?_, h3, ?_⟩
    · unfold packLoop
      simp only []
      rw [hout]
      exact h1
    · rw [h2]; simp only [List.length_cons]; congr 2; omega
    · intro j
      rw [h4 j]
      simp only [List.length_cons]
      have : (j < i + 1 + vs.length) ↔ (j < i + (vs.length + 1)) := by omega
      simp only [this]

/-- The request of `writeMultipleCoils` is its header followed by the packed coils. -/
theorem packLoop_all (coils : List Bool) (hdr : Bytes) :
    ∃ D', (packLoop coils 0 0 hdr).1 ++ putU8 (packLoop coils 0 0 hdr).2 = hdr ++ D' ∧
      D'.length = (coils.length - 1) / 8 + 1 ∧ (∀ b ∈ D', b < 256) ∧
      ∀ j, (D'.getD (j / 8) 0).testBit (j % 8) = coils.getD j false := by
  have h := packLoop_bits coils hdr coils 0 0 [] (by simp) (by simp) (by decide) (by simp)
    (by
      intro j
      rw [getD_append_single]
      simp only [List.length_nil, Nat.not_lt_zero, if_false, decide_False, Bool.false_and]
      split <;> simp)
  obtain ⟨D', h1, h2, h3, h4⟩ := h
  refine ⟨D', by simpa using h1, by simpa using h2, h3, ?_⟩
  intro j
  rw [h4 j]
  by_cases hj : j < coils.length
  · have hj0 : j < 0 + coils.length := by omega
    simp only [hj0, decide_True, Bool.true_and]
  · have hnone : coils.getD j false = false := by
      simp only [List.getD_eq_getElem?_getD]
      rw [List.getElem?_eq_none (by omega)]
      rfl
    rw [hnone, Bool.and_false]

/-- The request of `writeReadMultipleRegisters` is `18 + 2n` bytes long for `n` write values:
the write byte count is streamed as a 16-bit value. -/
theorem writeReadMultipleRegisters_request_length (sock : Socket) (r dev a : Nat)
    (regs : List Nat) (ra rq : Nat) (st : Status) (hc : sock.connected = true) :
    ∃ req, (writeReadMultipleRegisters sock r dev a regs ra rq st).socket.written =
        sock.written ++ [req] ∧ req.length = 18 + 2 * regs.length ∧
      req.drop 16 = putU16 (regs.length * 2 % 65536) ++ putRegs regs := by
  refine ⟨_, writeReadMultipleRegisters_written sock r dev a regs ra rq st hc, ?_, ?_⟩
  · simp [putU16, putU8, putRegs_length]; omega
  · simp [putU16, putU8]

/-- Every well-formed Read FIFO Queue response (length field `6 + 2N`, byte count `2N + 2`,
FIFO count `N`, then `N` words) that arrives in one burst is rejected with `UnknownError`. -/
theorem readFifoQueue_wellformed_rejected (stale : Bytes) (wr : List Bytes)
    (rest : List (Option Bytes)) (r dev a : Nat) (ws : List Nat) (st : Status) :
    (readFifoQueue (Socket.mk true stale
        (some (putU16 (r % 65536) ++ putU16 0 ++ putU16 (6 + 2 * ws.length) ++ putU8 dev ++
          putU8 0x18 ++ putU16 (2 * ws.length + 2) ++ putU16 ws.length ++ putRegs ws) :: rest)
        wr) r dev a st).status = Status.UnknownError ∧
    (readFifoQueue (Socket.mk true stale
        (some (putU16 (r % 65536) ++ putU16 0 ++ putU16 (6 + 2 * ws.length) ++ putU8 dev ++
          putU8 0x18 ++ putU16 (2 * ws.length + 2) ++ putU16 ws.length ++ putRegs ws) :: rest)
        wr) r dev a st).result = [] := by
  have h18 : highBit (0x18 % 256) = false := by decide
  have hne : ¬ (((6 + 2 * ws.length) / 256 % 256 * 256 + (6 + 2 * ws.length) % 256 : Nat) : Int) =
      (((2 * ws.length + 2) / 256 % 256 * 256 + (2 * ws.length + 2) % 256 : Nat) : Int) - 2 := by
    omega
  unfold readFifoQueue
  simp only [Socket.waitForReadyRead, Socket.readAll, Socket.write, Bool.not_true,
    Bool.false_eq_true, if_false, List.nil_append, putU16, putU8, List.cons_append,
    List.length_cons, getU16_cons, getU8_cons, List.getD_cons_succ, List.getD_cons_zero, h18]
  rw [if_pos ⟨by omega, trivial⟩, if_neg (fun h => hne h.2.2.1)]
  exact ⟨rfl, rfl⟩

/-- Below 32768 the byte count of the register reads does not wrap: the target is `9 + 2q`. -/
theorem neededRegs_no_wrap (q : Nat) (hq : q ≤ 32767) : neededRegs q + 9 = 9 + 2 * q := by
  unfold neededRegs; omega

theorem regsLoop_nil (n : Nat) : regsLoop n [] = List.replicate n 0 := by
  induction n with
  | zero => rfl
  | succ n ih => simp only [regsLoop, getU16, ih, List.replicate_succ]

/-- Register reads whose byte count wraps to zero.  When `quantity * 2` is a multiple of
65536 the target length is 9, and the nine bytes of an empty response are accepted with status
`Ok` and decoded into `quantity` zero words. -/
theorem readHoldingRegisters_wrapped (stale : Bytes) (wr : List Bytes)
    (rest : List (Option Bytes)) (r dev a q : Nat) (st : Status) (hdev : dev < 256)
    (hq : neededRegs q = 0) :
    (readHoldingRegisters (Socket.mk true stale
        (some (putU16 (r % 65536) ++ putU16 0 ++ putU16 3 ++ putU8 dev ++ putU8 0x03 ++
          putU8 0) :: rest) wr) r dev a q st).status = Status.Ok ∧
    (readHoldingRegisters (Socket.mk true stale
        (some (putU16 (r % 65536) ++ putU16 0 ++ putU16 3 ++ putU8 dev ++ putU8 0x03 ++
          putU8 0) :: rest) wr) r dev a q st).result = List.replicate q 0 := by
  have e1 : r % 65536 / 256 % 256 * 256 + r % 65536 % 256 = r % 65536 := by omega
  have e3 : dev % 256 = dev := by omega
  have hrx := await_frame stale wr
    (putU16 (r % 65536) ++ putU16 0 ++ putU16 6 ++ putU8 dev ++ putU8 0x03
      ++ putU16 a ++ putU16 q)
    [putU16 (r % 65536) ++ putU16 0 ++ putU16 3 ++ putU8 dev ++ putU8 0x03 ++ putU8 0] rest 9
    (by simp [putU16, putU8])
    (by simp [putU16, putU8]; exact highBit_small 3 (by omega))
  simp only [List.map_cons, List.map_nil, List.flatten_cons, List.flatten_nil, List.append_nil,
    List.singleton_append] at hrx
  unfold readHoldingRegisters
  simp only [hq, Bool.not_true, Bool.false_eq_true, if_false, Nat.zero_add, hrx]
  simp only [putU16, putU8, List.cons_append, List.nil_append, List.length_cons,
    List.length_nil, getU16_cons, getU8_cons]
  simp [e1, e3, regsLoop_nil]

/-- What `readCoils` makes of an accumulated response of the target length. -/
theorem readCoils_full (sock : Socket) (r : Nat) (dev a q : Nat) (st : Status)
    (b0 b1 b2 b3 b4 b5 b6 b7 b8 : Nat) (d : Bytes) (hc : sock.connected = true)
    (hp : (recvLoop (neededBits q + 9) sock.incoming [] []).1 =
      b0 :: b1 :: b2 :: b3 :: b4 :: b5 :: b6 :: b7 :: b8 :: d)
    (hlen : d.length = neededBits q) :
    ((b0 * 256 + b1 = r % 65536 ∧ b2 * 256 + b3 = 0 ∧ b4 * 256 + b5 = neededBits q + 3 ∧
        b6 = dev ∧ b7 = 0x01 ∧ b8 = neededBits q) →
      (readCoils sock r dev a q st).result = coilsLoop q 0 0 d ∧
      (readCoils sock r dev a q st).status = Status.Ok) ∧
    (¬ (b0 * 256 + b1 = r % 65536 ∧ b2 * 256 + b3 = 0 ∧ b4 * 256 + b5 = neededBits q + 3 ∧
        b6 = dev ∧ b7 = 0x01 ∧ b8 = neededBits q) →
      (readCoils sock r dev a q st).result = [] ∧
      (readCoils sock r dev a q st).status = Status.UnknownError) := by
  have hl : (b0 :: b1 :: b2 :: b3 :: b4 :: b5 :: b6 :: b7 :: b8 :: d).length = neededBits q + 9 := by
    simp only [List.length_cons, hlen]
  unfold readCoils
  simp only [hc, Bool.not_true, Bool.false_eq_true, if_false, awaitResponse_fst, hp, hl,
    getU16_cons, getU8_cons, if_true]
  constructor
  · intro h; rw [if_pos h]; exact ⟨rfl, rfl⟩
  · intro h; rw [if_neg h]; exact ⟨rfl, rfl⟩

/-- What `readDiscreteInputs` makes of an accumulated response of the target length. -/
theorem readDiscreteInputs_full (sock : Socket) (r : Nat) (dev a q : Nat) (st : Status)
    (b0 b1 b2 b3 b4 b5 b6 b7 b8 : Nat) (d : Bytes) (hc : sock.connected = true)
    (hp : (recvLoop (neededBits q + 9) sock.incoming [] []).1 =
      b0 :: b1 :: b2 :: b3 :: b4 :: b5 :: b6 :: b7 :: b8 :: d)
    (hlen : d.length = neededBits q) :
    ((b0 * 256 + b1 = r % 65536 ∧ b2 * 256 + b3 = 0 ∧ b4 * 256 + b5 = neededBits q + 3 ∧
        b6 = dev ∧ b7 = 0x02 ∧ b8 = neededBits q) →
      (readDiscreteInputs sock r dev a q st).result = coilsLoop q 0 0 d ∧
      (readDiscreteInputs sock r dev a q st).status = Status.Ok) ∧
    (¬ (b0 * 256 + b1 = r % 65536 ∧ b2 * 256 + b3 = 0 ∧ b4 * 256 + b5 = neededBits q + 3 ∧
        b6 = dev ∧ b7 = 0x02 ∧ b8 = neededBits q) →
      (readDiscreteInputs sock r dev a q st).result = [] ∧
      (readDiscreteInputs sock r dev a q st).status = Status.UnknownError) := by
  have hl : (b0 :: b1 :: b2 :: b3 :: b4 :: b5 :: b6 :: b7 :: b8 :: d).length = neededBits q + 9 := by
    simp only [List.length_cons, hlen]
  unfold readDiscreteInputs
  simp only [hc, Bool.not_true, Bool.false_eq_true, if_false, awaitResponse_fst, hp, hl,
    getU16_cons, getU8_cons, if_true]
  constructor
  · intro h; rw [if_pos h]; exact ⟨rfl, rfl⟩
  · intro h; rw [if_neg h]; exact ⟨rfl, rfl⟩

/-- What `readHoldingRegisters` makes of an accumulated response of the target length. -/
theorem readHoldingRegisters_full (sock : Socket) (r : Nat) (dev a q : Nat) (st : Status)
    (b0 b1 b2 b3 b4 b5 b6 b7 b8 : Nat) (d : Bytes) (hc : sock.connected = true)
    (hp : (recvLoop (neededRegs q + 9) sock.incoming [] []).1 =
      b0 :: b1 :: b2 :: b3 :: b4 :: b5 :: b6 :: b7 :: b8 :: d)
    (hlen : d.length = neededRegs q) :
    ((b0 * 256 + b1 = r % 65536 ∧ b2 * 256 + b3 = 0 ∧ b4 * 256 + b5 = neededRegs q + 3 ∧
        b6 = dev ∧ b7 = 0x03 ∧ b8 = neededRegs q) →
      (readHoldingRegisters sock r dev a q st).result = regsLoop q d ∧
      (readHoldingRegisters sock r dev a q st).status = Status.Ok) ∧
    (¬ (b0 * 256 + b1 = r % 65536 ∧ b2 * 256 + b3 = 0 ∧ b4 * 256 + b5 = neededRegs q + 3 ∧
        b6 = dev ∧ b7 = 0x03 ∧ b8 = neededRegs q) →
      (readHoldingRegisters sock r dev a q st).result = [] ∧
      (readHoldingRegisters sock r dev a q st).status = Status.UnknownError) := by
  have hl : (b0 :: b1 :: b2 :: b3 :: b4 :: b5 :: b6 :: b7 :: b8 :: d).length = neededRegs q + 9 := by
    simp only [List.length_cons, hlen]
  unfold readHoldingRegisters
  simp only [hc, Bool.not_true, Bool.false_eq_true, if_false, awaitResponse_fst, hp, hl,
    getU16_cons, getU8_cons, if_true]
  constructor
  · intro h; rw [if_pos h]; exact ⟨rfl, rfl⟩
  · intro h; rw [if_neg h]; exact ⟨rfl, rfl⟩

/-- What `readInputRegisters` makes of an accumulated response of the target length. -/
theorem readInputRegisters_full (sock : Socket) (r : Nat) (dev a q : Nat) (st : Status)
    (b0 b1 b2 b3 b4 b5 b6 b7 b8 : Nat) (d : Bytes) (hc : sock.connected = true)
    (hp : (recvLoop (neededRegs q + 9) sock.incoming [] []).1 =
      b0 :: b1 :: b2 :: b3 :: b4 :: b5 :: b6 :: b7 :: b8 :: d)
    (hlen : d.length = neededRegs q) :
    ((b0 * 256 + b1 = r % 65536 ∧ b2 * 256 + b3 = 0 ∧ b4 * 256 + b5 = neededRegs q + 3 ∧
        b6 = dev ∧ b7 = 0x04 ∧ b8 = neededRegs q) →
      (readInputRegisters sock r dev a q st).result = regsLoop q d ∧
      (readInputRegisters sock r dev a q st).status = Status.Ok) ∧
    (¬ (b0 * 256 + b1 = r % 65536 ∧ b2 * 256 + b3 = 0 ∧ b4 * 256 + b5 = neededRegs q + 3 ∧
        b6 = dev ∧ b7 = 0x04 ∧ b8 = neededRegs q) →
      (readInputRegisters sock r dev a q st).result = [] ∧
      (readInputRegisters sock r dev a q st).status = Status.UnknownError) := by
  have hl : (b0 :: b1 :: b2 :: b3 :: b4 :: b5 :: b6 :: b7 :: b8 :: d).length = neededRegs q + 9 := by
    simp only [List.length_cons, hlen]
  unfold readInputRegisters
  simp only [hc, Bool.not_true, Bool.false_eq_true, if_false, awaitResponse_fst, hp, hl,
    getU16_cons, getU8_cons, if_true]
  constructor
  · intro h; rw [if_pos h]; exact ⟨rfl, rfl⟩
  · intro h; rw [if_neg h]; exact ⟨rfl, rfl⟩

/-- What `writeReadMultipleRegisters` makes of an accumulated response of the target length. -/
theorem writeReadMultipleRegisters_full (sock : Socket) (r : Nat) (dev a : Nat) (regs : List Nat) (ra q : Nat) (st : Status)
    (b0 b1 b2 b3 b4 b5 b6 b7 b8 : Nat) (d : Bytes) (hc : sock.connected = true)
    (hp : (recvLoop (neededRegs q + 9) sock.incoming [] []).1 =
      b0 :: b1 :: b2 :: b3 :: b4 :: b5 :: b6 :: b7 :: b8 :: d)
    (hlen : d.length = neededRegs q) :
    ((b0 * 256 + b1 = r % 65536 ∧ b2 * 256 + b3 = 0 ∧ b4 * 256 + b5 = neededRegs q + 3 ∧
        b6 = dev ∧ b7 = 0x17 ∧ b8 = neededRegs q) →
      (writeReadMultipleRegisters sock r dev a regs ra q st).result = regsLoop q d ∧
      (writeReadMultipleRegisters sock r dev a regs ra q st).status = Status.Ok) ∧
    (¬ (b0 * 256 + b1 = r % 65536 ∧ b2 * 256 + b3 = 0 ∧ b4 * 256 + b5 = neededRegs q + 3 ∧
        b6 = dev ∧ b7 = 0x17 ∧ b8 = neededRegs q) →
      (writeReadMultipleRegisters sock r dev a regs ra q st).result = [] ∧
      (writeReadMultipleRegisters sock r dev a regs ra q st).status = Status.UnknownError) := by
  have hl : (b0 :: b1 :: b2 :: b3 :: b4 :: b5 :: b6 :: b7 :: b8 :: d).length = neededRegs q + 9 := by
    simp only [List.length_cons, hlen]
  unfold writeReadMultipleRegisters
  simp only [hc, Bool.not_true, Bool.false_eq_true, if_false, awaitResponse_fst, hp, hl,
    getU16_cons, getU8_cons, if_true]
  constructor
  · intro h; rw [if_pos h]; exact ⟨rfl, rfl⟩
  · intro h; rw [if_neg h]; exact ⟨rfl, rfl⟩


/-- The bit loop reads the same list from two data blocks that agree on the first `q` bits. -/
theorem coilsLoop_agree (q : Nat) (d1 d2 : Bytes)
    (hsame : ∀ k, k < q / 8 → d1.getD k 0 = d2.getD k 0)
    (hlast : ∀ b, b < q % 8 → (d1.getD (q / 8) 0).testBit b = (d2.getD (q / 8) 0).testBit b) :
    coilsLoop q 0 0 d1 = coilsLoop q 0 0 d2 := by
  rw [coilsLoop_data, coilsLoop_data]
  apply List.map_congr_left
  intro i hi
  have hiq : i < q := List.mem_range.mp hi
  by_cases hlt : i / 8 < q / 8
  · rw [hsame (i / 8) hlt]
  · have heq : i / 8 = q / 8 := by omega
    rw [heq]
    exact hlast (i % 8) (by omega)

theorem nine_eq (hdr : Bytes) (h : hdr.length = 9) :
    ∃ b0 b1 b2 b3 b4 b5 b6 b7 b8, hdr = [b0, b1, b2, b3, b4, b5, b6, b7, b8] := by
  match hdr, h with
  | [b0, b1, b2, b3, b4, b5, b6, b7, b8], _ => exact ⟨b0, b1, b2, b3, b4, b5, b6, b7, b8, rfl⟩

theorem readCoils_header_iff (sock : Socket) (r : Nat) (dev a q : Nat) (st : Status)
    (resp : Bytes) (hc : sock.connected = true) (hdev : dev < 256) (hB : neededBits q ≤ 255)
    (hresp : (recvLoop (neededBits q + 9) sock.incoming [] []).1 = resp)
    (hlen : resp.length = neededBits q + 9) (hb : ∀ b ∈ resp, b < 256) :
    ((readCoils sock r dev a q st).status = Status.Ok ↔
      resp.take 9 = putU16 (r % 65536) ++ putU16 0 ++ putU16 (neededBits q + 3) ++ putU8 dev ++
        putU8 0x01 ++ putU8 (neededBits q)) ∧
    (resp.take 9 ≠ putU16 (r % 65536) ++ putU16 0 ++ putU16 (neededBits q + 3) ++ putU8 dev ++
        putU8 0x01 ++ putU8 (neededBits q) →
      (readCoils sock r dev a q st).status = Status.UnknownError ∧
      (readCoils sock r dev a q st).result = []) := by
  obtain ⟨b0, b1, b2, b3, b4, b5, b6, b7, b8, d, rfl⟩ := exists_nine resp (by omega)
  have h0 := hb b0 (by simp)
  have h1 := hb b1 (by simp)
  have h2 := hb b2 (by simp)
  have h3 := hb b3 (by simp)
  have h4 := hb b4 (by simp)
  have h5 := hb b5 (by simp)
  have hd : d.length = neededBits q := by
    simp only [List.length_cons] at hlen
    omega
  have key : (b0 * 256 + b1 = r % 65536 ∧ b2 * 256 + b3 = 0 ∧ b4 * 256 + b5 = neededBits q + 3 ∧
      b6 = dev ∧ b7 = 0x01 ∧ b8 = neededBits q) ↔
      (b0 :: b1 :: b2 :: b3 :: b4 :: b5 :: b6 :: b7 :: b8 :: d).take 9 =
        putU16 (r % 65536) ++ putU16 0 ++ putU16 (neededBits q + 3) ++ putU8 dev ++
          putU8 0x01 ++ putU8 (neededBits q) := by
    simp only [putU16, putU8, List.cons_append, List.nil_append, List.take_succ_cons,
      List.take_zero, List.cons.injEq, and_true]
    constructor
    · rintro ⟨e1, e2, e3, e4, e5, e6⟩
      refine ⟨?_, ?_, ?_, ?_, ?_, ?_, ?_, ?_, ?_⟩ <;> omega
    · rintro ⟨e0, e1, e2, e3, e4, e5, e6, e7, e8⟩
      refine ⟨?_, ?_, ?_, ?_, ?_, ?_⟩ <;> omega
  have hfull := readCoils_full sock r dev a q st b0 b1 b2 b3 b4 b5 b6 b7 b8 d hc hresp hd
  constructor
  · constructor
    · intro hok
      by_cases hcond : (b0 * 256 + b1 = r % 65536 ∧ b2 * 256 + b3 = 0 ∧
          b4 * 256 + b5 = neededBits q + 3 ∧ b6 = dev ∧ b7 = 0x01 ∧ b8 = neededBits q)
      · exact key.mp hcond
      · have hbad := (hfull.2 hcond).2
        rw [hok] at hbad
        exact absurd hbad (by decide)
    · intro heq
      exact (hfull.1 (key.mpr heq)).2
  · intro hne
    have h := hfull.2 (fun hcond => hne (key.mp hcond))
    exact ⟨h.2, h.1⟩

theorem readDiscreteInputs_header_iff (sock : Socket) (r : Nat) (dev a q : Nat) (st : Status)
    (resp : Bytes) (hc : sock.connected = true) (hdev : dev < 256) (hB : neededBits q ≤ 255)
    (hresp : (recvLoop (neededBits q + 9) sock.incoming [] []).1 = resp)
    (hlen : resp.length = neededBits q + 9) (hb : ∀ b ∈ resp, b < 256) :
    ((readDiscreteInputs sock r dev a q st).status = Status.Ok ↔
      resp.take 9 = putU16 (r % 65536) ++ putU16 0 ++ putU16 (neededBits q + 3) ++ putU8 dev ++
        putU8 0x02 ++ putU8 (neededBits q)) ∧
    (resp.take 9 ≠ putU16 (r % 65536) ++ putU16 0 ++ putU16 (neededBits q + 3) ++ putU8 dev ++
        putU8 0x02 ++ putU8 (neededBits q) →
      (readDiscreteInputs sock r dev a q st).status = Status.UnknownError ∧
      (readDiscreteInputs sock r dev a q st).result = []) := by
  obtain ⟨b0, b1, b2, b3, b4, b5, b6, b7, b8, d, rfl⟩ := exists_nine resp (by omega)
  have h0 := hb b0 (by simp)
  have h1 := hb b1 (by simp)
  have h2 := hb b2 (by simp)
  have h3 := hb b3 (by simp)
  have h4 := hb b4 (by simp)
  have h5 := hb b5 (by simp)
  have hd : d.length = neededBits q := by
    simp only [List.length_cons] at hlen
    omega
  have key : (b0 * 256 + b1 = r % 65536 ∧ b2 * 256 + b3 = 0 ∧ b4 * 256 + b5 = neededBits q + 3 ∧
      b6 = dev ∧ b7 = 0x02 ∧ b8 = neededBits q) ↔
      (b0 :: b1 :: b2 :: b3 :: b4 :: b5 :: b6 :: b7 :: b8 :: d).take 9 =
        putU16 (r % 65536) ++ putU16 0 ++ putU16 (neededBits q + 3) ++ putU8 dev ++
          putU8 0x02 ++ putU8 (neededBits q) := by
    simp only [putU16, putU8, List.cons_append, List.nil_append, List.take_succ_cons,
      List.take_zero, List.cons.injEq, and_true]
    constructor
    · rintro ⟨e1, e2, e3, e4, e5, e6⟩
      refine ⟨?_, ?_, ?_, ?_, ?_, ?_, ?_, ?_, ?_⟩ <;> omega
    · rintro ⟨e0, e1, e2, e3, e4, e5, e6, e7, e8⟩
      refine ⟨?_, ?_, ?_, ?_, ?_, ?_⟩ <;> omega
  have hfull := readDiscreteInputs_full sock r dev a q st b0 b1 b2 b3 b4 b5 b6 b7 b8 d hc hresp hd
  constructor
  · constructor
    · intro hok
      by_cases hcond : (b0 * 256 + b1 = r % 65536 ∧ b2 * 256 + b3 = 0 ∧
          b4 * 256 + b5 = neededBits q + 3 ∧ b6 = dev ∧ b7 = 0x02 ∧ b8 = neededBits q)
      · exact key.mp hcond
      · have hbad := (hfull.2 hcond).2
        rw [hok] at hbad
        exact absurd hbad (by decide)
    · intro heq
      exact (hfull.1 (key.mpr heq)).2
  · intro hne
    have h := hfull.2 (fun hcond => hne (key.mp hcond))
    exact ⟨h.2, h.1⟩

theorem readHoldingRegisters_header_iff (sock : Socket) (r : Nat) (dev a q : Nat) (st : Status)
    (resp : Bytes) (hc : sock.connected = true) (hdev : dev < 256) (hB : neededRegs q ≤ 255)
    (hresp : (recvLoop (neededRegs q + 9) sock.incoming [] []).1 = resp)
    (hlen : resp.length = neededRegs q + 9) (hb : ∀ b ∈ resp, b < 256) :
    ((readHoldingRegisters sock r dev a q st).status = Status.Ok ↔
      resp.take 9 = putU16 (r % 65536) ++ putU16 0 ++ putU16 (neededRegs q + 3) ++ putU8 dev ++
        putU8 0x03 ++ putU8 (neededRegs q)) ∧
    (resp.take 9 ≠ putU16 (r % 65536) ++ putU16 0 ++ putU16 (neededRegs q + 3) ++ putU8 dev ++
        putU8 0x03 ++ putU8 (neededRegs q) →
      (readHoldingRegisters sock r dev a q st).status = Status.UnknownError ∧
      (readHoldingRegisters sock r dev a q st).result = []) := by
  obtain ⟨b0, b1, b2, b3, b4, b5, b6, b7, b8, d, rfl⟩ := exists_nine resp (by omega)
  have h0 := hb b0 (by simp)
  have h1 := hb b1 (by simp)
  have h2 := hb b2 (by simp)
  have h3 := hb b3 (by simp)
  have h4 := hb b4 (by simp)
  have h5 := hb b5 (by simp)
  have hd : d.length = neededRegs q := by
    simp only [List.length_cons] at hlen
    omega
  have key : (b0 * 256 + b1 = r % 65536 ∧ b2 * 256 + b3 = 0 ∧ b4 * 256 + b5 = neededRegs q + 3 ∧
      b6 = dev ∧ b7 = 0x03 ∧ b8 = neededRegs q) ↔
      (b0 :: b1 :: b2 :: b3 :: b4 :: b5 :: b6 :: b7 :: b8 :: d).take 9 =
        putU16 (r % 65536) ++ putU16 0 ++ putU16 (neededRegs q + 3) ++ putU8 dev ++
          putU8 0x03 ++ putU8 (neededRegs q) := by
    simp only [putU16, putU8, List.cons_append, List.nil_append, List.take_succ_cons,
      List.take_zero, List.cons.injEq, and_true]
    constructor
    · rintro ⟨e1, e2, e3, e4, e5, e6⟩
      refine ⟨?_, ?_, ?_, ?_, ?_, ?_, ?_, ?_, ?_⟩ <;> omega
    · rintro ⟨e0, e1, e2, e3, e4, e5, e6, e7, e8⟩
      refine ⟨?_, ?_, ?_, ?_, ?_, ?_⟩ <;> omega
  have hfull := readHoldingRegisters_full sock r dev a q st b0 b1 b2 b3 b4 b5 b6 b7 b8 d hc hresp hd
  constructor
  · constructor
    · intro hok
      by_cases hcond : (b0 * 256 + b1 = r % 65536 ∧ b2 * 256 + b3 = 0 ∧
          b4 * 256 + b5 = neededRegs q + 3 ∧ b6 = dev ∧ b7 = 0x03 ∧ b8 = neededRegs q)
      · exact key.mp hcond
      · have hbad := (hfull.2 hcond).2
        rw [hok] at hbad
        exact absurd hbad (by decide)
    · intro heq
      exact (hfull.1 (key.mpr heq)).2
  · intro hne
    have h := hfull.2 (fun hcond => hne (key.mp hcond))
    exact ⟨h.2, h.1⟩

theorem readInputRegisters_header_iff (sock : Socket) (r : Nat) (dev a q : Nat) (st : Status)
    (resp : Bytes) (hc : sock.connected = true) (hdev : dev < 256) (hB : neededRegs q ≤ 255)
    (hresp : (recvLoop (neededRegs q + 9) sock.incoming [] []).1 = resp)
    (hlen : resp.length = neededRegs q + 9) (hb : ∀ b ∈ resp, b < 256) :
    ((readInputRegisters sock r dev a q st).status = Status.Ok ↔
      resp.take 9 = putU16 (r % 65536) ++ putU16 0 ++ putU16 (neededRegs q + 3) ++ putU8 dev ++
        putU8 0x04 ++ putU8 (neededRegs q)) ∧
    (resp.take 9 ≠ putU16 (r % 65536) ++ putU16 0 ++ putU16 (neededRegs q + 3) ++ putU8 dev ++
        putU8 0x04 ++ putU8 (neededRegs q) →
      (readInputRegisters sock r dev a q st).status = Status.UnknownError ∧
      (readInputRegisters sock r dev a q st).result = []) := by
  obtain ⟨b0, b1, b2, b3, b4, b5, b6, b7, b8, d, rfl⟩ := exists_nine resp (by omega)
  have h0 := hb b0 (by simp)
  have h1 := hb b1 (by simp)
  have h2 := hb b2 (by simp)
  have h3 := hb b3 (by simp)
  have h4 := hb b4 (by simp)
  have h5 := hb b5 (by simp)
  have hd : d.length = neededRegs q := by
    simp only [List.length_cons] at hlen
    omega
  have key : (b0 * 256 + b1 = r % 65536 ∧ b2 * 256 + b3 = 0 ∧ b4 * 256 + b5 = neededRegs q + 3 ∧
      b6 = dev ∧ b7 = 0x04 ∧ b8 = neededRegs q) ↔
      (b0 :: b1 :: b2 :: b3 :: b4 :: b5 :: b6 :: b7 :: b8 :: d).take 9 =
        putU16 (r % 65536) ++ putU16 0 ++ putU16 (neededRegs q + 3) ++ putU8 dev ++
          putU8 0x04 ++ putU8 (neededRegs q) := by
    simp only [putU16, putU8, List.cons_append, List.nil_append, List.take_succ_cons,
      List.take_zero, List.cons.injEq, and_true]
    constructor
    · rintro ⟨e1, e2, e3, e4, e5, e6⟩
      refine ⟨?_, ?_, ?_, ?_, ?_, ?_, ?_, ?_, ?_⟩ <;> omega
    · rintro ⟨e0, e1, e2, e3, e4, e5, e6, e7, e8⟩
      refine ⟨?_, ?_, ?_, ?_, ?_, ?_⟩ <;> omega
  have hfull := readInputRegisters_full sock r dev a q st b0 b1 b2 b3 b4 b5 b6 b7 b8 d hc hresp hd
  constructor
  · constructor
    · intro hok
      by_cases hcond : (b0 * 256 + b1 = r % 65536 ∧ b2 * 256 + b3 = 0 ∧
          b4 * 256 + b5 = neededRegs q + 3 ∧ b6 = dev ∧ b7 = 0x04 ∧ b8 = neededRegs q)
      · exact key.mp hcond
      · have hbad := (hfull.2 hcond).2
        rw [hok] at hbad
        exact absurd hbad (by decide)
    · intro heq
      exact (hfull.1 (key.mpr heq)).2
  · intro hne
    have h := hfull.2 (fun hcond => hne (key.mp hcond))
    exact ⟨h.2, h.1⟩

theorem writeReadMultipleRegisters_header_iff (sock : Socket) (r : Nat) (dev a : Nat) (regs : List Nat) (ra q : Nat) (st : Status)
    (resp : Bytes) (hc : sock.connected = true) (hdev : dev < 256) (hB : neededRegs q ≤ 255)
    (hresp : (recvLoop (neededRegs q + 9) sock.incoming [] []).1 = resp)
    (hlen : resp.length = neededRegs q + 9) (hb : ∀ b ∈ resp, b < 256) :
    ((writeReadMultipleRegisters sock r dev a regs ra q st).status = Status.Ok ↔
      resp.take 9 = putU16 (r % 65536) ++ putU16 0 ++ putU16 (neededRegs q + 3) ++ putU8 dev ++
        putU8 0x17 ++ putU8 (neededRegs q)) ∧
    (resp.take 9 ≠ putU16 (r % 65536) ++ putU16 0 ++ putU16 (neededRegs q + 3) ++ putU8 dev ++
        putU8 0x17 ++ putU8 (neededRegs q) →
      (writeReadMultipleRegisters sock r dev a regs ra q st).status = Status.UnknownError ∧
      (writeReadMultipleRegisters sock r dev a regs ra q st).result = []) := by
  obtain ⟨b0, b1, b2, b3, b4, b5, b6, b7, b8, d, rfl⟩ := exists_nine resp (by omega)
  have h0 := hb b0 (by simp)
  have h1 := hb b1 (by simp)
  have h2 := hb b2 (by simp)
  have h3 := hb b3 (by simp)
  have h4 := hb b4 (by simp)
  have h5 := hb b5 (by simp)
  have hd : d.length = neededRegs q := by
    simp only [List.length_cons] at hlen
    omega
  have key : (b0 * 256 + b1 = r % 65536 ∧ b2 * 256 + b3 = 0 ∧ b4 * 256 + b5 = neededRegs q + 3 ∧
      b6 = dev ∧ b7 = 0x17 ∧ b8 = neededRegs q) ↔
      (b0 :: b1 :: b2 :: b3 :: b4 :: b5 :: b6 :: b7 :: b8 :: d).take 9 =
        putU16 (r % 65536) ++ putU16 0 ++ putU16 (neededRegs q + 3) ++ putU8 dev ++
          putU8 0x17 ++ putU8 (neededRegs q) := by
    simp only [putU16, putU8, List.cons_append, List.nil_append, List.take_succ_cons,
      List.take_zero, List.cons.injEq, and_true]
    constructor
    · rintro ⟨e1, e2, e3, e4, e5, e6⟩
      refine ⟨?_, ?_, ?_, ?_, ?_, ?_, ?_, ?_, ?_⟩ <;> omega
    · rintro ⟨e0, e1, e2, e3, e4, e5, e6, e7, e8⟩
      refine ⟨?_, ?_, ?_, ?_, ?_, ?_⟩ <;> omega
  have hfull := writeReadMultipleRegisters_full sock r dev a regs ra q st b0 b1 b2 b3 b4 b5 b6 b7 b8 d hc hresp hd
  constructor
  · constructor
    · intro hok
      by_cases hcond : (b0 * 256 + b1 = r % 65536 ∧ b2 * 256 + b3 = 0 ∧
          b4 * 256 + b5 = neededRegs q + 3 ∧ b6 = dev ∧ b7 = 0x17 ∧ b8 = neededRegs q)
      · exact key.mp hcond
      · have hbad := (hfull.2 hcond).2
        rw [hok] at hbad
        exact absurd hbad (by decide)
    · intro heq
      exact (hfull.1 (key.mpr heq)).2
  · intro hne
    have h := hfull.2 (fun hcond => hne (key.mp hcond))
    exact ⟨h.2, h.1⟩

theorem exists_fourteen (l : Bytes) (h : l.length = 14) :
    ∃ b0 b1 b2 b3 b4 b5 b6 b7 b8 b9 b10 b11 b12 b13,
      l = [b0, b1, b2, b3, b4, b5, b6, b7, b8, b9, b10, b11, b12, b13] := by
  match l, h with
  | [b0, b1, b2, b3, b4, b5, b6, b7, b8, b9, b10, b11, b12, b13], _ =>
    exact ⟨b0, b1, b2, b3, b4, b5, b6, b7, b8, b9, b10, b11, b12, b13, rfl⟩

/-- `writeSingleCoil` on twelve accumulated bytes: true with `Ok` exactly on the echo of the
request, false with `UnknownError` otherwise. -/
theorem writeSingleCoil_echo_iff (sock : Socket) (r dev a : Nat) (v : Bool) (st : Status)
    (resp : Bytes) (hc : sock.connected = true) (hdev : dev < 256) (ha : a < 65536)
    (hresp : (recvLoop 12 sock.incoming [] []).1 = resp) (hlen : resp.length = 12)
    (hb : ∀ b ∈ resp, b < 256) :
    (((writeSingleCoil sock r dev a v st).result = true ∧
        (writeSingleCoil sock r dev a v st).status = Status.Ok) ↔
      resp = putU16 (r % 65536) ++ putU16 0 ++ putU16 6 ++ putU8 dev ++ putU8 0x05 ++
        putU16 a ++ putU16 (if v then 0xFF00 else 0x0000)) ∧
    (resp ≠ putU16 (r % 65536) ++ putU16 0 ++ putU16 6 ++ putU8 dev ++ putU8 0x05 ++
        putU16 a ++ putU16 (if v then 0xFF00 else 0x0000) →
      (writeSingleCoil sock r dev a v st).result = false ∧
      (writeSingleCoil sock r dev a v st).status = Status.UnknownError) := by
  obtain ⟨b0, b1, b2, b3, b4, b5, b6, b7, b8, b9, b10, b11, rfl⟩ := exists_twelve resp hlen
  have h0 := hb b0 (by simp)
  have h1 := hb b1 (by simp)
  have h2 := hb b2 (by simp)
  have h3 := hb b3 (by simp)
  have h4 := hb b4 (by simp)
  have h5 := hb b5 (by simp)
  have h8 := hb b8 (by simp)
  have h9 := hb b9 (by simp)
  have h10 := hb b10 (by simp)
  have h11 := hb b11 (by simp)
  have key : (b0 * 256 + b1 = r % 65536 ∧ b2 * 256 + b3 = 0 ∧ b4 * 256 + b5 = 6 ∧ b6 = dev ∧
      b7 = 0x05 ∧ b8 * 256 + b9 = a ∧
      ((v = true ∧ b10 * 256 + b11 = 0xFF00) ∨ (v = false ∧ b10 * 256 + b11 = 0x0000))) ↔
      [b0, b1, b2, b3, b4, b5, b6, b7, b8, b9, b10, b11] =
        putU16 (r % 65536) ++ putU16 0 ++ putU16 6 ++ putU8 dev ++ putU8 0x05 ++
          putU16 a ++ putU16 (if v then 0xFF00 else 0x0000) := by
    cases v
    · simp only [putU16, putU8, List.cons_append, List.nil_append, List.cons.injEq, and_true,
        Bool.false_eq_true, false_and, false_or, true_and, if_false]
      constructor
      · rintro ⟨e1, e2, e3, e4, e5, e6, e7⟩
        refine ⟨?_, ?_, ?_, ?_, ?_, ?_, ?_, ?_, ?_, ?_, ?_, ?_⟩ <;> omega
      · rintro ⟨e0, e1, e2, e3, e4, e5, e6, e7, e8, e9, e10, e11⟩
        refine ⟨?_, ?_, ?_, ?_, ?_, ?_, ?_⟩ <;> omega
    · simp only [putU16, putU8, List.cons_append, List.nil_append, List.cons.injEq, and_true,
        Bool.true_eq_false, false_and, or_false, true_and, if_true]
      constructor
      · rintro ⟨e1, e2, e3, e4, e5, e6, e7⟩
        refine ⟨?_, ?_, ?_, ?_, ?_, ?_, ?_, ?_, ?_, ?_, ?_, ?_⟩ <;> omega
      · rintro ⟨e0, e1, e2, e3, e4, e5, e6, e7, e8, e9, e10, e11⟩
        refine ⟨?_, ?_, ?_, ?_, ?_, ?_, ?_⟩ <;> omega
  have hfull : ((b0 * 256 + b1 = r % 65536 ∧ b2 * 256 + b3 = 0 ∧ b4 * 256 + b5 = 6 ∧ b6 = dev ∧
        b7 = 0x05 ∧ b8 * 256 + b9 = a ∧
        ((v = true ∧ b10 * 256 + b11 = 0xFF00) ∨ (v = false ∧ b10 * 256 + b11 = 0x0000))) →
      (writeSingleCoil sock r dev a v st).result = true ∧
      (writeSingleCoil sock r dev a v st).status = Status.Ok) ∧
    (¬ (b0 * 256 + b1 = r % 65536 ∧ b2 * 256 + b3 = 0 ∧ b4 * 256 + b5 = 6 ∧ b6 = dev ∧
        b7 = 0x05 ∧ b8 * 256 + b9 = a ∧
        ((v = true ∧ b10 * 256 + b11 = 0xFF00) ∨ (v = false ∧ b10 * 256 + b11 = 0x0000))) →
      (writeSingleCoil sock r dev a v st).result = false ∧
      (writeSingleCoil sock r dev a v st).status = Status.UnknownError) := by
    unfold writeSingleCoil
    simp only [hc, Bool.not_true, Bool.false_eq_true, if_false, awaitResponse_fst, hresp,
      List.length_cons, List.length_nil, getU16_cons, getU8_cons, if_true]
    constructor
    · intro h; rw [if_pos h]; exact ⟨rfl, rfl⟩
    · intro h; rw [if_neg h]; exact ⟨rfl, rfl⟩
  constructor
  · constructor
    · intro hok
      by_contra hne
      have hbad := (hfull.2 (fun hcond => hne (key.mp hcond))).1
      rw [hok.1] at hbad
      exact absurd hbad (by decide)
    · intro heq
      exact hfull.1 (key.mpr heq)
  · intro hne
    exact hfull.2 (fun hcond => hne (key.mp hcond))


/-- `writeSingleRegister` on twelve accumulated bytes: true with `Ok` exactly on the echo of the
request, false with `UnknownError` otherwise. -/
theorem writeSingleRegister_echo_iff (sock : Socket) (r dev a x : Nat) (st : Status)
    (resp : Bytes) (hc : sock.connected = true) (hdev : dev < 256) (ha : a < 65536)
    (hx : x < 65536)
    (hresp : (recvLoop 12 sock.incoming [] []).1 = resp) (hlen : resp.length = 12)
    (hb : ∀ b ∈ resp, b < 256) :
    (((writeSingleRegister sock r dev a x st).result = true ∧
        (writeSingleRegister sock r dev a x st).status = Status.Ok) ↔
      resp = putU16 (r % 65536) ++ putU16 0 ++ putU16 6 ++ putU8 dev ++ putU8 0x06 ++
        putU16 a ++ putU16 x) ∧
    (resp ≠ putU16 (r % 65536) ++ putU16 0 ++ putU16 6 ++ putU8 dev ++ putU8 0x06 ++
        putU16 a ++ putU16 x →
      (writeSingleRegister sock r dev a x st).result = false ∧
      (writeSingleRegister sock r dev a x st).status = Status.UnknownError) := by
  obtain ⟨b0, b1, b2, b3, b4, b5, b6, b7, b8, b9, b10, b11, rfl⟩ := exists_twelve resp hlen
  have h0 := hb b0 (by simp)
  have h1 := hb b1 (by simp)
  have h2 := hb b2 (by simp)
  have h3 := hb b3 (by simp)
  have h4 := hb b4 (by simp)
  have h5 := hb b5 (by simp)
  have h8 := hb b8 (by simp)
  have h9 := hb b9 (by simp)
  have h10 := hb b10 (by simp)
  have h11 := hb b11 (by simp)
  have key : (b0 * 256 + b1 = r % 65536 ∧ b2 * 256 + b3 = 0 ∧ b4 * 256 + b5 = 6 ∧ b6 = dev ∧
      b7 = 0x06 ∧ b8 * 256 + b9 = a ∧ b10 * 256 + b11 = x) ↔
      [b0, b1, b2, b3, b4, b5, b6, b7, b8, b9, b10, b11] =
        putU16 (r % 65536) ++ putU16 0 ++ putU16 6 ++ putU8 dev ++ putU8 0x06 ++
          putU16 a ++ putU16 x := by
    simp only [putU16, putU8, List.cons_append, List.nil_append, List.cons.injEq, and_true]
    constructor
    · rintro ⟨e1, e2, e3, e4, e5, e6, e7⟩
      refine ⟨?_, ?_, ?_, ?_, ?_, ?_, ?_, ?_, ?_, ?_, ?_, ?_⟩ <;> omega
    · rintro ⟨e0, e1, e2, e3, e4, e5, e6, e7, e8, e9, e10, e11⟩
      refine ⟨?_, ?_, ?_, ?_, ?_, ?_, ?_⟩ <;> omega
  have hfull : ((b0 * 256 + b1 = r % 65536 ∧ b2 * 256 + b3 = 0 ∧ b4 * 256 + b5 = 6 ∧ b6 = dev ∧
        b7 = 0x06 ∧ b8 * 256 + b9 = a ∧ b10 * 256 + b11 = x) →
      (writeSingleRegister sock r dev a x st).result = true ∧
      (writeSingleRegister sock r dev a x st).status = Status.Ok) ∧
    (¬ (b0 * 256 + b1 = r % 65536 ∧ b2 * 256 + b3 = 0 ∧ b4 * 256 + b5 = 6 ∧ b6 = dev ∧
        b7 = 0x06 ∧ b8 * 256 + b9 = a ∧ b10 * 256 + b11 = x) →
      (writeSingleRegister sock r dev a x st).result = false ∧
      (writeSingleRegister sock r dev a x st).status = Status.UnknownError) := by
    unfold writeSingleRegister
    simp only [hc, Bool.not_true, Bool.false_eq_true, if_false, awaitResponse_fst, hresp,
      List.length_cons, List.length_nil, getU16_cons, getU8_cons, if_true]
    constructor
    · intro h; rw [if_pos h]; exact ⟨rfl, rfl⟩
    · intro h; rw [if_neg h]; exact ⟨rfl, rfl⟩
  constructor
  · constructor
    · intro hok
      by_contra hne
      have hbad := (hfull.2 (fun hcond => hne (key.mp hcond))).1
      rw [hok.1] at hbad
      exact absurd hbad (by decide)
    · intro heq
      exact hfull.1 (key.mpr heq)
  · intro hne
    exact hfull.2 (fun hcond => hne (key.mp hcond))

/-- `maskWriteRegister` on fourteen accumulated bytes: true with `Ok` exactly on the echo of the
request, false with `UnknownError` otherwise. -/
theorem maskWriteRegister_echo_iff (sock : Socket) (r dev a am om : Nat) (st : Status)
    (resp : Bytes) (hc : sock.connected = true) (hdev : dev < 256) (ha : a < 65536)
    (ham : am < 65536) (hom : om < 65536)
    (hresp : (recvLoop 14 sock.incoming [] []).1 = resp) (hlen : resp.length = 14)
    (hb : ∀ b ∈ resp, b < 256) :
    (((maskWriteRegister sock r dev a am om st).result = true ∧
        (maskWriteRegister sock r dev a am om st).status = Status.Ok) ↔
      resp = putU16 (r % 65536) ++ putU16 0 ++ putU16 8 ++ putU8 dev ++ putU8 0x16 ++
        putU16 a ++ putU16 am ++ putU16 om) ∧
    (resp ≠ putU16 (r % 65536) ++ putU16 0 ++ putU16 8 ++ putU8 dev ++ putU8 0x16 ++
        putU16 a ++ putU16 am ++ putU16 om →
      (maskWriteRegister sock r dev a am om st).result = false ∧
      (maskWriteRegister sock r dev a am om st).status = Status.UnknownError) := by
  obtain ⟨b0, b1, b2, b3, b4, b5, b6, b7, b8, b9, b10, b11, b12, b13, rfl⟩ :=
    exists_fourteen resp hlen
  have h0 := hb b0 (by simp)
  have h1 := hb b1 (by simp)
  have h2 := hb b2 (by simp)
  have h3 := hb b3 (by simp)
  have h4 := hb b4 (by simp)
  have h5 := hb b5 (by simp)
  have h8 := hb b8 (by simp)
  have h9 := hb b9 (by simp)
  have h10 := hb b10 (by simp)
  have h11 := hb b11 (by simp)
  have h12 := hb b12 (by simp)
  have h13 := hb b13 (by simp)
  have key : (b0 * 256 + b1 = r % 65536 ∧ b2 * 256 + b3 = 0 ∧ b4 * 256 + b5 = 8 ∧ b6 = dev ∧
      b7 = 0x16 ∧ b8 * 256 + b9 = a ∧ b10 * 256 + b11 = am ∧ b12 * 256 + b13 = om) ↔
      [b0, b1, b2, b3, b4, b5, b6, b7, b8, b9, b10, b11, b12, b13] =
        putU16 (r % 65536) ++ putU16 0 ++ putU16 8 ++ putU8 dev ++ putU8 0x16 ++
          putU16 a ++ putU16 am ++ putU16 om := by
    simp only [putU16, putU8, List.cons_append, List.nil_append, List.cons.injEq, and_true]
    constructor
    · rintro ⟨e1, e2, e3, e4, e5, e6, e7, e8⟩
      refine ⟨?_, ?_, ?_, ?_, ?_, ?_, ?_, ?_, ?_, ?_, ?_, ?_, ?_, ?_⟩ <;> omega
    · rintro ⟨e0, e1, e2, e3, e4, e5, e6, e7, e8, e9, e10, e11, e12, e13⟩
      refine ⟨?_, ?_, ?_, ?_, ?_, ?_, ?_, ?_⟩ <;> omega
  have hfull : ((b0 * 256 + b1 = r % 65536 ∧ b2 * 256 + b3 = 0 ∧ b4 * 256 + b5 = 8 ∧ b6 = dev ∧
        b7 = 0x16 ∧ b8 * 256 + b9 = a ∧ b10 * 256 + b11 = am ∧ b12 * 256 + b13 = om) →
      (maskWriteRegister sock r dev a am om st).result = true ∧
      (maskWriteRegister sock r dev a am om st).status = Status.Ok) ∧
    (¬ (b0 * 256 + b1 = r % 65536 ∧ b2 * 256 + b3 = 0 ∧ b4 * 256 + b5 = 8 ∧ b6 = dev ∧
        b7 = 0x16 ∧ b8 * 256 + b9 = a ∧ b10 * 256 + b11 = am ∧ b12 * 256 + b13 = om) →
      (maskWriteRegister sock r dev a am om st).result = false ∧
      (maskWriteRegister sock r dev a am om st).status = Status.UnknownError) := by
    unfold maskWriteRegister
    simp only [hc, Bool.not_true, Bool.false_eq_true, if_false, awaitResponse_fst, hresp,
      List.length_cons, List.length_nil, getU16_cons, getU8_cons, if_true]
    constructor
    · intro h; rw [if_pos h]; exact ⟨rfl, rfl⟩
    · intro h; rw [if_neg h]; exact ⟨rfl, rfl⟩
  constructor
  · constructor
    · intro hok
      by_contra hne
      have hbad := (hfull.2 (fun hcond => hne (key.mp hcond))).1
      rw [hok.1] at hbad
      exact absurd hbad (by decide)
    · intro heq
      exact hfull.1 (key.mpr heq)
  · intro hne
    exact hfull.2 (fun hcond => hne (key.mp hcond))

theorem coilsLoop_length : ∀ (n i tmp : Nat) (s : Bytes), (coilsLoop n i tmp s).length = n := by
  intro n
  induction n with
  | zero => intro i tmp s; rfl
  | succ n ih => intro i tmp s; simp only [coilsLoop, List.length_cons, ih]

theorem regsLoop_length : ∀ (n : Nat) (s : Bytes), (regsLoop n s).length = n := by
  intro n
  induction n with
  | zero => intro s; rfl
  | succ n ih => intro s; simp only [regsLoop, List.length_cons, ih]

/-- The accumulation loop only hands back bytes that were in `pdu`, in the receive buffer or in
a chunk of the script: when all of those are byte values, so is every accumulated byte. -/
theorem recvLoop_bytes (target : Nat) :
    ∀ (evs : List (Option Bytes)) (rx pdu : Bytes),
      (∀ c, some c ∈ evs → ∀ b ∈ c, b < 256) → (∀ b ∈ rx, b < 256) → (∀ b ∈ pdu, b < 256) →
      ∀ b ∈ (recvLoop target evs rx pdu).1, b < 256 := by
  intro evs
  induction evs with
  | nil => intro rx pdu _ _ hpdu; simpa [recvLoop] using hpdu
  | cons e evs ih =>
    intro rx pdu hev hrx hpdu
    cases e with
    | none =>
      unfold recvLoop
      split
      · split <;> exact hpdu
      · exact hpdu
    | some c =>
      unfold recvLoop
      split
      · split
        · exact hpdu
        · have hc : ∀ b ∈ c, b < 256 := hev c (List.mem_cons_self _ _)
          have hbuf : ∀ b ∈ rx ++ c, b < 256 := by
            intro b hb
            rcases List.mem_append.mp hb with h | h
            · exact hrx b h
            · exact hc b h
          apply ih
          · intro c' hc'
            exact hev c' (List.mem_cons_of_mem _ hc')
          · intro b hb
            exact hbuf b (List.mem_of_mem_drop hb)
          · intro b hb
            rcases List.mem_append.mp hb with h | h
            · exact hpdu b h
            · exact hbuf b (List.mem_of_mem_take h)
      · exact hpdu

theorem readCoils_not_full (sock : Socket) (r : Nat) (dev a q : Nat) (st : Status)
    (hc : sock.connected = true)
    (hne : (recvLoop (neededBits q + 9) sock.incoming [] []).1.length ≠ neededBits q + 9) :
    (readCoils sock r dev a q st).status = whatWasWrong (recvLoop (neededBits q + 9) sock.incoming [] []).1 ∧
    (readCoils sock r dev a q st).result = [] := by
  unfold readCoils
  simp only [hc, Bool.not_true, Bool.false_eq_true, if_false, awaitResponse_fst, hne]
  exact ⟨trivial, trivial⟩

theorem readDiscreteInputs_not_full (sock : Socket) (r : Nat) (dev a q : Nat) (st : Status)
    (hc : sock.connected = true)
    (hne : (recvLoop (neededBits q + 9) sock.incoming [] []).1.length ≠ neededBits q + 9) :
    (readDiscreteInputs sock r dev a q st).status = whatWasWrong (recvLoop (neededBits q + 9) sock.incoming [] []).1 ∧
    (readDiscreteInputs sock r dev a q st).result = [] := by
  unfold readDiscreteInputs
  simp only [hc, Bool.not_true, Bool.false_eq_true, if_false, awaitResponse_fst, hne]
  exact ⟨trivial, trivial⟩

theorem readHoldingRegisters_not_full (sock : Socket) (r : Nat) (dev a q : Nat) (st : Status)
    (hc : sock.connected = true)
    (hne : (recvLoop (neededRegs q + 9) sock.incoming [] []).1.length ≠ neededRegs q + 9) :
    (readHoldingRegisters sock r dev a q st).status = whatWasWrong (recvLoop (neededRegs q + 9) sock.incoming [] []).1 ∧
    (readHoldingRegisters sock r dev a q st).result = [] := by
  unfold readHoldingRegisters
  simp only [hc, Bool.not_true, Bool.false_eq_true, if_false, awaitResponse_fst, hne]
  exact ⟨trivial, trivial⟩

theorem readInputRegisters_not_full (sock : Socket) (r : Nat) (dev a q : Nat) (st : Status)
    (hc : sock.connected = true)
    (hne : (recvLoop (neededRegs q + 9) sock.incoming [] []).1.length ≠ neededRegs q + 9) :
    (readInputRegisters sock r dev a q st).status = whatWasWrong (recvLoop (neededRegs q + 9) sock.incoming [] []).1 ∧
    (readInputRegisters sock r dev a q st).result = [] := by
  unfold readInputRegisters
  simp only [hc, Bool.not_true, Bool.false_eq_true, if_false, awaitResponse_fst, hne]
  exact ⟨trivial, trivial⟩

theorem writeSingleCoil_not_full (sock : Socket) (r : Nat) (dev a : Nat) (v : Bool) (st : Status)
    (hc : sock.connected = true)
    (hne : (recvLoop (12) sock.incoming [] []).1.length ≠ 12) :
    (writeSingleCoil sock r dev a v st).status = whatWasWrong (recvLoop (12) sock.incoming [] []).1 ∧
    (writeSingleCoil sock r dev a v st).result = false := by
  unfold writeSingleCoil
  simp only [hc, Bool.not_true, Bool.false_eq_true, if_false, awaitResponse_fst, hne]
  exact ⟨trivial, trivial⟩

theorem writeSingleRegister_not_full (sock : Socket) (r : Nat) (dev a x : Nat) (st : Status)
    (hc : sock.connected = true)
    (hne : (recvLoop (12) sock.incoming [] []).1.length ≠ 12) :
    (writeSingleRegister sock r dev a x st).status = whatWasWrong (recvLoop (12) sock.incoming [] []).1 ∧
    (writeSingleRegister sock r dev a x st).result = false := by
  unfold writeSingleRegister
  simp only [hc, Bool.not_true, Bool.false_eq_true, if_false, awaitResponse_fst, hne]
  exact ⟨trivial, trivial⟩

theorem writeMultipleCoils_not_full (sock : Socket) (r : Nat) (dev a : Nat) (coils : List Bool) (st : Status)
    (hc : sock.connected = true)
    (hne : (recvLoop (12) sock.incoming [] []).1.length ≠ 12) :
    (writeMultipleCoils sock r dev a coils st).status = whatWasWrong (recvLoop (12) sock.incoming [] []).1 ∧
    (writeMultipleCoils sock r dev a coils st).result = false := by
  unfold writeMultipleCoils
  simp only [hc, Bool.not_true, Bool.false_eq_true, if_false, awaitResponse_fst, hne]
  exact ⟨trivial, trivial⟩

theorem writeMultipleRegisters_not_full (sock : Socket) (r : Nat) (dev a : Nat) (regs : List Nat) (st : Status)
    (hc : sock.connected = true)
    (hne : (recvLoop (12) sock.incoming [] []).1.length ≠ 12) :
    (writeMultipleRegisters sock r dev a regs st).status = whatWasWrong (recvLoop (12) sock.incoming [] []).1 ∧
    (writeMultipleRegisters sock r dev a regs st).result = false := by
  unfold writeMultipleRegisters
  simp only [hc, Bool.not_true, Bool.false_eq_true, if_false, awaitResponse_fst, hne]
  exact ⟨trivial, trivial⟩

theorem maskWriteRegister_not_full (sock : Socket) (r : Nat) (dev a am om : Nat) (st : Status)
    (hc : sock.connected = true)
    (hne : (recvLoop (14) sock.incoming [] []).1.length ≠ 14) :
    (maskWriteRegister sock r dev a am om st).status = whatWasWrong (recvLoop (14) sock.incoming [] []).1 ∧
    (maskWriteRegister sock r dev a am om st).result = false := by
  unfold maskWriteRegister
  simp only [hc, Bool.not_true, Bool.false_eq_true, if_false, awaitResponse_fst, hne]
  exact ⟨trivial, trivial⟩

theorem writeReadMultipleRegisters_not_full (sock : Socket) (r : Nat) (dev a : Nat) (regs : List Nat) (ra rq : Nat) (st : Status)
    (hc : sock.connected = true)
    (hne : (recvLoop (neededRegs rq + 9) sock.incoming [] []).1.length ≠ neededRegs rq + 9) :
    (writeReadMultipleRegisters sock r dev a regs ra rq st).status = whatWasWrong (recvLoop (neededRegs rq + 9) sock.incoming [] []).1 ∧
    (writeReadMultipleRegisters sock r dev a regs ra rq st).result = [] := by
  unfold writeReadMultipleRegisters
  simp only [hc, Bool.not_true, Bool.false_eq_true, if_false, awaitResponse_fst, hne]
  exact ⟨trivial, trivial⟩

theorem whatWasWrong_nine (pdu : Bytes) (h : pdu.length = 9) :
    whatWasWrong pdu = Status.Code (pdu.getD 8 0) := by
  unfold whatWasWrong; rw [if_pos h]

/-- Nine accumulated bytes are always reported as an exception byte.  For every fixed-length
operation whose target length exceeds nine bytes: when the accumulation ends with exactly nine
bytes, whatever the byte at offset 7 is, the status is the byte at offset 8 and the result is
the default one. -/
theorem nine_bytes_echoed (sock : Socket) (r : Nat) (st : Status)
    (dev a q x am om ra rq : Nat) (v : Bool) (coils : List Bool) (regs : List Nat)
    (hc : sock.connected = true) :
    (0 < neededBits q →
      (recvLoop (neededBits q + 9) sock.incoming [] []).1.length = 9 →
      (readCoils sock r dev a q st).status =
        Status.Code ((recvLoop (neededBits q + 9) sock.incoming [] []).1.getD 8 0) ∧
      (readCoils sock r dev a q st).result = []) ∧
    (0 < neededBits q →
      (recvLoop (neededBits q + 9) sock.incoming [] []).1.length = 9 →
      (readDiscreteInputs sock r dev a q st).status =
        Status.Code ((recvLoop (neededBits q + 9) sock.incoming [] []).1.getD 8 0) ∧
      (readDiscreteInputs sock r dev a q st).result = []) ∧
    (0 < neededRegs q →
      (recvLoop (neededRegs q + 9) sock.incoming [] []).1.length = 9 →
      (readHoldingRegisters sock r dev a q st).status =
        Status.Code ((recvLoop (neededRegs q + 9) sock.incoming [] []).1.getD 8 0) ∧
      (readHoldingRegisters sock r dev a q st).result = []) ∧
    (0 < neededRegs q →
      (recvLoop (neededRegs q + 9) sock.incoming [] []).1.length = 9 →
      (readInputRegisters sock r dev a q st).status =
        Status.Code ((recvLoop (neededRegs q + 9) sock.incoming [] []).1.getD 8 0) ∧
      (readInputRegisters sock r dev a q st).result = []) ∧
    ((recvLoop (12) sock.incoming [] []).1.length = 9 →
      (writeSingleCoil sock r dev a v st).status =
        Status.Code ((recvLoop (12) sock.incoming [] []).1.getD 8 0) ∧
      (writeSingleCoil sock r dev a v st).result = false) ∧
    ((recvLoop (12) sock.incoming [] []).1.length = 9 →
      (writeSingleRegister sock r dev a x st).status =
        Status.Code ((recvLoop (12) sock.incoming [] []).1.getD 8 0) ∧
      (writeSingleRegister sock r dev a x st).result = false) ∧
    ((recvLoop (12) sock.incoming [] []).1.length = 9 →
      (writeMultipleCoils sock r dev a coils st).status =
        Status.Code ((recvLoop (12) sock.incoming [] []).1.getD 8 0) ∧
      (writeMultipleCoils sock r dev a coils st).result = false) ∧
    ((recvLoop (12) sock.incoming [] []).1.length = 9 →
      (writeMultipleRegisters sock r dev a regs st).status =
        Status.Code ((recvLoop (12) sock.incoming [] []).1.getD 8 0) ∧
      (writeMultipleRegisters sock r dev a regs st).result = false) ∧
    ((recvLoop (14) sock.incoming [] []).1.length = 9 →
      (maskWriteRegister sock r dev a am om st).status =
        Status.Code ((recvLoop (14) sock.incoming [] []).1.getD 8 0) ∧
      (maskWriteRegister sock r dev a am om st).result = false) ∧
    (0 < neededRegs rq →
      (recvLoop (neededRegs rq + 9) sock.incoming [] []).1.length = 9 →
      (writeReadMultipleRegisters sock r dev a regs ra rq st).status =
        Status.Code ((recvLoop (neededRegs rq + 9) sock.incoming [] []).1.getD 8 0) ∧
      (writeReadMultipleRegisters sock r dev a regs ra rq st).result = []) := by
  refine ⟨?_, ?_, ?_, ?_, ?_, ?_, ?_, ?_, ?_, ?_⟩
  · intro hpos h9
    have h := readCoils_not_full sock r dev a q st hc (by omega)
    rw [whatWasWrong_nine _ h9] at h
    exact h
  · intro hpos h9
    have h := readDiscreteInputs_not_full sock r dev a q st hc (by omega)
    rw [whatWasWrong_nine _ h9] at h
    exact h
  · intro hpos h9
    have h := readHoldingRegisters_not_full sock r dev a q st hc (by omega)
    rw [whatWasWrong_nine _ h9] at h
    exact h
  · intro hpos h9
    have h := readInputRegisters_not_full sock r dev a q st hc (by omega)
    rw [whatWasWrong_nine _ h9] at h
    exact h
  · intro h9
    have h := writeSingleCoil_not_full sock r dev a v st hc (by omega)
    rw [whatWasWrong_nine _ h9] at h
    exact h
  · intro h9
    have h := writeSingleRegister_not_full sock r dev a x st hc (by omega)
    rw [whatWasWrong_nine _ h9] at h
    exact h
  · intro h9
    have h := writeMultipleCoils_not_full sock r dev a coils st hc (by omega)
    rw [whatWasWrong_nine _ h9] at h
    exact h
  · intro h9
    have h := writeMultipleRegisters_not_full sock r dev a regs st hc (by omega)
    rw [whatWasWrong_nine _ h9] at h
    exact h
  · intro h9
    have h := maskWriteRegister_not_full sock r dev a am om st hc (by omega)
    rw [whatWasWrong_nine _ h9] at h
    exact h
  · intro hpos h9
    have h := writeReadMultipleRegisters_not_full sock r dev a regs ra rq st hc (by omega)
    rw [whatWasWrong_nine _ h9] at h
    exact h

/-- An accepting run of `readCoils`: the accumulated response has the target length and
the status is the `Ok` assigned after the field comparison; the list then has `q` elements. -/
theorem readCoils_ok_length (sock : Socket) (r : Nat) (dev a q : Nat) (st : Status)
    (hfull : (recvLoop (neededBits q + 9) sock.incoming [] []).1.length = neededBits q + 9)
    (h : (readCoils sock r dev a q st).status = Status.Ok) :
    (readCoils sock r dev a q st).result.length = q := by
  unfold readCoils at h ⊢
  cases hc : sock.connected
  · simp [hc] at h
  · simp only [hc, Bool.not_true, Bool.false_eq_true, if_false, awaitResponse_fst,
      apply_ite Outcome.result, apply_ite Outcome.status] at h ⊢
    split at h
    · rename_i h1
      rw [if_pos h1]
      split at h
      · rename_i h2
        rw [if_pos h2]
        exact coilsLoop_length _ _ _ _
      · exact absurd h (by decide)
    · rename_i h1
      exact absurd hfull h1

/-- An accepting run of `readDiscreteInputs`: the accumulated response has the target length and
the status is the `Ok` assigned after the field comparison; the list then has `q` elements. -/
theorem readDiscreteInputs_ok_length (sock : Socket) (r : Nat) (dev a q : Nat) (st : Status)
    (hfull : (recvLoop (neededBits q + 9) sock.incoming [] []).1.length = neededBits q + 9)
    (h : (readDiscreteInputs sock r dev a q st).status = Status.Ok) :
    (readDiscreteInputs sock r dev a q st).result.length = q := by
  unfold readDiscreteInputs at h ⊢
  cases hc : sock.connected
  · simp [hc] at h
  · simp only [hc, Bool.not_true, Bool.false_eq_true, if_false, awaitResponse_fst,
      apply_ite Outcome.result, apply_ite Outcome.status] at h ⊢
    split at h
    · rename_i h1
      rw [if_pos h1]
      split at h
      · rename_i h2
        rw [if_pos h2]
        exact coilsLoop_length _ _ _ _
      · exact absurd h (by decide)
    · rename_i h1
      exact absurd hfull h1

/-- An accepting run of `readHoldingRegisters`: the accumulated response has the target length and
the status is the `Ok` assigned after the field comparison; the list then has `q` elements. -/
theorem readHoldingRegisters_ok_length (sock : Socket) (r : Nat) (dev a q : Nat) (st : Status)
    (hfull : (recvLoop (neededRegs q + 9) sock.incoming [] []).1.length = neededRegs q + 9)
    (h : (readHoldingRegisters sock r dev a q st).status = Status.Ok) :
    (readHoldingRegisters sock r dev a q st).result.length = q := by
  unfold readHoldingRegisters at h ⊢
  cases hc : sock.connected
  · simp [hc] at h
  · simp only [hc, Bool.not_true, Bool.false_eq_true, if_false, awaitResponse_fst,
      apply_ite Outcome.result, apply_ite Outcome.status] at h ⊢
    split at h
    · rename_i h1
      rw [if_pos h1]
      split at h
      · rename_i h2
        rw [if_pos h2]
        exact regsLoop_length _ _
      · exact absurd h (by decide)
    · rename_i h1
      exact absurd hfull h1

/-- An accepting run of `readInputRegisters`: the accumulated response has the target length and
the status is the `Ok` assigned after the field comparison; the list then has `q` elements. -/
theorem readInputRegisters_ok_length (sock : Socket) (r : Nat) (dev a q : Nat) (st : Status)
    (hfull : (recvLoop (neededRegs q + 9) sock.incoming [] []).1.length = neededRegs q + 9)
    (h : (readInputRegisters sock r dev a q st).status = Status.Ok) :
    (readInputRegisters sock r dev a q st).result.length = q := by
  unfold readInputRegisters at h ⊢
  cases hc : sock.connected
  · simp [hc] at h
  · simp only [hc, Bool.not_true, Bool.false_eq_true, if_false, awaitResponse_fst,
      apply_ite Outcome.result, apply_ite Outcome.status] at h ⊢
    split at h
    · rename_i h1
      rw [if_pos h1]
      split at h
      · rename_i h2
        rw [if_pos h2]
        exact regsLoop_length _ _
      · exact absurd h (by decide)
    · rename_i h1
      exact absurd hfull h1

/-- An accepting run of `writeReadMultipleRegisters`: the accumulated response has the target length and
the status is the `Ok` assigned after the field comparison; the list then has `q` elements. -/
theorem writeReadMultipleRegisters_ok_length (sock : Socket) (r : Nat) (dev a : Nat) (regs : List Nat) (ra q : Nat) (st : Status)
    (hfull : (recvLoop (neededRegs q + 9) sock.incoming [] []).1.length = neededRegs q + 9)
    (h : (writeReadMultipleRegisters sock r dev a regs ra q st).status = Status.Ok) :
    (writeReadMultipleRegisters sock r dev a regs ra q st).result.length = q := by
  unfold writeReadMultipleRegisters at h ⊢
  cases hc : sock.connected
  · simp [hc] at h
  · simp only [hc, Bool.not_true, Bool.false_eq_true, if_false, awaitResponse_fst,
      apply_ite Outcome.result, apply_ite Outcome.status] at h ⊢
    split at h
    · rename_i h1
      rw [if_pos h1]
      split at h
      · rename_i h2
        rw [if_pos h2]
        exact regsLoop_length _ _
      · exact absurd h (by decide)
    · rename_i h1
      exact absurd hfull h1

theorem exists_twelve_le (l : Bytes) (h : 12 ≤ l.length) :
    ∃ b0 b1 b2 b3 b4 b5 b6 b7 b8 b9 b10 b11 t,
      l = b0 :: b1 :: b2 :: b3 :: b4 :: b5 :: b6 :: b7 :: b8 :: b9 :: b10 :: b11 :: t := by
  match l, h with
  | b0 :: b1 :: b2 :: b3 :: b4 :: b5 :: b6 :: b7 :: b8 :: b9 :: b10 :: b11 :: t, _ =>
    exact ⟨b0, b1, b2, b3, b4, b5, b6, b7, b8, b9, b10, b11, t, rfl⟩

/-- What an accepting run of `readFifoQueue` says about the burst it read.  The burst `c` is the
first event of the script, it has at least 12 bytes and no high bit at offset 7, and the status
is the `Ok` assigned after the field comparison; then with `N` the FIFO count of the burst
(offsets 10, 11) the byte count (offsets 8, 9) is `2N`, the length field (offsets 4, 5) is
`2N - 2`, the burst is `2N + 4` bytes long, and `N` values are returned. -/
theorem readFifoQueue_ok (sock : Socket) (r dev a : Nat) (st : Status)
    (c : Bytes) (rest : List (Option Bytes)) (hin : sock.incoming = some c :: rest)
    (hsize : 12 ≤ c.length) (hbit : highBit (c.getD 7 0) = false)
    (h : (readFifoQueue sock r dev a st).status = Status.Ok) :
    c.getD 8 0 * 256 + c.getD 9 0 = 2 * (c.getD 10 0 * 256 + c.getD 11 0) ∧
    c.getD 4 0 * 256 + c.getD 5 0 + 2 = 2 * (c.getD 10 0 * 256 + c.getD 11 0) ∧
    c.length = 2 * (c.getD 10 0 * 256 + c.getD 11 0) + 4 ∧
    (readFifoQueue sock r dev a st).result.length = c.getD 10 0 * 256 + c.getD 11 0 := by
  unfold readFifoQueue at h ⊢
  cases hc : sock.connected
  · simp [hc] at h
  · simp only [hc, Bool.not_true, Bool.false_eq_true, if_false] at h ⊢
    simp only [Socket.waitForReadyRead, Socket.readAll, Socket.write, hin, Bool.not_true,
      Bool.false_eq_true, if_false, List.nil_append, apply_ite Outcome.result,
      apply_ite Outcome.status] at h ⊢
    have hlen : 12 ≤ c.length ∧ highBit (c.getD 7 0) = false := ⟨hsize, hbit⟩
    obtain ⟨b0, b1, b2, b3, b4, b5, b6, b7, b8, b9, b10, b11, t, hp⟩ :=
      exists_twelve_le c hlen.1
    rw [hp] at hlen
    simp only [hp, hlen, and_self, if_true, getU16_cons, getU8_cons] at h ⊢
    split at h
    · rename_i hcond
      rw [if_pos hcond]
      obtain ⟨e1, e2, e3, e4, e5, e6, e7⟩ := hcond
      simp only [List.getD_cons_succ, List.getD_cons_zero, List.length_cons] at e7 ⊢
      refine ⟨?_, ?_, ?_, regsLoop_length _ _⟩ <;> omega
    · exact absurd h (by decide)

/-- With an expected data size of 256 bytes or more `readCoils` never takes the accepting
branch: the result is empty and the status is `NoConnection`, `UnknownError`, `Timeout`, or the
ninth byte of an accumulation that ended at exactly nine bytes. -/
theorem readCoils_never_accepts (sock : Socket) (r : Nat) (dev a q : Nat) (st : Status)
    (hbytes : ∀ c, some c ∈ sock.incoming → ∀ b ∈ c, b < 256) (hbig : 256 ≤ neededBits q) :
    (readCoils sock r dev a q st).result = [] ∧
    ((readCoils sock r dev a q st).status = Status.NoConnection ∨
      (readCoils sock r dev a q st).status = Status.UnknownError ∨
      (readCoils sock r dev a q st).status = Status.Timeout ∨
      ((recvLoop (neededBits q + 9) sock.incoming [] []).1.length = 9 ∧
        (readCoils sock r dev a q st).status =
          Status.Code ((recvLoop (neededBits q + 9) sock.incoming [] []).1.getD 8 0))) := by
  cases hc : sock.connected
  · have h : (readCoils sock r dev a q st).status = Status.NoConnection ∧
        (readCoils sock r dev a q st).result = [] := by
      simp [readCoils, hc]
    exact ⟨h.2, Or.inl h.1⟩
  · by_cases hlen : (recvLoop (neededBits q + 9) sock.incoming [] []).1.length = neededBits q + 9
    · obtain ⟨b0, b1, b2, b3, b4, b5, b6, b7, b8, d, hp⟩ :=
        exists_nine (recvLoop (neededBits q + 9) sock.incoming [] []).1 (by omega)
      have hall := recvLoop_bytes (neededBits q + 9) sock.incoming [] [] hbytes (by simp) (by simp)
      have hb8 : b8 < 256 := hall b8 (by rw [hp]; simp)
      have hd : d.length = neededBits q := by
        rw [hp] at hlen
        simp only [List.length_cons] at hlen
        omega
      have hfull := readCoils_full sock r dev a q st b0 b1 b2 b3 b4 b5 b6 b7 b8 d hc hp hd
      by_cases hcond : (b0 * 256 + b1 = r % 65536 ∧ b2 * 256 + b3 = 0 ∧
          b4 * 256 + b5 = neededBits q + 3 ∧ b6 = dev ∧ b7 = 0x01 ∧ b8 = neededBits q)
      · have := hcond.2.2.2.2.2
        omega
      · exact ⟨(hfull.2 hcond).1, Or.inr (Or.inl (hfull.2 hcond).2)⟩
    · have h := readCoils_not_full sock r dev a q st hc hlen
      refine ⟨h.2, Or.inr (Or.inr ?_)⟩
      rw [h.1]
      unfold whatWasWrong
      by_cases h9 : (recvLoop (neededBits q + 9) sock.incoming [] []).1.length = 9
      · rw [if_pos h9]; exact Or.inr ⟨h9, rfl⟩
      · rw [if_neg h9]; exact Or.inl rfl

/-- With an expected data size of 256 bytes or more `readDiscreteInputs` never takes the accepting
branch: the result is empty and the status is `NoConnection`, `UnknownError`, `Timeout`, or the
ninth byte of an accumulation that ended at exactly nine bytes. -/
theorem readDiscreteInputs_never_accepts (sock : Socket) (r : Nat) (dev a q : Nat) (st : Status)
    (hbytes : ∀ c, some c ∈ sock.incoming → ∀ b ∈ c, b < 256) (hbig : 256 ≤ neededBits q) :
    (readDiscreteInputs sock r dev a q st).result = [] ∧
    ((readDiscreteInputs sock r dev a q st).status = Status.NoConnection ∨
      (readDiscreteInputs sock r dev a q st).status = Status.UnknownError ∨
      (readDiscreteInputs sock r dev a q st).status = Status.Timeout ∨
      ((recvLoop (neededBits q + 9) sock.incoming [] []).1.length = 9 ∧
        (readDiscreteInputs sock r dev a q st).status =
          Status.Code ((recvLoop (neededBits q + 9) sock.incoming [] []).1.getD 8 0))) := by
  cases hc : sock.connected
  · have h : (readDiscreteInputs sock r dev a q st).status = Status.NoConnection ∧
        (readDiscreteInputs sock r dev a q st).result = [] := by
      simp [readDiscreteInputs, hc]
    exact ⟨h.2, Or.inl h.1⟩
  · by_cases hlen : (recvLoop (neededBits q + 9) sock.incoming [] []).1.length = neededBits q + 9
    · obtain ⟨b0, b1, b2, b3, b4, b5, b6, b7, b8, d, hp⟩ :=
        exists_nine (recvLoop (neededBits q + 9) sock.incoming [] []).1 (by omega)
      have hall := recvLoop_bytes (neededBits q + 9) sock.incoming [] [] hbytes (by simp) (by simp)
      have hb8 : b8 < 256 := hall b8 (by rw [hp]; simp)
      have hd : d.length = neededBits q := by
        rw [hp] at hlen
        simp only [List.length_cons] at hlen
        omega
      have hfull := readDiscreteInputs_full sock r dev a q st b0 b1 b2 b3 b4 b5 b6 b7 b8 d hc hp hd
      by_cases hcond : (b0 * 256 + b1 = r % 65536 ∧ b2 * 256 + b3 = 0 ∧
          b4 * 256 + b5 = neededBits q + 3 ∧ b6 = dev ∧ b7 = 0x02 ∧ b8 = neededBits q)
      · have := hcond.2.2.2.2.2
        omega
      · exact ⟨(hfull.2 hcond).1, Or.inr (Or.inl (hfull.2 hcond).2)⟩
    · have h := readDiscreteInputs_not_full sock r dev a q st hc hlen
      refine ⟨h.2, Or.inr (Or.inr ?_)⟩
      rw [h.1]
      unfold whatWasWrong
      by_cases h9 : (recvLoop (neededBits q + 9) sock.incoming [] []).1.length = 9
      · rw [if_pos h9]; exact Or.inr ⟨h9, rfl⟩
      · rw [if_neg h9]; exact Or.inl rfl

/-- With an expected data size of 256 bytes or more `readHoldingRegisters` never takes the accepting
branch: the result is empty and the status is `NoConnection`, `UnknownError`, `Timeout`, or the
ninth byte of an accumulation that ended at exactly nine bytes. -/
theorem readHoldingRegisters_never_accepts (sock : Socket) (r : Nat) (dev a q : Nat) (st : Status)
    (hbytes : ∀ c, some c ∈ sock.incoming → ∀ b ∈ c, b < 256) (hbig : 256 ≤ neededRegs q) :
    (readHoldingRegisters sock r dev a q st).result = [] ∧
    ((readHoldingRegisters sock r dev a q st).status = Status.NoConnection ∨
      (readHoldingRegisters sock r dev a q st).status = Status.UnknownError ∨
      (readHoldingRegisters sock r dev a q st).status = Status.Timeout ∨
      ((recvLoop (neededRegs q + 9) sock.incoming [] []).1.length = 9 ∧
        (readHoldingRegisters sock r dev a q st).status =
          Status.Code ((recvLoop (neededRegs q + 9) sock.incoming [] []).1.getD 8 0))) := by
  cases hc : sock.connected
  · have h : (readHoldingRegisters sock r dev a q st).status = Status.NoConnection ∧
        (readHoldingRegisters sock r dev a q st).result = [] := by
      simp [readHoldingRegisters, hc]
    exact ⟨h.2, Or.inl h.1⟩
  · by_cases hlen : (recvLoop (neededRegs q + 9) sock.incoming [] []).1.length = neededRegs q + 9
    · obtain ⟨b0, b1, b2, b3, b4, b5, b6, b7, b8, d, hp⟩ :=
        exists_nine (recvLoop (neededRegs q + 9) sock.incoming [] []).1 (by omega)
      have hall := recvLoop_bytes (neededRegs q + 9) sock.incoming [] [] hbytes (by simp) (by simp)
      have hb8 : b8 < 256 := hall b8 (by rw [hp]; simp)
      have hd : d.length = neededRegs q := by
        rw [hp] at hlen
        simp only [List.length_cons] at hlen
        omega
      have hfull := readHoldingRegisters_full sock r dev a q st b0 b1 b2 b3 b4 b5 b6 b7 b8 d hc hp hd
      by_cases hcond : (b0 * 256 + b1 = r % 65536 ∧ b2 * 256 + b3 = 0 ∧
          b4 * 256 + b5 = neededRegs q + 3 ∧ b6 = dev ∧ b7 = 0x03 ∧ b8 = neededRegs q)
      · have := hcond.2.2.2.2.2
        omega
      · exact ⟨(hfull.2 hcond).1, Or.inr (Or.inl (hfull.2 hcond).2)⟩
    · have h := readHoldingRegisters_not_full sock r dev a q st hc hlen
      refine ⟨h.2, Or.inr (Or.inr ?_)⟩
      rw [h.1]
      unfold whatWasWrong
      by_cases h9 : (recvLoop (neededRegs q + 9) sock.incoming [] []).1.length = 9
      · rw [if_pos h9]; exact Or.inr ⟨h9, rfl⟩
      · rw [if_neg h9]; exact Or.inl rfl

/-- With an expected data size of 256 bytes or more `readInputRegisters` never takes the accepting
branch: the result is empty and the status is `NoConnection`, `UnknownError`, `Timeout`, or the
ninth byte of an accumulation that ended at exactly nine bytes. -/
theorem readInputRegisters_never_accepts (sock : Socket) (r : Nat) (dev a q : Nat) (st : Status)
    (hbytes : ∀ c, some c ∈ sock.incoming → ∀ b ∈ c, b < 256) (hbig : 256 ≤ neededRegs q) :
    (readInputRegisters sock r dev a q st).result = [] ∧
    ((readInputRegisters sock r dev a q st).status = Status.NoConnection ∨
      (readInputRegisters sock r dev a q st).status = Status.UnknownError ∨
      (readInputRegisters sock r dev a q st).status = Status.Timeout ∨
      ((recvLoop (neededRegs q + 9) sock.incoming [] []).1.length = 9 ∧
        (readInputRegisters sock r dev a q st).status =
          Status.Code ((recvLoop (neededRegs q + 9) sock.incoming [] []).1.getD 8 0))) := by
  cases hc : sock.connected
  · have h : (readInputRegisters sock r dev a q st).status = Status.NoConnection ∧
        (readInputRegisters sock r dev a q st).result = [] := by
      simp [readInputRegisters, hc]
    exact ⟨h.2, Or.inl h.1⟩
  · by_cases hlen : (recvLoop (neededRegs q + 9) sock.incoming [] []).1.length = neededRegs q + 9
    · obtain ⟨b0, b1, b2, b3, b4, b5, b6, b7, b8, d, hp⟩ :=
        exists_nine (recvLoop (neededRegs q + 9) sock.incoming [] []).1 (by omega)
      have hall := recvLoop_bytes (neededRegs q + 9) sock.incoming [] [] hbytes (by simp) (by simp)
      have hb8 : b8 < 256 := hall b8 (by rw [hp]; simp)
      have hd : d.length = neededRegs q := by
        rw [hp] at hlen
        simp only [List.length_cons] at hlen
        omega
      have hfull := readInputRegisters_full sock r dev a q st b0 b1 b2 b3 b4 b5 b6 b7 b8 d hc hp hd
      by_cases hcond : (b0 * 256 + b1 = r % 65536 ∧ b2 * 256 + b3 = 0 ∧
          b4 * 256 + b5 = neededRegs q + 3 ∧ b6 = dev ∧ b7 = 0x04 ∧ b8 = neededRegs q)
      · have := hcond.2.2.2.2.2
        omega
      · exact ⟨(hfull.2 hcond).1, Or.inr (Or.inl (hfull.2 hcond).2)⟩
    · have h := readInputRegisters_not_full sock r dev a q st hc hlen
      refine ⟨h.2, Or.inr (Or.inr ?_)⟩
      rw [h.1]
      unfold whatWasWrong
      by_cases h9 : (recvLoop (neededRegs q + 9) sock.incoming [] []).1.length = 9
      · rw [if_pos h9]; exact Or.inr ⟨h9, rfl⟩
      · rw [if_neg h9]; exact Or.inl rfl

/-- With an expected data size of 256 bytes or more `writeReadMultipleRegisters` never takes the accepting
branch: the result is empty and the status is `NoConnection`, `UnknownError`, `Timeout`, or the
ninth byte of an accumulation that ended at exactly nine bytes. -/
theorem writeReadMultipleRegisters_never_accepts (sock : Socket) (r : Nat) (dev a : Nat) (regs : List Nat) (ra q : Nat) (st : Status)
    (hbytes : ∀ c, some c ∈ sock.incoming → ∀ b ∈ c, b < 256) (hbig : 256 ≤ neededRegs q) :
    (writeReadMultipleRegisters sock r dev a regs ra q st).result = [] ∧
    ((writeReadMultipleRegisters sock r dev a regs ra q st).status = Status.NoConnection ∨
      (writeReadMultipleRegisters sock r dev a regs ra q st).status = Status.UnknownError ∨
      (writeReadMultipleRegisters sock r dev a regs ra q st).status = Status.Timeout ∨
      ((recvLoop (neededRegs q + 9) sock.incoming [] []).1.length = 9 ∧
        (writeReadMultipleRegisters sock r dev a regs ra q st).status =
          Status.Code ((recvLoop (neededRegs q + 9) sock.incoming [] []).1.getD 8 0))) := by
  cases hc : sock.connected
  · have h : (writeReadMultipleRegisters sock r dev a regs ra q st).status = Status.NoConnection ∧
        (writeReadMultipleRegisters sock r dev a regs ra q st).result = [] := by
      simp [writeReadMultipleRegisters, hc]
    exact ⟨h.2, Or.inl h.1⟩
  · by_cases hlen : (recvLoop (neededRegs q + 9) sock.incoming [] []).1.length = neededRegs q + 9
    · obtain ⟨b0, b1, b2, b3, b4, b5, b6, b7, b8, d, hp⟩ :=
        exists_nine (recvLoop (neededRegs q + 9) sock.incoming [] []).1 (by omega)
      have hall := recvLoop_bytes (neededRegs q + 9) sock.incoming [] [] hbytes (by simp) (by simp)
      have hb8 : b8 < 256 := hall b8 (by rw [hp]; simp)
      have hd : d.length = neededRegs q := by
        rw [hp] at hlen
        simp only [List.length_cons] at hlen
        omega
      have hfull := writeReadMultipleRegisters_full sock r dev a regs ra q st b0 b1 b2 b3 b4 b5 b6 b7 b8 d hc hp hd
      by_cases hcond : (b0 * 256 + b1 = r % 65536 ∧ b2 * 256 + b3 = 0 ∧
          b4 * 256 + b5 = neededRegs q + 3 ∧ b6 = dev ∧ b7 = 0x17 ∧ b8 = neededRegs q)
      · have := hcond.2.2.2.2.2
        omega
      · exact ⟨(hfull.2 hcond).1, Or.inr (Or.inl (hfull.2 hcond).2)⟩
    · have h := writeReadMultipleRegisters_not_full sock r dev a regs ra q st hc hlen
      refine ⟨h.2, Or.inr (Or.inr ?_)⟩
      rw [h.1]
      unfold whatWasWrong
      by_cases h9 : (recvLoop (neededRegs q + 9) sock.incoming [] []).1.length = 9
      · rw [if_pos h9]; exact Or.inr ⟨h9, rfl⟩
      · rw [if_neg h9]; exact Or.inl rfl

/-- The register loop of the write requests appends the two bytes of every value, high byte
first. -/
theorem putRegs_bytes (regs : List Nat) :
    putRegs regs = (regs.map fun v => [v / 256 % 256, v % 256]).flatten := by
  induction regs with
  | nil => rfl
  | cons v vs ih =>
    simp only [putRegs, putU16, List.map_cons, List.flatten_cons, ih]

/-! ## Claims -/

/-- C1: register-read round trip.  For every device address, start address, transaction id and
quantity `q` with `1 ≤ q ≤ 125`, when the connection delivers, split into chunks in any way, the
frame made of the transaction id of the request, protocol id 0, length `3 + 2q`, the device
address, the function code, byte count `2q` and `q` big-endian words, `readHoldingRegisters`
(0x03) and `readInputRegisters` (0x04) return exactly those words in order with status `Ok`,
whatever was buffered before the call and whatever the status variable held. -/
theorem readRegisters_roundtrip (stale : Bytes) (wr : List Bytes) (rest : List (Option Bytes))
    (chunks3 chunks4 : List Bytes) (rand dev start q : Nat) (ws : List Nat) (st : Status)
    (hdev : dev < 256) (_hq1 : 1 ≤ q) (hq : q ≤ 125) (hlen : ws.length = q)
    (hws : ∀ w ∈ ws, w < 65536)
    (h3 : chunks3.flatten = putU16 (rand % 65536) ++ putU16 0 ++ putU16 (3 + 2 * q) ++
      putU8 dev ++ putU8 0x03 ++ putU8 (2 * q) ++ putRegs ws)
    (h4 : chunks4.flatten = putU16 (rand % 65536) ++ putU16 0 ++ putU16 (3 + 2 * q) ++
      putU8 dev ++ putU8 0x04 ++ putU8 (2 * q) ++ putRegs ws) :
    (readHoldingRegisters (Socket.mk true stale (chunks3.map some ++ rest) wr) rand dev start q
        st).result = ws ∧
    (readHoldingRegisters (Socket.mk true stale (chunks3.map some ++ rest) wr) rand dev start q
        st).status = Status.Ok ∧
    (readInputRegisters (Socket.mk true stale (chunks4.map some ++ rest) wr) rand dev start q
        st).result = ws ∧
    (readInputRegisters (Socket.mk true stale (chunks4.map some ++ rest) wr) rand dev start q
        st).status = Status.Ok :=
  ⟨(readHoldingRegisters_frame stale wr rest chunks3 rand dev start q ws st hdev hq hlen hws h3).1,
   (readHoldingRegisters_frame stale wr rest chunks3 rand dev start q ws st hdev hq hlen hws h3).2,
   (readInputRegisters_frame stale wr rest chunks4 rand dev start q ws st hdev hq hlen hws h4).1,
   (readInputRegisters_frame stale wr rest chunks4 rand dev start q ws st hdev hq hlen hws h4).2⟩

/-- Witness of C1: device 1, start 0, quantity 4, registers 10, 20, 30, 40, transaction id 7,
the frame arriving in three chunks behind two stale bytes. -/
theorem readRegisters_roundtrip_witness :
    (readHoldingRegisters (Socket.mk true [9, 9]
        ([[0, 7, 0, 0, 0], [11, 1, 3, 8, 0, 10, 0, 20], [0, 30, 0, 40]].map some ++ []) [])
        7 1 0 4 Status.Timeout).result = [10, 20, 30, 40] ∧
    (readHoldingRegisters (Socket.mk true [9, 9]
        ([[0, 7, 0, 0, 0], [11, 1, 3, 8, 0, 10, 0, 20], [0, 30, 0, 40]].map some ++ []) [])
        7 1 0 4 Status.Timeout).status = Status.Ok ∧
    (readInputRegisters (Socket.mk true [9, 9]
        ([[0, 7, 0, 0, 0, 11, 1, 4, 8, 0, 10, 0, 20, 0, 30, 0, 40]].map some ++ []) [])
        7 1 0 4 Status.Timeout).result = [10, 20, 30, 40] ∧
    (readInputRegisters (Socket.mk true [9, 9]
        ([[0, 7, 0, 0, 0, 11, 1, 4, 8, 0, 10, 0, 20, 0, 30, 0, 40]].map some ++ []) [])
        7 1 0 4 Status.Timeout).status = Status.Ok :=
  readRegisters_roundtrip [9, 9] [] [] [[0, 7, 0, 0, 0], [11, 1, 3, 8, 0, 10, 0, 20], [0, 30, 0, 40]]
    [[0, 7, 0, 0, 0, 11, 1, 4, 8, 0, 10, 0, 20, 0, 30, 0, 40]] 7 1 0 4 [10, 20, 30, 40]
    Status.Timeout (by decide) (by decide) (by decide) (by decide) (by decide) (by decide)
    (by decide)

/-- C2: coil-read decode.  For every quantity `q` with `1 ≤ q ≤ 2000`, when `readCoils` (0x01)
or `readDiscreteInputs` (0x02) receives the frame made of the transaction id of the request,
protocol 0, length `3 + ceil(q/8)`, the device address, the function code, byte count
`ceil(q/8)` and that many data bytes `d`, it returns status `Ok` and the list of `q` booleans
whose element `i` is bit `i mod 8` (least significant bit first) of data byte `i div 8`. -/
theorem readBits_decode (stale : Bytes) (wr : List Bytes) (rest : List (Option Bytes))
    (chunks1 chunks2 : List Bytes) (rand dev start q : Nat) (d : Bytes) (st : Status)
    (hdev : dev < 256) (_hq1 : 1 ≤ q) (hq : q ≤ 2000) (hlen : d.length = (q + 7) / 8)
    (h1 : chunks1.flatten = putU16 (rand % 65536) ++ putU16 0 ++ putU16 (3 + (q + 7) / 8) ++
      putU8 dev ++ putU8 0x01 ++ putU8 ((q + 7) / 8) ++ d)
    (h2 : chunks2.flatten = putU16 (rand % 65536) ++ putU16 0 ++ putU16 (3 + (q + 7) / 8) ++
      putU8 dev ++ putU8 0x02 ++ putU8 ((q + 7) / 8) ++ d) :
    ((readCoils (Socket.mk true stale (chunks1.map some ++ rest) wr) rand dev start q st).result =
        (List.range q).map (fun i => (d.getD (i / 8) 0).testBit (i % 8)) ∧
      (readCoils (Socket.mk true stale (chunks1.map some ++ rest) wr) rand dev start q st).status =
        Status.Ok) ∧
    ((readDiscreteInputs (Socket.mk true stale (chunks2.map some ++ rest) wr) rand dev start q
        st).result = (List.range q).map (fun i => (d.getD (i / 8) 0).testBit (i % 8)) ∧
      (readDiscreteInputs (Socket.mk true stale (chunks2.map some ++ rest) wr) rand dev start q
        st).status = Status.Ok) :=
  ⟨readCoils_frame stale wr rest chunks1 rand dev start q d st hdev hq hlen h1,
   readDiscreteInputs_frame stale wr rest chunks2 rand dev start q d st hdev hq hlen h2⟩

/-- Witness of C2: ten coils read from the data bytes 0xA5, 0x03. -/
theorem readBits_decode_witness :
    ((readCoils (Socket.mk true [] ([[0, 7, 0, 0, 0, 5, 1, 1, 2, 0xA5, 0x03]].map some ++ []) [])
        7 1 0 10 Status.Timeout).result =
        (List.range 10).map (fun i => (([0xA5, 0x03] : Bytes).getD (i / 8) 0).testBit (i % 8)) ∧
      (readCoils (Socket.mk true [] ([[0, 7, 0, 0, 0, 5, 1, 1, 2, 0xA5, 0x03]].map some ++ []) [])
        7 1 0 10 Status.Timeout).status = Status.Ok) ∧
    ((readDiscreteInputs (Socket.mk true []
        ([[0, 7, 0, 0, 0, 5, 1, 2], [2, 0xA5, 0x03]].map some ++ []) [])
        7 1 0 10 Status.Timeout).result =
        (List.range 10).map (fun i => (([0xA5, 0x03] : Bytes).getD (i / 8) 0).testBit (i % 8)) ∧
      (readDiscreteInputs (Socket.mk true []
        ([[0, 7, 0, 0, 0, 5, 1, 2], [2, 0xA5, 0x03]].map some ++ []) [])
        7 1 0 10 Status.Timeout).status = Status.Ok) :=
  readBits_decode [] [] [] [[0, 7, 0, 0, 0, 5, 1, 1, 2, 0xA5, 0x03]]
    [[0, 7, 0, 0, 0, 5, 1, 2], [2, 0xA5, 0x03]] 7 1 0 10 [0xA5, 0x03] Status.Timeout
    (by decide) (by decide) (by decide) (by decide) (by decide) (by decide)

/-- C3, the code at the failing input: `readCoils` with quantity 0 has the target length 9, so
the 9-byte exception frame with code 2 is checked as a complete normal response and the status
is `UnknownError`, not the exception byte; the same holds for `readHoldingRegisters` with
quantity 0.  With quantity 1 the same frame is reported as the exception byte 2. -/
theorem exception_frame_quantity_zero :
    (readCoils (Socket.mk true [] [some [0, 7, 0, 0, 0, 3, 1, 0x81, 2]] []) 7 1 0 0
        Status.Ok).status = Status.UnknownError ∧
    (readHoldingRegisters (Socket.mk true [] [some [0, 7, 0, 0, 0, 3, 1, 0x83, 2]] []) 7 1 0 0
        Status.Ok).status = Status.UnknownError ∧
    (readCoils (Socket.mk true [] [some [0, 7, 0, 0, 0, 3, 1, 0x81, 2]] []) 7 1 0 1
        Status.Ok).status = Status.Code 2 := by
  decide

/-- C4: transaction-id check.  For every framed operation (the eleven function-code operations
and `executeCustomFunction`): if a response stream is accepted with status `Ok` when the request
carried the transaction id `r mod 2^16`, then the same response stream, received for the same
arguments by a call whose request carries a different transaction id, yields status
`UnknownError` and the empty or false default result.  Acceptance is the branch of the code that
validates the header fields: for the ten fixed-length operations the accumulated response has
exactly the target length, for `readFifoQueue` and `executeCustomFunction` the single read
returns at least 12, respectively 9, bytes without the high bit at offset 7; on that branch the
status is `Ok` only through the assignment made after the field comparison succeeded (for
`executeCustomFunction`, which leaves the status variable alone on success, only when the
comparison succeeded and the caller had initialised the variable to `Ok`). -/
theorem transactionId_check (sock : Socket) (r r' : Nat) (st st' : Status)
    (dev a q x am om ra rq f : Nat) (v : Bool) (coils : List Bool)
    (regs : List Nat) (data : Bytes) (c : Bytes) (rest : List (Option Bytes))
    (hne : r % 65536 ≠ r' % 65536) :
    ((recvLoop (neededBits q + 9) sock.incoming [] []).1.length = neededBits q + 9 →
      (readCoils sock r dev a q st).status = Status.Ok →
      (readCoils sock r' dev a q st').status = Status.UnknownError ∧
      (readCoils sock r' dev a q st').result = []) ∧
    ((recvLoop (neededBits q + 9) sock.incoming [] []).1.length = neededBits q + 9 →
      (readDiscreteInputs sock r dev a q st).status = Status.Ok →
      (readDiscreteInputs sock r' dev a q st').status = Status.UnknownError ∧
      (readDiscreteInputs sock r' dev a q st').result = []) ∧
    ((recvLoop (neededRegs q + 9) sock.incoming [] []).1.length = neededRegs q + 9 →
      (readHoldingRegisters sock r dev a q st).status = Status.Ok →
      (readHoldingRegisters sock r' dev a q st').status = Status.UnknownError ∧
      (readHoldingRegisters sock r' dev a q st').result = []) ∧
    ((recvLoop (neededRegs q + 9) sock.incoming [] []).1.length = neededRegs q + 9 →
      (readInputRegisters sock r dev a q st).status = Status.Ok →
      (readInputRegisters sock r' dev a q st').status = Status.UnknownError ∧
      (readInputRegisters sock r' dev a q st').result = []) ∧
    ((recvLoop (12) sock.incoming [] []).1.length = 12 →
      (writeSingleCoil sock r dev a v st).status = Status.Ok →
      (writeSingleCoil sock r' dev a v st').status = Status.UnknownError ∧
      (writeSingleCoil sock r' dev a v st').result = false) ∧
    ((recvLoop (12) sock.incoming [] []).1.length = 12 →
      (writeSingleRegister sock r dev a x st).status = Status.Ok →
      (writeSingleRegister sock r' dev a x st').status = Status.UnknownError ∧
      (writeSingleRegister sock r' dev a x st').result = false) ∧
    ((recvLoop (12) sock.incoming [] []).1.length = 12 →
      (writeMultipleCoils sock r dev a coils st).status = Status.Ok →
      (writeMultipleCoils sock r' dev a coils st').status = Status.UnknownError ∧
      (writeMultipleCoils sock r' dev a coils st').result = false) ∧
    ((recvLoop (12) sock.incoming [] []).1.length = 12 →
      (writeMultipleRegisters sock r dev a regs st).status = Status.Ok →
      (writeMultipleRegisters sock r' dev a regs st').status = Status.UnknownError ∧
      (writeMultipleRegisters sock r' dev a regs st').result = false) ∧
    ((recvLoop (14) sock.incoming [] []).1.length = 14 →
      (maskWriteRegister sock r dev a am om st).status = Status.Ok →
      (maskWriteRegister sock r' dev a am om st').status = Status.UnknownError ∧
      (maskWriteRegister sock r' dev a am om st').result = false) ∧
    ((recvLoop (neededRegs rq + 9) sock.incoming [] []).1.length = neededRegs rq + 9 →
      (writeReadMultipleRegisters sock r dev a regs ra rq st).status = Status.Ok →
      (writeReadMultipleRegisters sock r' dev a regs ra rq st').status = Status.UnknownError ∧
      (writeReadMultipleRegisters sock r' dev a regs ra rq st').result = []) ∧
    (sock.incoming = some c :: rest → 12 ≤ c.length → highBit (c.getD 7 0) = false →
      (readFifoQueue sock r dev a st).status = Status.Ok →
      (readFifoQueue sock r' dev a st').status = Status.UnknownError ∧
      (readFifoQueue sock r' dev a st').result = []) ∧
    (sock.incoming = some c :: rest → 9 ≤ c.length → highBit (c.getD 7 0) = false →
      (executeCustomFunction sock r dev f data st).status = Status.Ok →
      (executeCustomFunction sock r' dev f data st').status = Status.UnknownError ∧
      (executeCustomFunction sock r' dev f data st').result = []) :=
  ⟨fun hfull h => readCoils_tid sock r r' dev a q st st' hne hfull h,
   fun hfull h => readDiscreteInputs_tid sock r r' dev a q st st' hne hfull h,
   fun hfull h => readHoldingRegisters_tid sock r r' dev a q st st' hne hfull h,
   fun hfull h => readInputRegisters_tid sock r r' dev a q st st' hne hfull h,
   fun hfull h => writeSingleCoil_tid sock r r' dev a v st st' hne hfull h,
   fun hfull h => writeSingleRegister_tid sock r r' dev a x st st' hne hfull h,
   fun hfull h => writeMultipleCoils_tid sock r r' dev a coils st st' hne hfull h,
   fun hfull h => writeMultipleRegisters_tid sock r r' dev a regs st st' hne hfull h,
   fun hfull h => maskWriteRegister_tid sock r r' dev a am om st st' hne hfull h,
   fun hfull h => writeReadMultipleRegisters_tid sock r r' dev a regs ra rq st st' hne hfull h,
   fun hin hsize hbit h =>
     readFifoQueue_tid sock r r' dev a st st' c rest hne hin hsize hbit h,
   fun hin hsize hbit h =>
     executeCustomFunction_tid sock r r' dev f data st st' c rest hne hin hsize hbit h⟩

/-- Witness of C4: four accepted exchanges (a coil write, a register read, a FIFO read, a
custom function) replayed against a request that carries transaction id 8 instead of 7. -/
theorem transactionId_check_witness :
    ((writeSingleCoil (Socket.mk true [] [some [0, 7, 0, 0, 0, 6, 1, 5, 0, 2, 0xFF, 0]] [])
        8 1 2 true Status.Ok).status = Status.UnknownError ∧
      (writeSingleCoil (Socket.mk true [] [some [0, 7, 0, 0, 0, 6, 1, 5, 0, 2, 0xFF, 0]] [])
        8 1 2 true Status.Ok).result = false) ∧
    ((readHoldingRegisters (Socket.mk true [] [some [0, 7, 0, 0, 0, 5, 1, 3, 2, 0, 10]] [])
        8 1 2 1 Status.Ok).status = Status.UnknownError ∧
      (readHoldingRegisters (Socket.mk true [] [some [0, 7, 0, 0, 0, 5, 1, 3, 2, 0, 10]] [])
        8 1 2 1 Status.Ok).result = []) ∧
    ((readFifoQueue (Socket.mk true [] [some [0, 7, 0, 0, 0, 6, 1, 0x18, 0, 8, 0, 4]] [])
        8 1 2 Status.Ok).status = Status.UnknownError ∧
      (readFifoQueue (Socket.mk true [] [some [0, 7, 0, 0, 0, 6, 1, 0x18, 0, 8, 0, 4]] [])
        8 1 2 Status.Ok).result = []) ∧
    ((executeCustomFunction (Socket.mk true [] [some [0, 7, 0, 0, 0, 3, 1, 0x41, 9]] [])
        8 1 0x41 [5] Status.Ok).status = Status.UnknownError ∧
      (executeCustomFunction (Socket.mk true [] [some [0, 7, 0, 0, 0, 3, 1, 0x41, 9]] [])
        8 1 0x41 [5] Status.Ok).result = []) :=
  ⟨(transactionId_check (Socket.mk true [] [some [0, 7, 0, 0, 0, 6, 1, 5, 0, 2, 0xFF, 0]] [])
      7 8 Status.Ok Status.Ok 1 2 1 0 0 0 0 0 0x41 true [] [] [5] [] [] (by decide)).2.2.2.2.1
      (by decide) (by decide),
   (transactionId_check (Socket.mk true [] [some [0, 7, 0, 0, 0, 5, 1, 3, 2, 0, 10]] [])
      7 8 Status.Ok Status.Ok 1 2 1 0 0 0 0 0 0x41 true [] [] [5] [] [] (by decide)).2.2.1
      (by decide) (by decide),
   (transactionId_check (Socket.mk true [] [some [0, 7, 0, 0, 0, 6, 1, 0x18, 0, 8, 0, 4]] [])
      7 8 Status.Ok Status.Ok 1 2 1 0 0 0 0 0 0x41 true [] [] [5]
      [0, 7, 0, 0, 0, 6, 1, 0x18, 0, 8, 0, 4] [] (by decide)).2.2.2.2.2.2.2.2.2.2.1
      rfl (by decide) (by decide) (by decide),
   (transactionId_check (Socket.mk true [] [some [0, 7, 0, 0, 0, 3, 1, 0x41, 9]] [])
      7 8 Status.Ok Status.Ok 1 2 1 0 0 0 0 0 0x41 true [] [] [5]
      [0, 7, 0, 0, 0, 3, 1, 0x41, 9] [] (by decide)).2.2.2.2.2.2.2.2.2.2.2
      rfl (by decide) (by decide) (by decide)⟩

/-- C5: short read.  For every fixed-length operation (0x01-0x06, 0x0F, 0x10, 0x16, 0x17) with
exact target length `T`: when the accumulation, that is the loop run on the script of the
connection once the stale input is discarded, ends with `k` bytes where `k < T` and `k ≠ 9`
(a wait timed out, or the loop stopped early), the operation reports status `Timeout` and
returns the empty or false default result. -/
theorem short_read_timeout (sock : Socket) (r : Nat) (st : Status)
    (dev a q x am om ra rq : Nat) (v : Bool) (coils : List Bool) (regs : List Nat)
    (hc : sock.connected = true) :
    ((recvLoop (neededBits q + 9) sock.incoming [] []).1.length < neededBits q + 9 →
      (recvLoop (neededBits q + 9) sock.incoming [] []).1.length ≠ 9 →
      (readCoils sock r dev a q st).status = Status.Timeout ∧ (readCoils sock r dev a q st).result = []) ∧
    ((recvLoop (neededBits q + 9) sock.incoming [] []).1.length < neededBits q + 9 →
      (recvLoop (neededBits q + 9) sock.incoming [] []).1.length ≠ 9 →
      (readDiscreteInputs sock r dev a q st).status = Status.Timeout ∧ (readDiscreteInputs sock r dev a q st).result = []) ∧
    ((recvLoop (neededRegs q + 9) sock.incoming [] []).1.length < neededRegs q + 9 →
      (recvLoop (neededRegs q + 9) sock.incoming [] []).1.length ≠ 9 →
      (readHoldingRegisters sock r dev a q st).status = Status.Timeout ∧ (readHoldingRegisters sock r dev a q st).result = []) ∧
    ((recvLoop (neededRegs q + 9) sock.incoming [] []).1.length < neededRegs q + 9 →
      (recvLoop (neededRegs q + 9) sock.incoming [] []).1.length ≠ 9 →
      (readInputRegisters sock r dev a q st).status = Status.Timeout ∧ (readInputRegisters sock r dev a q st).result = []) ∧
    ((recvLoop (12) sock.incoming [] []).1.length < 12 →
      (recvLoop (12) sock.incoming [] []).1.length ≠ 9 →
      (writeSingleCoil sock r dev a v st).status = Status.Timeout ∧ (writeSingleCoil sock r dev a v st).result = false) ∧
    ((recvLoop (12) sock.incoming [] []).1.length < 12 →
      (recvLoop (12) sock.incoming [] []).1.length ≠ 9 →
      (writeSingleRegister sock r dev a x st).status = Status.Timeout ∧ (writeSingleRegister sock r dev a x st).result = false) ∧
    ((recvLoop (12) sock.incoming [] []).1.length < 12 →
      (recvLoop (12) sock.incoming [] []).1.length ≠ 9 →
      (writeMultipleCoils sock r dev a coils st).status = Status.Timeout ∧ (writeMultipleCoils sock r dev a coils st).result = false) ∧
    ((recvLoop (12) sock.incoming [] []).1.length < 12 →
      (recvLoop (12) sock.incoming [] []).1.length ≠ 9 →
      (writeMultipleRegisters sock r dev a regs st).status = Status.Timeout ∧ (writeMultipleRegisters sock r dev a regs st).result = false) ∧
    ((recvLoop (14) sock.incoming [] []).1.length < 14 →
      (recvLoop (14) sock.incoming [] []).1.length ≠ 9 →
      (maskWriteRegister sock r dev a am om st).status = Status.Timeout ∧ (maskWriteRegister sock r dev a am om st).result = false) ∧
    ((recvLoop (neededRegs rq + 9) sock.incoming [] []).1.length < neededRegs rq + 9 →
      (recvLoop (neededRegs rq + 9) sock.incoming [] []).1.length ≠ 9 →
      (writeReadMultipleRegisters sock r dev a regs ra rq st).status = Status.Timeout ∧ (writeReadMultipleRegisters sock r dev a regs ra rq st).result = []) :=
  ⟨fun hlt h9 => readCoils_short sock r dev a q st hc hlt h9,
   fun hlt h9 => readDiscreteInputs_short sock r dev a q st hc hlt h9,
   fun hlt h9 => readHoldingRegisters_short sock r dev a q st hc hlt h9,
   fun hlt h9 => readInputRegisters_short sock r dev a q st hc hlt h9,
   fun hlt h9 => writeSingleCoil_short sock r dev a v st hc hlt h9,
   fun hlt h9 => writeSingleRegister_short sock r dev a x st hc hlt h9,
   fun hlt h9 => writeMultipleCoils_short sock r dev a coils st hc hlt h9,
   fun hlt h9 => writeMultipleRegisters_short sock r dev a regs st hc hlt h9,
   fun hlt h9 => maskWriteRegister_short sock r dev a am om st hc hlt h9,
   fun hlt h9 => writeReadMultipleRegisters_short sock r dev a regs ra rq st hc hlt h9⟩

/-- Witness of C5: `writeSingleCoil` (target 12) when five bytes arrive and the next wait times
out, and when ten bytes arrive whose function code has the high bit set. -/
theorem short_read_timeout_witness :
    ((writeSingleCoil (Socket.mk true [] [some [0, 7, 0, 0, 0], none, some [6, 1, 5, 0, 2, 0xFF, 0]]
        []) 7 1 2 true Status.Ok).status = Status.Timeout ∧
      (writeSingleCoil (Socket.mk true [] [some [0, 7, 0, 0, 0], none, some [6, 1, 5, 0, 2, 0xFF, 0]]
        []) 7 1 2 true Status.Ok).result = false) ∧
    ((writeSingleCoil (Socket.mk true [] [some [0, 7, 0, 0, 0, 4, 1, 0x85, 2, 0], some [0, 0]]
        []) 7 1 2 true Status.Ok).status = Status.Timeout ∧
      (writeSingleCoil (Socket.mk true [] [some [0, 7, 0, 0, 0, 4, 1, 0x85, 2, 0], some [0, 0]]
        []) 7 1 2 true Status.Ok).result = false) :=
  ⟨(short_read_timeout
      (Socket.mk true [] [some [0, 7, 0, 0, 0], none, some [6, 1, 5, 0, 2, 0xFF, 0]] [])
      7 Status.Ok 1 2 1 0 0 0 0 0 true [] [] rfl).2.2.2.2.1 (by decide) (by decide),
   (short_read_timeout
      (Socket.mk true [] [some [0, 7, 0, 0, 0, 4, 1, 0x85, 2, 0], some [0, 0]] [])
      7 Status.Ok 1 2 1 0 0 0 0 0 true [] [] rfl).2.2.2.2.1 (by decide) (by decide)⟩

/-- C6: not connected.  For each of the thirteen operations and all arguments, when the
connection reports not connected the operation reports status `NoConnection`, returns the empty
or false default result and leaves the connection as it was: nothing is written, read,
discarded or waited for. -/
theorem not_connected (sock : Socket) (r : Nat) (st : Status)
    (dev a q x am om ra rq f : Nat) (v : Bool) (coils : List Bool)
    (regs : List Nat) (data : Bytes)
    (hc : sock.connected = false) :
    readCoils sock r dev a q st = ⟨[], Status.NoConnection, sock⟩ ∧
    readDiscreteInputs sock r dev a q st = ⟨[], Status.NoConnection, sock⟩ ∧
    readHoldingRegisters sock r dev a q st = ⟨[], Status.NoConnection, sock⟩ ∧
    readInputRegisters sock r dev a q st = ⟨[], Status.NoConnection, sock⟩ ∧
    writeSingleCoil sock r dev a v st = ⟨false, Status.NoConnection, sock⟩ ∧
    writeSingleRegister sock r dev a x st = ⟨false, Status.NoConnection, sock⟩ ∧
    writeMultipleCoils sock r dev a coils st = ⟨false, Status.NoConnection, sock⟩ ∧
    writeMultipleRegisters sock r dev a regs st = ⟨false, Status.NoConnection, sock⟩ ∧
    maskWriteRegister sock r dev a am om st = ⟨false, Status.NoConnection, sock⟩ ∧
    writeReadMultipleRegisters sock r dev a regs ra rq st = ⟨[], Status.NoConnection, sock⟩ ∧
    readFifoQueue sock r dev a st = ⟨[], Status.NoConnection, sock⟩ ∧
    executeCustomFunction sock r dev f data st = ⟨[], Status.NoConnection, sock⟩ ∧
    executeRaw sock data st = ⟨[], Status.NoConnection, sock⟩ := by
  refine ⟨?_, ?_, ?_, ?_, ?_, ?_, ?_, ?_, ?_, ?_, ?_, ?_, ?_⟩
  · simp [readCoils, hc]
  · simp [readDiscreteInputs, hc]
  · simp [readHoldingRegisters, hc]
  · simp [readInputRegisters, hc]
  · simp [writeSingleCoil, hc]
  · simp [writeSingleRegister, hc]
  · simp [writeMultipleCoils, hc]
  · simp [writeMultipleRegisters, hc]
  · simp [maskWriteRegister, hc]
  · simp [writeReadMultipleRegisters, hc]
  · simp [readFifoQueue, hc]
  · simp [executeCustomFunction, hc]
  · simp [executeRaw, hc]

/-- Witness of C6: a disconnected socket with buffered input, a pending chunk and an earlier
write in its log. -/
theorem not_connected_witness :
    readCoils (Socket.mk false [1] [some [2]] [[3]]) 7 1 0 8 Status.Ok =
      ⟨[], Status.NoConnection, Socket.mk false [1] [some [2]] [[3]]⟩ ∧
    executeRaw (Socket.mk false [1] [some [2]] [[3]]) [5] Status.Ok =
      ⟨[], Status.NoConnection, Socket.mk false [1] [some [2]] [[3]]⟩ :=
  ⟨(not_connected (Socket.mk false [1] [some [2]] [[3]]) 7 Status.Ok 1 0 8 0 0 0 0 0 0 true [] []
      [5] rfl).1,
   (not_connected (Socket.mk false [1] [some [2]] [[3]]) 7 Status.Ok 1 0 8 0 0 0 0 0 0 true [] []
      [5] rfl).2.2.2.2.2.2.2.2.2.2.2.2⟩

/-- C7, the code at the failing input: the status variable holds `Timeout` before the call;
`executeCustomFunction` and `executeRaw` return a non-empty byte array and leave the status
variable at `Timeout`. -/
theorem result_without_ok :
    (executeCustomFunction (Socket.mk true [] [some [0, 7, 0, 0, 0, 3, 1, 0x41, 9]] []) 7 1 0x41
        [5] Status.Timeout).result = [9] ∧
    (executeCustomFunction (Socket.mk true [] [some [0, 7, 0, 0, 0, 3, 1, 0x41, 9]] []) 7 1 0x41
        [5] Status.Timeout).status = Status.Timeout ∧
    (executeRaw (Socket.mk true [] [some [1, 2, 3]] []) [5] Status.Timeout).result = [1, 2, 3] ∧
    (executeRaw (Socket.mk true [] [some [1, 2, 3]] []) [5] Status.Timeout).status =
      Status.Timeout := by
  decide

/-- C8, the code at the failing input: for an empty coil list `writeMultipleCoils` writes a
request whose length field is 7 while 8 bytes follow it; for 128 register values
`writeMultipleRegisters` writes a request whose length field is 7 while 263 bytes follow it. -/
theorem length_field_mismatch :
    (writeMultipleCoils (Socket.mk true [] [] []) 7 1 0 [] Status.Ok).socket.written =
      [[0, 7, 0, 0, 0, 7, 1, 0x0F, 0, 0, 0, 0, 0, 0]] ∧
    ((writeMultipleRegisters (Socket.mk true [] [] []) 7 1 0 (List.replicate 128 0)
        Status.Ok).socket.written.map (fun req => (req.take 6, req.length - 6))) =
      [([0, 7, 0, 0, 0, 7], 263)] := by
  refine ⟨by decide, ?_⟩
  rw [writeMultipleRegisters_written _ 7 1 0 _ Status.Ok rfl]
  simp [putU16, putU8, putRegs_length]

/-- C9: fixed-shape request layout.  For the function codes 0x01 to 0x06 the request written to
the connection is exactly the 12 bytes transaction id (high, low), 0, 0, 0, 6, device address,
function code, `a` (high, low), `b` (high, low), where `a` is the start or output address and
`b` is the quantity or the value field (0xFF00 or 0x0000 for `writeSingleCoil`); for
`maskWriteRegister` (0x16) it is exactly the 14 bytes transaction id, 0, 0, 0, 8, device
address, 0x16, address, and-mask, or-mask, every 16-bit field high byte first. -/
theorem fixed_request_layout (sock : Socket) (r : Nat) (st : Status) (dev a b am om : Nat)
    (v : Bool) (hc : sock.connected = true) (hdev : dev < 256) (ha : a < 65536)
    (hb : b < 65536) (ham : am < 65536) (hom : om < 65536) :
    (readCoils sock r dev a b st).socket.written = sock.written ++
      [[r % 65536 / 256, r % 65536 % 256, 0, 0, 0, 6, dev, 0x01, a / 256, a % 256,
        b / 256, b % 256]] ∧
    (readDiscreteInputs sock r dev a b st).socket.written = sock.written ++
      [[r % 65536 / 256, r % 65536 % 256, 0, 0, 0, 6, dev, 0x02, a / 256, a % 256,
        b / 256, b % 256]] ∧
    (readHoldingRegisters sock r dev a b st).socket.written = sock.written ++
      [[r % 65536 / 256, r % 65536 % 256, 0, 0, 0, 6, dev, 0x03, a / 256, a % 256,
        b / 256, b % 256]] ∧
    (readInputRegisters sock r dev a b st).socket.written = sock.written ++
      [[r % 65536 / 256, r % 65536 % 256, 0, 0, 0, 6, dev, 0x04, a / 256, a % 256,
        b / 256, b % 256]] ∧
    (writeSingleCoil sock r dev a v st).socket.written = sock.written ++
      [[r % 65536 / 256, r % 65536 % 256, 0, 0, 0, 6, dev, 0x05, a / 256, a % 256,
        (if v then 0xFF00 else 0x0000) / 256, (if v then 0xFF00 else 0x0000) % 256]] ∧
    (writeSingleRegister sock r dev a b st).socket.written = sock.written ++
      [[r % 65536 / 256, r % 65536 % 256, 0, 0, 0, 6, dev, 0x06, a / 256, a % 256,
        b / 256, b % 256]] ∧
    (maskWriteRegister sock r dev a am om st).socket.written = sock.written ++
      [[r % 65536 / 256, r % 65536 % 256, 0, 0, 0, 8, dev, 0x16, a / 256, a % 256,
        am / 256, am % 256, om / 256, om % 256]] := by
  have ht := putU16_of_lt (r % 65536) (Nat.mod_lt _ (by decide))
  have hv : (if v = true then 0xFF00 else 0x0000) < 65536 := by split <;> decide
  refine ⟨?_, ?_, ?_, ?_, ?_, ?_, ?_⟩
  · rw [readCoils_written sock r dev a b st hc, ht, putU16_of_lt a ha, putU16_of_lt b hb,
      putU8_of_lt dev hdev]; rfl
  · rw [readDiscreteInputs_written sock r dev a b st hc, ht, putU16_of_lt a ha,
      putU16_of_lt b hb, putU8_of_lt dev hdev]; rfl
  · rw [readHoldingRegisters_written sock r dev a b st hc, ht, putU16_of_lt a ha,
      putU16_of_lt b hb, putU8_of_lt dev hdev]; rfl
  · rw [readInputRegisters_written sock r dev a b st hc, ht, putU16_of_lt a ha,
      putU16_of_lt b hb, putU8_of_lt dev hdev]; rfl
  · rw [writeSingleCoil_written sock r dev a v st hc, ht, putU16_of_lt a ha,
      putU16_of_lt _ hv, putU8_of_lt dev hdev]; rfl
  · rw [writeSingleRegister_written sock r dev a b st hc, ht, putU16_of_lt a ha,
      putU16_of_lt b hb, putU8_of_lt dev hdev]; rfl
  · rw [maskWriteRegister_written sock r dev a am om st hc, ht, putU16_of_lt a ha,
      putU16_of_lt am ham, putU16_of_lt om hom, putU8_of_lt dev hdev]; rfl

/-- Witness of C9: transaction id 0x1234, device 1, address 0x0102, second field 3, masks 0x00F2
and 0x0025. -/
theorem fixed_request_layout_witness :
    (readHoldingRegisters (Socket.mk true [] [] []) 0x1234 1 0x0102 3 Status.Ok).socket.written =
      [] ++ [[0x1234 % 65536 / 256, 0x1234 % 65536 % 256, 0, 0, 0, 6, 1, 0x03, 0x0102 / 256,
        0x0102 % 256, 3 / 256, 3 % 256]] ∧
    (maskWriteRegister (Socket.mk true [] [] []) 0x1234 1 0x0102 0x00F2 0x0025
        Status.Ok).socket.written =
      [] ++ [[0x1234 % 65536 / 256, 0x1234 % 65536 % 256, 0, 0, 0, 8, 1, 0x16, 0x0102 / 256,
        0x0102 % 256, 0x00F2 / 256, 0x00F2 % 256, 0x0025 / 256, 0x0025 % 256]] :=
  ⟨(fixed_request_layout (Socket.mk true [] [] []) 0x1234 Status.Ok 1 0x0102 3 0x00F2 0x0025 true
      rfl (by decide) (by decide) (by decide) (by decide) (by decide)).2.2.1,
   (fixed_request_layout (Socket.mk true [] [] []) 0x1234 Status.Ok 1 0x0102 3 0x00F2 0x0025 true
      rfl (by decide) (by decide) (by decide) (by decide) (by decide)).2.2.2.2.2.2⟩

/-- C10: Write Single Coil value field.  The request of `writeSingleCoil` carries the value field
0xFF00 (bytes 0xFF, 0x00) when `outputValue` is true and 0x0000 when it is false; and a 12-byte
response that matches in transaction id, protocol 0, length 6, device address, function 0x05
and output address, but whose value field is any 16-bit value other than the one sent, yields
status `UnknownError` and result false. -/
theorem writeSingleCoil_value_field (stale : Bytes) (wr : List Bytes)
    (rest : List (Option Bytes)) (chunks : List Bytes) (r dev a x : Nat) (v : Bool) (st : Status)
    (hdev : dev < 256) (ha : a < 65536) (hx : x < 65536)
    (hne : x ≠ if v then 0xFF00 else 0x0000)
    (hframe : chunks.flatten = putU16 (r % 65536) ++ putU16 0 ++ putU16 6 ++ putU8 dev ++
      putU8 0x05 ++ putU16 a ++ putU16 x) :
    (writeSingleCoil (Socket.mk true stale (chunks.map some ++ rest) wr) r dev a v
        st).socket.written = wr ++
      [[r % 65536 / 256, r % 65536 % 256, 0, 0, 0, 6, dev, 0x05, a / 256, a % 256,
        if v then 0xFF else 0x00, 0x00]] ∧
    (writeSingleCoil (Socket.mk true stale (chunks.map some ++ rest) wr) r dev a v st).status =
      Status.UnknownError ∧
    (writeSingleCoil (Socket.mk true stale (chunks.map some ++ rest) wr) r dev a v st).result =
      false := by
  refine ⟨?_, writeSingleCoil_value_mismatch stale wr rest chunks r dev a x v st hx hne hframe⟩
  rw [writeSingleCoil_written _ r dev a v st rfl,
    putU16_of_lt (r % 65536) (Nat.mod_lt _ (by decide)), putU16_of_lt a ha, putU8_of_lt dev hdev]
  cases v <;> rfl

/-- Witness of C10: the coil is switched on (value field 0xFF00 sent) and the device echoes the
value field 0x0001. -/
theorem writeSingleCoil_value_field_witness :
    (writeSingleCoil (Socket.mk true [] ([[0, 7, 0, 0, 0, 6, 1, 5, 0, 2, 0, 1]].map some ++ []) [])
        7 1 2 true Status.Ok).socket.written = [] ++
      [[7 % 65536 / 256, 7 % 65536 % 256, 0, 0, 0, 6, 1, 0x05, 2 / 256, 2 % 256,
        if true then 0xFF else 0x00, 0x00]] ∧
    (writeSingleCoil (Socket.mk true [] ([[0, 7, 0, 0, 0, 6, 1, 5, 0, 2, 0, 1]].map some ++ []) [])
        7 1 2 true Status.Ok).status = Status.UnknownError ∧
    (writeSingleCoil (Socket.mk true [] ([[0, 7, 0, 0, 0, 6, 1, 5, 0, 2, 0, 1]].map some ++ []) [])
        7 1 2 true Status.Ok).result = false :=
  writeSingleCoil_value_field [] [] [] [[0, 7, 0, 0, 0, 6, 1, 5, 0, 2, 0, 1]] 7 1 2 1 true
    Status.Ok (by decide) (by decide) (by decide) (by decide) (by decide)

/-- C11: Write Multiple Registers echo.  For every list of `n` register values with
`1 ≤ n ≤ 123`, `writeMultipleRegisters` writes the request transaction id, 0, `7 + 2n`, device,
0x10, start, `n`, byte count `2n`, then the `n` values big endian, given here byte by byte with
`t` the transaction id `r mod 2^16`: `t / 256, t % 256, 0, 0, 0, 7 + 2n, dev, 0x10, a / 256,
a % 256, 0, n, 2n` followed for every value `v` of the list, in order, by its high byte and its
low byte; and when twelve bytes are accumulated as the response it returns true with status `Ok`
if and only if the response is transaction id, protocol 0, length 6, device, 0x10, start, `n`,
field for field; on any other twelve bytes it returns false with status `UnknownError`. -/
theorem writeMultipleRegisters_echo (sock : Socket) (r dev a : Nat) (regs : List Nat)
    (st : Status) (resp : Bytes)
    (hc : sock.connected = true) (hdev : dev < 256) (ha : a < 65536)
    (_hn1 : 1 ≤ regs.length) (hn : regs.length ≤ 123)
    (hresp : (recvLoop 12 sock.incoming [] []).1 = resp) (hlen : resp.length = 12)
    (hb : ∀ b ∈ resp, b < 256) :
    (writeMultipleRegisters sock r dev a regs st).socket.written = sock.written ++
      [[r % 65536 / 256, r % 65536 % 256, 0, 0, 0, 7 + 2 * regs.length, dev, 0x10,
          a / 256, a % 256, 0, regs.length, 2 * regs.length] ++
        (regs.map fun v => [v / 256 % 256, v % 256]).flatten] ∧
    (((writeMultipleRegisters sock r dev a regs st).result = true ∧
        (writeMultipleRegisters sock r dev a regs st).status = Status.Ok) ↔
      resp = [r % 65536 / 256, r % 65536 % 256, 0, 0, 0, 6, dev, 0x10, a / 256, a % 256,
        0, regs.length]) ∧
    (resp ≠ [r % 65536 / 256, r % 65536 % 256, 0, 0, 0, 6, dev, 0x10, a / 256, a % 256,
        0, regs.length] →
      (writeMultipleRegisters sock r dev a regs st).result = false ∧
      (writeMultipleRegisters sock r dev a regs st).status = Status.UnknownError) := by
  obtain ⟨b0, b1, b2, b3, b4, b5, b6, b7, b8, b9, b10, b11, rfl⟩ := exists_twelve resp hlen
  have h0 := hb b0 (by simp)
  have h1 := hb b1 (by simp)
  have h2 := hb b2 (by simp)
  have h3 := hb b3 (by simp)
  have h4 := hb b4 (by simp)
  have h5 := hb b5 (by simp)
  have h8 := hb b8 (by simp)
  have h9 := hb b9 (by simp)
  have h10 := hb b10 (by simp)
  have h11 := hb b11 (by simp)
  have key : (b0 * 256 + b1 = r % 65536 ∧ b2 * 256 + b3 = 0 ∧ b4 * 256 + b5 = 6 ∧ b6 = dev ∧
      b7 = 0x10 ∧ b8 * 256 + b9 = a ∧ b10 * 256 + b11 = regs.length) ↔
      [b0, b1, b2, b3, b4, b5, b6, b7, b8, b9, b10, b11] =
        [r % 65536 / 256, r % 65536 % 256, 0, 0, 0, 6, dev, 0x10, a / 256, a % 256,
          0, regs.length] := by
    simp only [List.cons.injEq, and_true]
    constructor
    · rintro ⟨e1, e2, e3, e4, e5, e6, e7⟩
      refine ⟨?_, ?_, ?_, ?_, ?_, ?_, ?_, ?_, ?_, ?_, ?_, ?_⟩ <;> omega
    · rintro ⟨e0, e1, e2, e3, e4, e5, e6, e7, e8, e9, e10, e11⟩
      refine ⟨?_, ?_, ?_, ?_, ?_, ?_, ?_⟩ <;> omega
  have hfull := writeMultipleRegisters_full sock r dev a regs st b0 b1 b2 b3 b4 b5 b6 b7 b8 b9
    b10 b11 hc hresp
  refine ⟨?_, ?_, ?_⟩
  · rw [writeMultipleRegisters_written sock r dev a regs st hc, putRegs_bytes]
    have e1 : (regs.length * 2 % 256 + 7) % 65536 = 7 + 2 * regs.length := by omega
    have e2 : regs.length % 65536 = regs.length := by omega
    have e3 : regs.length * 2 % 256 = 2 * regs.length := by omega
    have e4 : r % 65536 / 256 % 256 = r % 65536 / 256 := by omega
    have e5 : (7 + 2 * regs.length) / 256 % 256 = 0 := by omega
    have e6 : (7 + 2 * regs.length) % 256 = 7 + 2 * regs.length := by omega
    have e7 : a / 256 % 256 = a / 256 := by omega
    have e8 : regs.length / 256 % 256 = 0 := by omega
    have e9 : regs.length % 256 = regs.length := by omega
    have e10 : 2 * regs.length % 256 = 2 * regs.length := by omega
    have e11 : dev % 256 = dev := by omega
    rw [e1, e2, e3]
    simp only [putU16, putU8, e4, e5, e6, e7, e8, e9, e10, e11, List.cons_append,
      List.nil_append, Nat.zero_div, Nat.zero_mod]
  · constructor
    · intro hok
      by_cases hcond : (b0 * 256 + b1 = r % 65536 ∧ b2 * 256 + b3 = 0 ∧ b4 * 256 + b5 = 6 ∧
          b6 = dev ∧ b7 = 0x10 ∧ b8 * 256 + b9 = a ∧ b10 * 256 + b11 = regs.length)
      · exact key.mp hcond
      · have hbad := (hfull.2 hcond).1
        rw [hok.1] at hbad
        exact absurd hbad (by decide)
    · intro heq
      exact hfull.1 (key.mpr heq)
  · intro hne
    exact hfull.2 (fun hcond => hne (key.mp hcond))

/-- Witness of C11: the values 0x1111, 0x2222, 0x3333 written at address 2 of device 1 and the
twelve-byte echo carrying the count 3; the request is nineteen bytes, the six data bytes being
0x11, 0x11, 0x22, 0x22, 0x33, 0x33. -/
theorem writeMultipleRegisters_echo_witness :
    (writeMultipleRegisters (Socket.mk true [] [some [0, 7, 0, 0, 0, 6, 1, 0x10, 0, 2, 0, 3]] [])
        7 1 2 [0x1111, 0x2222, 0x3333] Status.Timeout).socket.written =
      [[0, 7, 0, 0, 0, 13, 1, 0x10, 0, 2, 0, 3, 6, 0x11, 0x11, 0x22, 0x22, 0x33, 0x33]] ∧
    (writeMultipleRegisters (Socket.mk true [] [some [0, 7, 0, 0, 0, 6, 1, 0x10, 0, 2, 0, 3]] [])
        7 1 2 [0x1111, 0x2222, 0x3333] Status.Timeout).result = true ∧
    (writeMultipleRegisters (Socket.mk true [] [some [0, 7, 0, 0, 0, 6, 1, 0x10, 0, 2, 0, 3]] [])
        7 1 2 [0x1111, 0x2222, 0x3333] Status.Timeout).status = Status.Ok :=
  have h := writeMultipleRegisters_echo
    (Socket.mk true [] [some [0, 7, 0, 0, 0, 6, 1, 0x10, 0, 2, 0, 3]] []) 7 1 2
    [0x1111, 0x2222, 0x3333] Status.Timeout [0, 7, 0, 0, 0, 6, 1, 0x10, 0, 2, 0, 3]
    rfl (by decide) (by decide) (by decide) (by decide) (by decide) (by decide)
    (by decide)
  ⟨h.1.trans (by decide), h.2.1.mpr (by decide)⟩

/-- C12: coil packing on write.  For every list of `n` coil values with `1 ≤ n ≤ 2040`, the
request written by `writeMultipleCoils` carries the quantity field `n` and the byte-count field
`ceil(n/8)` and ends with exactly `ceil(n/8)` data bytes, in which bit `i mod 8` of data byte
`i div 8` is set if and only if coil `i` is true; every bit at a position `≥ n` is zero. -/
theorem writeMultipleCoils_packing (sock : Socket) (r dev a : Nat) (coils : List Bool)
    (st : Status) (hc : sock.connected = true)
    (hn1 : 1 ≤ coils.length) (hn : coils.length ≤ 2040) :
    ∃ data : Bytes,
      (writeMultipleCoils sock r dev a coils st).socket.written = sock.written ++
        [putU16 (r % 65536) ++ putU16 0 ++ putU16 (7 + (coils.length + 7) / 8) ++ putU8 dev ++
          putU8 0x0F ++ putU16 a ++ putU16 coils.length ++ putU8 ((coils.length + 7) / 8) ++
          data] ∧
      data.length = (coils.length + 7) / 8 ∧
      (∀ b ∈ data, b < 256) ∧
      (∀ i, (data.getD (i / 8) 0).testBit (i % 8) = coils.getD i false) ∧
      (∀ i, coils.length ≤ i → (data.getD (i / 8) 0).testBit (i % 8) = false) := by
  have htx : (if coils.length % 8 ≠ 0 then (coils.length / 8 % 256 + 1) % 256
      else coils.length / 8 % 256) = (coils.length + 7) / 8 := by
    split <;> omega
  have hfield : ((coils.length + 7) / 8 + 7) % 65536 = 7 + (coils.length + 7) / 8 := by omega
  have hq : coils.length % 65536 = coils.length := by omega
  obtain ⟨data, h1, h2, h3, h4⟩ := packLoop_all coils
    (putU16 (r % 65536) ++ putU16 0 ++ putU16 (7 + (coils.length + 7) / 8) ++ putU8 dev ++
      putU8 0x0F ++ putU16 a ++ putU16 coils.length ++ putU8 ((coils.length + 7) / 8))
  refine ⟨data, ?_, ?_, h3, h4, ?_⟩
  · rw [writeMultipleCoils_written sock r dev a coils st hc, htx, hfield, hq, h1]
  · rw [h2]; omega
  · intro i hi
    rw [h4 i]
    simp only [List.getD_eq_getElem?_getD]
    rw [List.getElem?_eq_none hi]
    rfl

/-- Witness of C12: nine coils, packed into the data bytes 0x0D and 0x01. -/
theorem writeMultipleCoils_packing_witness :
    ∃ data : Bytes,
      (writeMultipleCoils (Socket.mk true [] [] []) 7 1 0
          [true, false, true, true, false, false, false, false, true]
          Status.Ok).socket.written = [] ++
        [putU16 (7 % 65536) ++ putU16 0 ++ putU16 (7 + (9 + 7) / 8) ++ putU8 1 ++
          putU8 0x0F ++ putU16 0 ++ putU16 9 ++ putU8 ((9 + 7) / 8) ++ data] ∧
      data.length = (9 + 7) / 8 ∧
      (∀ b ∈ data, b < 256) ∧
      (∀ i, (data.getD (i / 8) 0).testBit (i % 8) =
        [true, false, true, true, false, false, false, false, true].getD i false) ∧
      (∀ i, 9 ≤ i → (data.getD (i / 8) 0).testBit (i % 8) = false) :=
  writeMultipleCoils_packing (Socket.mk true [] [] []) 7 1 0
    [true, false, true, true, false, false, false, false, true] Status.Ok rfl (by decide)
    (by decide)

/-- C13, the code at the failing input: for one write value (0x1111 at address 0x20, reading one
register at 0x10, device 1, transaction id 7) `writeReadMultipleRegisters` writes 20 bytes, not
the 19 of the claim, because the write byte count 2 is streamed as the two bytes 0x00, 0x02
(and the length field is 14 accordingly). -/
theorem writeRead_byte_count_two_bytes :
    (writeReadMultipleRegisters (Socket.mk true [] [] []) 7 1 0x20 [0x1111] 0x10 1
        Status.Ok).socket.written =
      [[0, 7, 0, 0, 0, 14, 1, 0x17, 0, 0x10, 0, 1, 0, 0x20, 0, 1, 0, 2, 0x11, 0x11]] ∧
    ((writeReadMultipleRegisters (Socket.mk true [] [] []) 7 1 0x20 [0x1111] 0x10 1
        Status.Ok).socket.written.map List.length) = [20] := by
  decide

/-- C14, the code at the failing input: the well-formed Read FIFO Queue responses for a queue of
two words (length field 10, byte count 6, FIFO count 2, words 10 and 20) and for an empty queue
(length field 6, byte count 2, FIFO count 0), received in one burst, are rejected with status
`UnknownError` and an empty result. -/
theorem fifo_wellformed_rejected :
    (readFifoQueue (Socket.mk true []
        [some [0, 7, 0, 0, 0, 10, 1, 0x18, 0, 6, 0, 2, 0, 10, 0, 20]] []) 7 1 0
        Status.Ok).status = Status.UnknownError ∧
    (readFifoQueue (Socket.mk true []
        [some [0, 7, 0, 0, 0, 10, 1, 0x18, 0, 6, 0, 2, 0, 10, 0, 20]] []) 7 1 0
        Status.Ok).result = [] ∧
    (readFifoQueue (Socket.mk true [] [some [0, 7, 0, 0, 0, 6, 1, 0x18, 0, 2, 0, 0]] []) 7 1 0
        Status.Ok).status = Status.UnknownError ∧
    (readFifoQueue (Socket.mk true [] [some [0, 7, 0, 0, 0, 6, 1, 0x18, 0, 2, 0, 0]] []) 7 1 0
        Status.Ok).result = [] := by
  decide

/-- C15, the code at the failing input: for the quantity 32768 the 16-bit variable
`neededRxBytes` wraps to 0, so the target length is 9 and not 9 + 2 * 32768 = 65545; the nine
bytes of a response with byte count 0 are decoded there, with status `Ok` and 32768 zero words
as the result. -/
theorem register_target_wraps :
    neededRegs 32768 + 9 = 9 ∧
    (readHoldingRegisters (Socket.mk true [] [some [0, 7, 0, 0, 0, 3, 1, 3, 0]] []) 7 1 0 32768
        Status.Timeout).status = Status.Ok ∧
    (readHoldingRegisters (Socket.mk true [] [some [0, 7, 0, 0, 0, 3, 1, 3, 0]] []) 7 1 0 32768
        Status.Timeout).result = List.replicate 32768 0 :=
  ⟨by decide,
   readHoldingRegisters_wrapped [] [] [] 7 1 0 32768 Status.Timeout (by decide) (by decide)⟩

/-- C16: padding bits are ignored.  For every quantity `q` with `1 ≤ q ≤ 2000` that is not a
multiple of 8, the target length of `readCoils` and `readDiscreteInputs` is exactly
`9 + ceil(q/8)`, and two accumulated responses of that length with the same nine header bytes,
the same data bytes before the last one and last data bytes that agree on the bits
`0 .. q mod 8 - 1` (so that they differ at most in the padding bits `q mod 8 .. 7`) produce the
same status and the same returned list. -/
theorem padding_bits_ignored (sock1 sock2 : Socket) (r dev a q : Nat) (st1 st2 : Status)
    (hdr d1 d2 : Bytes) (hc1 : sock1.connected = true) (hc2 : sock2.connected = true)
    (_hq1 : 1 ≤ q) (hq : q ≤ 2000) (_hq8 : q % 8 ≠ 0) (hhdr : hdr.length = 9)
    (hd1 : d1.length = (q + 7) / 8) (hd2 : d2.length = (q + 7) / 8)
    (hsame : ∀ k, k < q / 8 → d1.getD k 0 = d2.getD k 0)
    (hlast : ∀ b, b < q % 8 → (d1.getD (q / 8) 0).testBit b = (d2.getD (q / 8) 0).testBit b)
    (h1 : (recvLoop (neededBits q + 9) sock1.incoming [] []).1 = hdr ++ d1)
    (h2 : (recvLoop (neededBits q + 9) sock2.incoming [] []).1 = hdr ++ d2) :
    neededBits q + 9 = 9 + (q + 7) / 8 ∧
    (readCoils sock1 r dev a q st1).result = (readCoils sock2 r dev a q st2).result ∧
    (readCoils sock1 r dev a q st1).status = (readCoils sock2 r dev a q st2).status ∧
    (readDiscreteInputs sock1 r dev a q st1).result =
      (readDiscreteInputs sock2 r dev a q st2).result ∧
    (readDiscreteInputs sock1 r dev a q st1).status =
      (readDiscreteInputs sock2 r dev a q st2).status := by
  have hneeded : neededBits q = (q + 7) / 8 := by unfold neededBits; split <;> omega
  obtain ⟨b0, b1, b2, b3, b4, b5, b6, b7, b8, rfl⟩ := nine_eq hdr hhdr
  have hagree := coilsLoop_agree q d1 d2 hsame hlast
  have hA1 := readCoils_full sock1 r dev a q st1 b0 b1 b2 b3 b4 b5 b6 b7 b8 d1 hc1 h1
    (by rw [hd1, hneeded])
  have hA2 := readCoils_full sock2 r dev a q st2 b0 b1 b2 b3 b4 b5 b6 b7 b8 d2 hc2 h2
    (by rw [hd2, hneeded])
  have hB1 := readDiscreteInputs_full sock1 r dev a q st1 b0 b1 b2 b3 b4 b5 b6 b7 b8 d1 hc1 h1
    (by rw [hd1, hneeded])
  have hB2 := readDiscreteInputs_full sock2 r dev a q st2 b0 b1 b2 b3 b4 b5 b6 b7 b8 d2 hc2 h2
    (by rw [hd2, hneeded])
  refine ⟨by rw [hneeded]; omega, ?_, ?_, ?_, ?_⟩
  · by_cases hcond : (b0 * 256 + b1 = r % 65536 ∧ b2 * 256 + b3 = 0 ∧
        b4 * 256 + b5 = neededBits q + 3 ∧ b6 = dev ∧ b7 = 0x01 ∧ b8 = neededBits q)
    · rw [(hA1.1 hcond).1, (hA2.1 hcond).1, hagree]
    · rw [(hA1.2 hcond).1, (hA2.2 hcond).1]
  · by_cases hcond : (b0 * 256 + b1 = r % 65536 ∧ b2 * 256 + b3 = 0 ∧
        b4 * 256 + b5 = neededBits q + 3 ∧ b6 = dev ∧ b7 = 0x01 ∧ b8 = neededBits q)
    · rw [(hA1.1 hcond).2, (hA2.1 hcond).2]
    · rw [(hA1.2 hcond).2, (hA2.2 hcond).2]
  · by_cases hcond : (b0 * 256 + b1 = r % 65536 ∧ b2 * 256 + b3 = 0 ∧
        b4 * 256 + b5 = neededBits q + 3 ∧ b6 = dev ∧ b7 = 0x02 ∧ b8 = neededBits q)
    · rw [(hB1.1 hcond).1, (hB2.1 hcond).1, hagree]
    · rw [(hB1.2 hcond).1, (hB2.2 hcond).1]
  · by_cases hcond : (b0 * 256 + b1 = r % 65536 ∧ b2 * 256 + b3 = 0 ∧
        b4 * 256 + b5 = neededBits q + 3 ∧ b6 = dev ∧ b7 = 0x02 ∧ b8 = neededBits q)
    · rw [(hB1.1 hcond).2, (hB2.1 hcond).2]
    · rw [(hB1.2 hcond).2, (hB2.2 hcond).2]

/-- Witness of C16: ten coils; the two responses differ in the padding bits of the second data
byte (0x03 against 0xFF) and are read as the same ten coils. -/
theorem padding_bits_ignored_witness :
    neededBits 10 + 9 = 9 + (10 + 7) / 8 ∧
    (readCoils (Socket.mk true [] [some [0, 7, 0, 0, 0, 5, 1, 1, 2, 0xA5, 0x03]] []) 7 1 0 10
        Status.Ok).result =
      (readCoils (Socket.mk true [] [some [0, 7, 0, 0, 0, 5, 1, 1, 2, 0xA5, 0xFF]] []) 7 1 0 10
        Status.Ok).result ∧
    (readCoils (Socket.mk true [] [some [0, 7, 0, 0, 0, 5, 1, 1, 2, 0xA5, 0x03]] []) 7 1 0 10
        Status.Ok).status =
      (readCoils (Socket.mk true [] [some [0, 7, 0, 0, 0, 5, 1, 1, 2, 0xA5, 0xFF]] []) 7 1 0 10
        Status.Ok).status ∧
    (readDiscreteInputs (Socket.mk true [] [some [0, 7, 0, 0, 0, 5, 1, 1, 2, 0xA5, 0x03]] [])
        7 1 0 10 Status.Ok).result =
      (readDiscreteInputs (Socket.mk true [] [some [0, 7, 0, 0, 0, 5, 1, 1, 2, 0xA5, 0xFF]] [])
        7 1 0 10 Status.Ok).result ∧
    (readDiscreteInputs (Socket.mk true [] [some [0, 7, 0, 0, 0, 5, 1, 1, 2, 0xA5, 0x03]] [])
        7 1 0 10 Status.Ok).status =
      (readDiscreteInputs (Socket.mk true [] [some [0, 7, 0, 0, 0, 5, 1, 1, 2, 0xA5, 0xFF]] [])
        7 1 0 10 Status.Ok).status :=
  padding_bits_ignored (Socket.mk true [] [some [0, 7, 0, 0, 0, 5, 1, 1, 2, 0xA5, 0x03]] [])
    (Socket.mk true [] [some [0, 7, 0, 0, 0, 5, 1, 1, 2, 0xA5, 0xFF]] []) 7 1 0 10 Status.Ok
    Status.Ok [0, 7, 0, 0, 0, 5, 1, 1, 2] [0xA5, 0x03] [0xA5, 0xFF] rfl rfl (by decide)
    (by decide) (by decide) (by decide) (by decide) (by decide)
    (by intro k hk; interval_cases k; rfl)
    (by intro b hb; interval_cases b <;> rfl)
    (by decide) (by decide)

/-- C17: header validation of read responses is exact.  For `readCoils`, `readDiscreteInputs`
(data byte count `B = ceil(q/8)`), `readHoldingRegisters`, `readInputRegisters` and
`writeReadMultipleRegisters` (`B = 2q`) with `1 ≤ B ≤ 255`: on an accumulated response of
exactly `9 + B` bytes the status is `Ok` if and only if the first nine bytes are the transaction
id of the request, protocol id 0, length `B + 3`, the device address of the request, the
function code and the byte count `B`; in every other case the status is `UnknownError` and the
result is the empty list. -/
theorem read_header_exact (sock : Socket) (r dev a qb qr ra : Nat) (regs : List Nat)
    (st : Status) (hc : sock.connected = true) (hdev : dev < 256)
    (hqb1 : 1 ≤ qb) (hqb : qb ≤ 2040) (hqr1 : 1 ≤ qr) (hqr : qr ≤ 127) :
    (∀ resp : Bytes, (recvLoop ((qb + 7) / 8 + 9) sock.incoming [] []).1 = resp →
      resp.length = (qb + 7) / 8 + 9 → (∀ b ∈ resp, b < 256) →
      ((readCoils sock r dev a qb st).status = Status.Ok ↔
        resp.take 9 = putU16 (r % 65536) ++ putU16 0 ++ putU16 ((qb + 7) / 8 + 3) ++ putU8 dev ++
          putU8 0x01 ++ putU8 ((qb + 7) / 8)) ∧
      (resp.take 9 ≠ putU16 (r % 65536) ++ putU16 0 ++ putU16 ((qb + 7) / 8 + 3) ++ putU8 dev ++
          putU8 0x01 ++ putU8 ((qb + 7) / 8) →
        (readCoils sock r dev a qb st).status = Status.UnknownError ∧
        (readCoils sock r dev a qb st).result = [])) ∧
    (∀ resp : Bytes, (recvLoop ((qb + 7) / 8 + 9) sock.incoming [] []).1 = resp →
      resp.length = (qb + 7) / 8 + 9 → (∀ b ∈ resp, b < 256) →
      ((readDiscreteInputs sock r dev a qb st).status = Status.Ok ↔
        resp.take 9 = putU16 (r % 65536) ++ putU16 0 ++ putU16 ((qb + 7) / 8 + 3) ++ putU8 dev ++
          putU8 0x02 ++ putU8 ((qb + 7) / 8)) ∧
      (resp.take 9 ≠ putU16 (r % 65536) ++ putU16 0 ++ putU16 ((qb + 7) / 8 + 3) ++ putU8 dev ++
          putU8 0x02 ++ putU8 ((qb + 7) / 8) →
        (readDiscreteInputs sock r dev a qb st).status = Status.UnknownError ∧
        (readDiscreteInputs sock r dev a qb st).result = [])) ∧
    (∀ resp : Bytes, (recvLoop (2 * qr + 9) sock.incoming [] []).1 = resp →
      resp.length = 2 * qr + 9 → (∀ b ∈ resp, b < 256) →
      ((readHoldingRegisters sock r dev a qr st).status = Status.Ok ↔
        resp.take 9 = putU16 (r % 65536) ++ putU16 0 ++ putU16 (2 * qr + 3) ++ putU8 dev ++
          putU8 0x03 ++ putU8 (2 * qr)) ∧
      (resp.take 9 ≠ putU16 (r % 65536) ++ putU16 0 ++ putU16 (2 * qr + 3) ++ putU8 dev ++
          putU8 0x03 ++ putU8 (2 * qr) →
        (readHoldingRegisters sock r dev a qr st).status = Status.UnknownError ∧
        (readHoldingRegisters sock r dev a qr st).result = [])) ∧
    (∀ resp : Bytes, (recvLoop (2 * qr + 9) sock.incoming [] []).1 = resp →
      resp.length = 2 * qr + 9 → (∀ b ∈ resp, b < 256) →
      ((readInputRegisters sock r dev a qr st).status = Status.Ok ↔
        resp.take 9 = putU16 (r % 65536) ++ putU16 0 ++ putU16 (2 * qr + 3) ++ putU8 dev ++
          putU8 0x04 ++ putU8 (2 * qr)) ∧
      (resp.take 9 ≠ putU16 (r % 65536) ++ putU16 0 ++ putU16 (2 * qr + 3) ++ putU8 dev ++
          putU8 0x04 ++ putU8 (2 * qr) →
        (readInputRegisters sock r dev a qr st).status = Status.UnknownError ∧
        (readInputRegisters sock r dev a qr st).result = [])) ∧
    (∀ resp : Bytes, (recvLoop (2 * qr + 9) sock.incoming [] []).1 = resp →
      resp.length = 2 * qr + 9 → (∀ b ∈ resp, b < 256) →
      ((writeReadMultipleRegisters sock r dev a regs ra qr st).status = Status.Ok ↔
        resp.take 9 = putU16 (r % 65536) ++ putU16 0 ++ putU16 (2 * qr + 3) ++ putU8 dev ++
          putU8 0x17 ++ putU8 (2 * qr)) ∧
      (resp.take 9 ≠ putU16 (r % 65536) ++ putU16 0 ++ putU16 (2 * qr + 3) ++ putU8 dev ++
          putU8 0x17 ++ putU8 (2 * qr) →
        (writeReadMultipleRegisters sock r dev a regs ra qr st).status = Status.UnknownError ∧
        (writeReadMultipleRegisters sock r dev a regs ra qr st).result = [])) := by
  have hnb : neededBits qb = (qb + 7) / 8 := by unfold neededBits; split <;> omega
  have hnr : neededRegs qr = 2 * qr := by unfold neededRegs; omega
  refine ⟨?_, ?_, ?_, ?_, ?_⟩
  · intro resp h1 h2 h3
    have h := readCoils_header_iff sock r dev a qb st resp hc hdev (by rw [hnb]; omega)
      (by rw [hnb]; exact h1) (by rw [hnb]; exact h2) h3
    rw [hnb] at h
    exact h
  · intro resp h1 h2 h3
    have h := readDiscreteInputs_header_iff sock r dev a qb st resp hc hdev (by rw [hnb]; omega)
      (by rw [hnb]; exact h1) (by rw [hnb]; exact h2) h3
    rw [hnb] at h
    exact h
  · intro resp h1 h2 h3
    have h := readHoldingRegisters_header_iff sock r dev a qr st resp hc hdev (by rw [hnr]; omega)
      (by rw [hnr]; exact h1) (by rw [hnr]; exact h2) h3
    rw [hnr] at h
    exact h
  · intro resp h1 h2 h3
    have h := readInputRegisters_header_iff sock r dev a qr st resp hc hdev (by rw [hnr]; omega)
      (by rw [hnr]; exact h1) (by rw [hnr]; exact h2) h3
    rw [hnr] at h
    exact h
  · intro resp h1 h2 h3
    have h := writeReadMultipleRegisters_header_iff sock r dev a regs ra qr st resp hc hdev (by rw [hnr]; omega)
      (by rw [hnr]; exact h1) (by rw [hnr]; exact h2) h3
    rw [hnr] at h
    exact h

/-- Witness of C17: eleven bytes are accumulated; they are the answer to a read of one holding
register (`B = 2`), accepted with `Ok`, and as the answer to a read of sixteen coils (`B = 2`)
they carry the wrong function code and give `UnknownError`. -/
theorem read_header_exact_witness :
    (readHoldingRegisters (Socket.mk true [] [some [0, 7, 0, 0, 0, 5, 1, 3, 2, 0, 10]] [])
        7 1 0 1 Status.Timeout).status = Status.Ok ∧
    ((readCoils (Socket.mk true [] [some [0, 7, 0, 0, 0, 5, 1, 3, 2, 0, 10]] [])
        7 1 0 16 Status.Timeout).status = Status.UnknownError ∧
      (readCoils (Socket.mk true [] [some [0, 7, 0, 0, 0, 5, 1, 3, 2, 0, 10]] [])
        7 1 0 16 Status.Timeout).result = []) :=
  ⟨((read_header_exact (Socket.mk true [] [some [0, 7, 0, 0, 0, 5, 1, 3, 2, 0, 10]] [])
      7 1 0 16 1 0 [] Status.Timeout rfl (by decide) (by decide) (by decide) (by decide)
      (by decide)).2.2.1 [0, 7, 0, 0, 0, 5, 1, 3, 2, 0, 10] (by decide) (by decide)
      (by decide)).1.mpr (by decide),
   ((read_header_exact (Socket.mk true [] [some [0, 7, 0, 0, 0, 5, 1, 3, 2, 0, 10]] [])
      7 1 0 16 1 0 [] Status.Timeout rfl (by decide) (by decide) (by decide) (by decide)
      (by decide)).1 [0, 7, 0, 0, 0, 5, 1, 3, 2, 0, 10] (by decide) (by decide)
      (by decide)).2 (by decide)⟩

/-- C18: the echo operations accept exactly the echo of the request.  For `writeSingleCoil`,
`writeSingleRegister` (target 12 bytes) and `maskWriteRegister` (target 14 bytes), for all
arguments and transaction ids: on an accumulated response of exactly the target length the
operation returns true with status `Ok` if and only if the response is byte for byte the
request it wrote; otherwise it returns false with status `UnknownError`. -/
theorem echo_exact (sock : Socket) (r dev a x am om : Nat) (v : Bool) (st : Status)
    (hc : sock.connected = true) (hdev : dev < 256) (ha : a < 65536) (hx : x < 65536)
    (ham : am < 65536) (hom : om < 65536) :
    ((writeSingleCoil sock r dev a v st).socket.written = sock.written ++
        [putU16 (r % 65536) ++ putU16 0 ++ putU16 6 ++ putU8 dev ++ putU8 0x05 ++ putU16 a ++
          putU16 (if v then 0xFF00 else 0x0000)] ∧
      ∀ resp : Bytes, (recvLoop 12 sock.incoming [] []).1 = resp → resp.length = 12 →
        (∀ b ∈ resp, b < 256) →
        (((writeSingleCoil sock r dev a v st).result = true ∧
            (writeSingleCoil sock r dev a v st).status = Status.Ok) ↔
          resp = putU16 (r % 65536) ++ putU16 0 ++ putU16 6 ++ putU8 dev ++ putU8 0x05 ++
            putU16 a ++ putU16 (if v then 0xFF00 else 0x0000)) ∧
        (resp ≠ putU16 (r % 65536) ++ putU16 0 ++ putU16 6 ++ putU8 dev ++ putU8 0x05 ++
            putU16 a ++ putU16 (if v then 0xFF00 else 0x0000) →
          (writeSingleCoil sock r dev a v st).result = false ∧
          (writeSingleCoil sock r dev a v st).status = Status.UnknownError)) ∧
    ((writeSingleRegister sock r dev a x st).socket.written = sock.written ++
        [putU16 (r % 65536) ++ putU16 0 ++ putU16 6 ++ putU8 dev ++ putU8 0x06 ++ putU16 a ++
          putU16 x] ∧
      ∀ resp : Bytes, (recvLoop 12 sock.incoming [] []).1 = resp → resp.length = 12 →
        (∀ b ∈ resp, b < 256) →
        (((writeSingleRegister sock r dev a x st).result = true ∧
            (writeSingleRegister sock r dev a x st).status = Status.Ok) ↔
          resp = putU16 (r % 65536) ++ putU16 0 ++ putU16 6 ++ putU8 dev ++ putU8 0x06 ++
            putU16 a ++ putU16 x) ∧
        (resp ≠ putU16 (r % 65536) ++ putU16 0 ++ putU16 6 ++ putU8 dev ++ putU8 0x06 ++
            putU16 a ++ putU16 x →
          (writeSingleRegister sock r dev a x st).result = false ∧
          (writeSingleRegister sock r dev a x st).status = Status.UnknownError)) ∧
    ((maskWriteRegister sock r dev a am om st).socket.written = sock.written ++
        [putU16 (r % 65536) ++ putU16 0 ++ putU16 8 ++ putU8 dev ++ putU8 0x16 ++ putU16 a ++
          putU16 am ++ putU16 om] ∧
      ∀ resp : Bytes, (recvLoop 14 sock.incoming [] []).1 = resp → resp.length = 14 →
        (∀ b ∈ resp, b < 256) →
        (((maskWriteRegister sock r dev a am om st).result = true ∧
            (maskWriteRegister sock r dev a am om st).status = Status.Ok) ↔
          resp = putU16 (r % 65536) ++ putU16 0 ++ putU16 8 ++ putU8 dev ++ putU8 0x16 ++
            putU16 a ++ putU16 am ++ putU16 om) ∧
        (resp ≠ putU16 (r % 65536) ++ putU16 0 ++ putU16 8 ++ putU8 dev ++ putU8 0x16 ++
            putU16 a ++ putU16 am ++ putU16 om →
          (maskWriteRegister sock r dev a am om st).result = false ∧
          (maskWriteRegister sock r dev a am om st).status = Status.UnknownError)) :=
  ⟨⟨writeSingleCoil_written sock r dev a v st hc,
     fun resp h1 h2 h3 => writeSingleCoil_echo_iff sock r dev a v st resp hc hdev ha h1 h2 h3⟩,
   ⟨writeSingleRegister_written sock r dev a x st hc,
     fun resp h1 h2 h3 =>
       writeSingleRegister_echo_iff sock r dev a x st resp hc hdev ha hx h1 h2 h3⟩,
   ⟨maskWriteRegister_written sock r dev a am om st hc,
     fun resp h1 h2 h3 =>
       maskWriteRegister_echo_iff sock r dev a am om st resp hc hdev ha ham hom h1 h2 h3⟩⟩

/-- Witness of C18: `writeSingleRegister` receives the echo of its request and returns true with
`Ok`; `maskWriteRegister` receives fourteen bytes whose or-mask differs from the one sent and
returns false with `UnknownError`. -/
theorem echo_exact_witness :
    ((writeSingleRegister (Socket.mk true [] [some [0, 7, 0, 0, 0, 6, 1, 6, 0, 2, 0x12, 0x34]] [])
        7 1 2 0x1234 Status.Timeout).result = true ∧
      (writeSingleRegister (Socket.mk true [] [some [0, 7, 0, 0, 0, 6, 1, 6, 0, 2, 0x12, 0x34]] [])
        7 1 2 0x1234 Status.Timeout).status = Status.Ok) ∧
    ((maskWriteRegister
        (Socket.mk true [] [some [0, 7, 0, 0, 0, 8, 1, 0x16, 0, 2, 0, 0xF2, 0, 0x26]] [])
        7 1 2 0xF2 0x25 Status.Timeout).result = false ∧
      (maskWriteRegister
        (Socket.mk true [] [some [0, 7, 0, 0, 0, 8, 1, 0x16, 0, 2, 0, 0xF2, 0, 0x26]] [])
        7 1 2 0xF2 0x25 Status.Timeout).status = Status.UnknownError) :=
  ⟨((echo_exact (Socket.mk true [] [some [0, 7, 0, 0, 0, 6, 1, 6, 0, 2, 0x12, 0x34]] [])
      7 1 2 0x1234 0xF2 0x25 true Status.Timeout rfl (by decide) (by decide) (by decide)
      (by decide) (by decide)).2.1.2 [0, 7, 0, 0, 0, 6, 1, 6, 0, 2, 0x12, 0x34] (by decide)
      (by decide) (by decide)).1.mpr (by decide),
   ((echo_exact
      (Socket.mk true [] [some [0, 7, 0, 0, 0, 8, 1, 0x16, 0, 2, 0, 0xF2, 0, 0x26]] [])
      7 1 2 0x1234 0xF2 0x25 true Status.Timeout rfl (by decide) (by decide) (by decide)
      (by decide) (by decide)).2.2.2 [0, 7, 0, 0, 0, 8, 1, 0x16, 0, 2, 0, 0xF2, 0, 0x26]
      (by decide) (by decide) (by decide)).2 (by decide)⟩

/-- C19: custom function pass-through.  For every device address, function code `f < 0x80` and
payload `data` of at most 65533 bytes, `executeCustomFunction` writes exactly transaction id, 0,
`data.size + 2`, device, `f` followed by `data` unchanged; and when the single burst received is
the transaction id of the request, protocol 0, length `L`, the same device, `f` and a payload
`p` with `L = 2 + |p|` and `|p| ≥ 1`, the operation returns exactly `p`, the bytes from
offset 8 to the end. -/
theorem customFunction_passthrough (stale : Bytes) (wr : List Bytes)
    (rest : List (Option Bytes)) (r dev f : Nat) (data p : Bytes) (st : Status)
    (hdev : dev < 256) (hf : f < 0x80) (hdata : data.length ≤ 65533) (hp1 : 1 ≤ p.length)
    (hpL : 2 + p.length < 65536) :
    (executeCustomFunction (Socket.mk true stale
        (some (putU16 (r % 65536) ++ putU16 0 ++ putU16 (2 + p.length) ++ putU8 dev ++
          putU8 f ++ p) :: rest) wr) r dev f data st).socket.written = wr ++
      [[r % 65536 / 256, r % 65536 % 256, 0, 0, (data.length + 2) / 256,
        (data.length + 2) % 256, dev, f] ++ data] ∧
    (executeCustomFunction (Socket.mk true stale
        (some (putU16 (r % 65536) ++ putU16 0 ++ putU16 (2 + p.length) ++ putU8 dev ++
          putU8 f ++ p) :: rest) wr) r dev f data st).result = p ∧
    (putU16 (r % 65536) ++ putU16 0 ++ putU16 (2 + p.length) ++ putU8 dev ++
      putU8 f ++ p).drop 8 = p := by
  have hf256 : f % 256 = f := by omega
  have hd256 : dev % 256 = dev := by omega
  have hhigh : highBit f = false := highBit_small f hf
  refine ⟨?_, ?_, ?_⟩
  · rw [executeCustomFunction_written _ r dev f data st rfl]
    have e : (data.length + 2) % 65536 = data.length + 2 := by omega
    rw [e, putU16_of_lt (r % 65536) (Nat.mod_lt _ (by decide)),
      putU16_of_lt (data.length + 2) (by omega), putU8_of_lt dev hdev,
      putU8_of_lt f (by omega)]
    rfl
  · have e1 : r % 65536 / 256 % 256 * 256 + r % 65536 % 256 = r % 65536 := by omega
    have e2 : (2 + p.length) / 256 % 256 * 256 + (2 + p.length) % 256 = 2 + p.length := by omega
    unfold executeCustomFunction
    simp only [Socket.waitForReadyRead, Socket.readAll, Socket.write, Bool.not_true,
      Bool.false_eq_true, if_false, List.nil_append, putU16, putU8, List.cons_append,
      List.length_cons, getU16_cons, getU8_cons, List.getD_cons_succ, List.getD_cons_zero,
      hf256, hd256, hhigh, e1, e2]
    rw [if_pos ⟨by omega, trivial⟩, if_pos ⟨trivial, trivial, trivial, trivial, by omega⟩]
    show List.drop _ _ = p
    have hsub : p.length + 1 + 1 + 1 + 1 + 1 + 1 + 1 + 1 -
        (p.length + 1 + 1 + 1 + 1 + 1 + 1 + 1 + 1 - 8) = 8 := by omega
    rw [hsub]
    rfl
  · simp [putU16, putU8]

/-- Witness of C19: function code 0x41 with the payload 5 sent and the payload 9, 8 received. -/
theorem customFunction_passthrough_witness :
    (executeCustomFunction (Socket.mk true []
        (some (putU16 (7 % 65536) ++ putU16 0 ++ putU16 (2 + ([9, 8] : Bytes).length) ++
          putU8 1 ++ putU8 0x41 ++ [9, 8]) :: []) []) 7 1 0x41 [5] Status.Ok).socket.written =
      [] ++ [[7 % 65536 / 256, 7 % 65536 % 256, 0, 0, (([5] : Bytes).length + 2) / 256,
        (([5] : Bytes).length + 2) % 256, 1, 0x41] ++ [5]] ∧
    (executeCustomFunction (Socket.mk true []
        (some (putU16 (7 % 65536) ++ putU16 0 ++ putU16 (2 + ([9, 8] : Bytes).length) ++
          putU8 1 ++ putU8 0x41 ++ [9, 8]) :: []) []) 7 1 0x41 [5] Status.Ok).result = [9, 8] ∧
    (putU16 (7 % 65536) ++ putU16 0 ++ putU16 (2 + ([9, 8] : Bytes).length) ++ putU8 1 ++
      putU8 0x41 ++ [9, 8]).drop 8 = [9, 8] :=
  customFunction_passthrough [] [] [] 7 1 0x41 [5] [9, 8] Status.Ok (by decide) (by decide)
    (by decide) (by decide) (by decide)

/-- C20: raw pass-through.  For every byte string `data`, on a connected socket `executeRaw`
writes exactly `data`; when the first wait reports data it returns exactly the bytes `c` then
available on the connection, whatever they are (the stale input is gone and nothing is
inspected), and leaves the status variable as it was; when the first wait times out it returns
the empty byte array with status `Timeout`. -/
theorem raw_passthrough (stale : Bytes) (wr : List Bytes) (rest : List (Option Bytes))
    (data c : Bytes) (st : Status) :
    executeRaw (Socket.mk true stale (some c :: rest) wr) data st =
      ⟨c, st, Socket.mk true [] rest (wr ++ [data])⟩ ∧
    executeRaw (Socket.mk true stale (none :: rest) wr) data st =
      ⟨[], Status.Timeout, Socket.mk true [] rest (wr ++ [data])⟩ ∧
    executeRaw (Socket.mk true stale [] wr) data st =
      ⟨[], Status.Timeout, Socket.mk true [] [] (wr ++ [data])⟩ :=
  ⟨rfl, rfl, rfl⟩

/-- C21: stale input is discarded.  For every operation, two runs with the same arguments, the
same transaction id and the same script of arriving bytes, which differ only in the bytes
`stale1`, `stale2` that were buffered and unread on the connection before the call, return the
same result and the same status and leave the same log of written requests. -/
theorem stale_input_discarded (c : Bool) (stale1 stale2 : Bytes) (inc : List (Option Bytes))
    (wr : List Bytes) (st : Status) (r dev a q x am om ra rq f : Nat) (v : Bool)
    (coils : List Bool) (regs : List Nat) (data : Bytes) :
    ((readCoils (Socket.mk c stale1 inc wr) r dev a q st).result =
        (readCoils (Socket.mk c stale2 inc wr) r dev a q st).result ∧
      (readCoils (Socket.mk c stale1 inc wr) r dev a q st).status =
        (readCoils (Socket.mk c stale2 inc wr) r dev a q st).status ∧
      (readCoils (Socket.mk c stale1 inc wr) r dev a q st).socket.written =
        (readCoils (Socket.mk c stale2 inc wr) r dev a q st).socket.written) ∧
    ((readDiscreteInputs (Socket.mk c stale1 inc wr) r dev a q st).result =
        (readDiscreteInputs (Socket.mk c stale2 inc wr) r dev a q st).result ∧
      (readDiscreteInputs (Socket.mk c stale1 inc wr) r dev a q st).status =
        (readDiscreteInputs (Socket.mk c stale2 inc wr) r dev a q st).status ∧
      (readDiscreteInputs (Socket.mk c stale1 inc wr) r dev a q st).socket.written =
        (readDiscreteInputs (Socket.mk c stale2 inc wr) r dev a q st).socket.written) ∧
    ((readHoldingRegisters (Socket.mk c stale1 inc wr) r dev a q st).result =
        (readHoldingRegisters (Socket.mk c stale2 inc wr) r dev a q st).result ∧
      (readHoldingRegisters (Socket.mk c stale1 inc wr) r dev a q st).status =
        (readHoldingRegisters (Socket.mk c stale2 inc wr) r dev a q st).status ∧
      (readHoldingRegisters (Socket.mk c stale1 inc wr) r dev a q st).socket.written =
        (readHoldingRegisters (Socket.mk c stale2 inc wr) r dev a q st).socket.written) ∧
    ((readInputRegisters (Socket.mk c stale1 inc wr) r dev a q st).result =
        (readInputRegisters (Socket.mk c stale2 inc wr) r dev a q st).result ∧
      (readInputRegisters (Socket.mk c stale1 inc wr) r dev a q st).status =
        (readInputRegisters (Socket.mk c stale2 inc wr) r dev a q st).status ∧
      (readInputRegisters (Socket.mk c stale1 inc wr) r dev a q st).socket.written =
        (readInputRegisters (Socket.mk c stale2 inc wr) r dev a q st).socket.written) ∧
    ((writeSingleCoil (Socket.mk c stale1 inc wr) r dev a v st).result =
        (writeSingleCoil (Socket.mk c stale2 inc wr) r dev a v st).result ∧
      (writeSingleCoil (Socket.mk c stale1 inc wr) r dev a v st).status =
        (writeSingleCoil (Socket.mk c stale2 inc wr) r dev a v st).status ∧
      (writeSingleCoil (Socket.mk c stale1 inc wr) r dev a v st).socket.written =
        (writeSingleCoil (Socket.mk c stale2 inc wr) r dev a v st).socket.written) ∧
    ((writeSingleRegister (Socket.mk c stale1 inc wr) r dev a x st).result =
        (writeSingleRegister (Socket.mk c stale2 inc wr) r dev a x st).result ∧
      (writeSingleRegister (Socket.mk c stale1 inc wr) r dev a x st).status =
        (writeSingleRegister (Socket.mk c stale2 inc wr) r dev a x st).status ∧
      (writeSingleRegister (Socket.mk c stale1 inc wr) r dev a x st).socket.written =
        (writeSingleRegister (Socket.mk c stale2 inc wr) r dev a x st).socket.written) ∧
    ((writeMultipleCoils (Socket.mk c stale1 inc wr) r dev a coils st).result =
        (writeMultipleCoils (Socket.mk c stale2 inc wr) r dev a coils st).result ∧
      (writeMultipleCoils (Socket.mk c stale1 inc wr) r dev a coils st).status =
        (writeMultipleCoils (Socket.mk c stale2 inc wr) r dev a coils st).status ∧
      (writeMultipleCoils (Socket.mk c stale1 inc wr) r dev a coils st).socket.written =
        (writeMultipleCoils (Socket.mk c stale2 inc wr) r dev a coils st).socket.written) ∧
    ((writeMultipleRegisters (Socket.mk c stale1 inc wr) r dev a regs st).result =
        (writeMultipleRegisters (Socket.mk c stale2 inc wr) r dev a regs st).result ∧
      (writeMultipleRegisters (Socket.mk c stale1 inc wr) r dev a regs st).status =
        (writeMultipleRegisters (Socket.mk c stale2 inc wr) r dev a regs st).status ∧
      (writeMultipleRegisters (Socket.mk c stale1 inc wr) r dev a regs st).socket.written =
        (writeMultipleRegisters (Socket.mk c stale2 inc wr) r dev a regs st).socket.written) ∧
    ((maskWriteRegister (Socket.mk c stale1 inc wr) r dev a am om st).result =
        (maskWriteRegister (Socket.mk c stale2 inc wr) r dev a am om st).result ∧
      (maskWriteRegister (Socket.mk c stale1 inc wr) r dev a am om st).status =
        (maskWriteRegister (Socket.mk c stale2 inc wr) r dev a am om st).status ∧
      (maskWriteRegister (Socket.mk c stale1 inc wr) r dev a am om st).socket.written =
        (maskWriteRegister (Socket.mk c stale2 inc wr) r dev a am om st).socket.written) ∧
    ((writeReadMultipleRegisters (Socket.mk c stale1 inc wr) r dev a regs ra rq st).result =
        (writeReadMultipleRegisters (Socket.mk c stale2 inc wr) r dev a regs ra rq st).result ∧
      (writeReadMultipleRegisters (Socket.mk c stale1 inc wr) r dev a regs ra rq st).status =
        (writeReadMultipleRegisters (Socket.mk c stale2 inc wr) r dev a regs ra rq st).status ∧
      (writeReadMultipleRegisters (Socket.mk c stale1 inc wr) r dev a regs ra rq st).socket.written =
        (writeReadMultipleRegisters (Socket.mk c stale2 inc wr) r dev a regs ra rq st).socket.written) ∧
    ((readFifoQueue (Socket.mk c stale1 inc wr) r dev a st).result =
        (readFifoQueue (Socket.mk c stale2 inc wr) r dev a st).result ∧
      (readFifoQueue (Socket.mk c stale1 inc wr) r dev a st).status =
        (readFifoQueue (Socket.mk c stale2 inc wr) r dev a st).status ∧
      (readFifoQueue (Socket.mk c stale1 inc wr) r dev a st).socket.written =
        (readFifoQueue (Socket.mk c stale2 inc wr) r dev a st).socket.written) ∧
    ((executeCustomFunction (Socket.mk c stale1 inc wr) r dev f data st).result =
        (executeCustomFunction (Socket.mk c stale2 inc wr) r dev f data st).result ∧
      (executeCustomFunction (Socket.mk c stale1 inc wr) r dev f data st).status =
        (executeCustomFunction (Socket.mk c stale2 inc wr) r dev f data st).status ∧
      (executeCustomFunction (Socket.mk c stale1 inc wr) r dev f data st).socket.written =
        (executeCustomFunction (Socket.mk c stale2 inc wr) r dev f data st).socket.written) ∧
    ((executeRaw (Socket.mk c stale1 inc wr) data st).result =
        (executeRaw (Socket.mk c stale2 inc wr) data st).result ∧
      (executeRaw (Socket.mk c stale1 inc wr) data st).status =
        (executeRaw (Socket.mk c stale2 inc wr) data st).status ∧
      (executeRaw (Socket.mk c stale1 inc wr) data st).socket.written =
        (executeRaw (Socket.mk c stale2 inc wr) data st).socket.written) := by
  cases c
  · exact ⟨⟨rfl, rfl, rfl⟩, ⟨rfl, rfl, rfl⟩, ⟨rfl, rfl, rfl⟩, ⟨rfl, rfl, rfl⟩, ⟨rfl, rfl, rfl⟩,
      ⟨rfl, rfl, rfl⟩, ⟨rfl, rfl, rfl⟩, ⟨rfl, rfl, rfl⟩, ⟨rfl, rfl, rfl⟩, ⟨rfl, rfl, rfl⟩,
      ⟨rfl, rfl, rfl⟩, ⟨rfl, rfl, rfl⟩, ⟨rfl, rfl, rfl⟩⟩
  · exact ⟨⟨rfl, rfl, rfl⟩, ⟨rfl, rfl, rfl⟩, ⟨rfl, rfl, rfl⟩, ⟨rfl, rfl, rfl⟩, ⟨rfl, rfl, rfl⟩,
      ⟨rfl, rfl, rfl⟩, ⟨rfl, rfl, rfl⟩, ⟨rfl, rfl, rfl⟩, ⟨rfl, rfl, rfl⟩, ⟨rfl, rfl, rfl⟩,
      ⟨rfl, rfl, rfl⟩, ⟨rfl, rfl, rfl⟩, ⟨rfl, rfl, rfl⟩⟩

/-- C22, the code at the failing input: `writeSingleCoil` at address 0x0203 (target 12) receives
the first nine bytes of a normal response, function code 0x05 without the high bit, and the next
wait times out; the status is the byte at offset 8 (here 2, the high byte of the echoed
address, which reads as the exception code of an illegal data address), not `Timeout`.  Likewise
`readHoldingRegisters` for four registers (target 17) reports the byte count 8 of the truncated
response as the status. -/
theorem truncated_nine_bytes_echoed :
    (writeSingleCoil (Socket.mk true [] [some [0, 7, 0, 0, 0, 6, 1, 5, 2], none] []) 7 1 515 true
        Status.Ok).status = Status.Code 2 ∧
    (writeSingleCoil (Socket.mk true [] [some [0, 7, 0, 0, 0, 6, 1, 5, 2], none] []) 7 1 515 true
        Status.Ok).result = false ∧
    (readHoldingRegisters (Socket.mk true [] [some [0, 7, 0, 0, 0, 11, 1, 3, 8], none] [])
        7 1 0 4 Status.Ok).status = Status.Code 8 ∧
    (readHoldingRegisters (Socket.mk true [] [some [0, 7, 0, 0, 0, 11, 1, 3, 8], none] [])
        7 1 0 4 Status.Ok).result = [] ∧
    highBit 5 = false ∧ highBit 3 = false := by
  decide

/-- C23: result size on success, stated for the runs that accept a response.  For every quantity
`q`, whatever its size, and every response stream: whenever `readCoils`, `readDiscreteInputs`,
`readHoldingRegisters`, `readInputRegisters` or `writeReadMultipleRegisters` accumulates a
response of exactly the target length and ends with the status `Ok`, which on that branch is
assigned only after the header fields compared equal, the returned list has exactly `q`
elements (`quantityToRead` for 0x17); and whenever `readFifoQueue` reads a burst of at least 12
bytes without the high bit at offset 7 and ends with `Ok`, the returned list has as many
elements as the FIFO count field (offsets 10 and 11) of the burst. -/
theorem accepted_result_size (sock : Socket) (r : Nat) (st : Status) (dev a q ra : Nat)
    (regs : List Nat) (c : Bytes) (rest : List (Option Bytes)) :
    ((recvLoop (neededBits q + 9) sock.incoming [] []).1.length = neededBits q + 9 →
      (readCoils sock r dev a q st).status = Status.Ok →
      (readCoils sock r dev a q st).result.length = q) ∧
    ((recvLoop (neededBits q + 9) sock.incoming [] []).1.length = neededBits q + 9 →
      (readDiscreteInputs sock r dev a q st).status = Status.Ok →
      (readDiscreteInputs sock r dev a q st).result.length = q) ∧
    ((recvLoop (neededRegs q + 9) sock.incoming [] []).1.length = neededRegs q + 9 →
      (readHoldingRegisters sock r dev a q st).status = Status.Ok →
      (readHoldingRegisters sock r dev a q st).result.length = q) ∧
    ((recvLoop (neededRegs q + 9) sock.incoming [] []).1.length = neededRegs q + 9 →
      (readInputRegisters sock r dev a q st).status = Status.Ok →
      (readInputRegisters sock r dev a q st).result.length = q) ∧
    ((recvLoop (neededRegs q + 9) sock.incoming [] []).1.length = neededRegs q + 9 →
      (writeReadMultipleRegisters sock r dev a regs ra q st).status = Status.Ok →
      (writeReadMultipleRegisters sock r dev a regs ra q st).result.length = q) ∧
    (sock.incoming = some c :: rest → 12 ≤ c.length → highBit (c.getD 7 0) = false →
      (readFifoQueue sock r dev a st).status = Status.Ok →
      (readFifoQueue sock r dev a st).result.length = c.getD 10 0 * 256 + c.getD 11 0) :=
  ⟨readCoils_ok_length sock r dev a q st,
   readDiscreteInputs_ok_length sock r dev a q st,
   readHoldingRegisters_ok_length sock r dev a q st,
   readInputRegisters_ok_length sock r dev a q st,
   writeReadMultipleRegisters_ok_length sock r dev a regs ra q st,
   fun hin hsize hbit h =>
     (readFifoQueue_ok sock r dev a st c rest hin hsize hbit h).2.2.2⟩

/-- Witness of C23: a read of ten coils and a read of two holding registers that accept their
response, and a FIFO read that accepts a burst with FIFO count 4. -/
theorem accepted_result_size_witness :
    (readCoils (Socket.mk true [] [some [0, 7, 0, 0, 0, 5, 1, 1, 2, 0xA5, 0x03]] []) 7 1 0 10
        Status.Timeout).result.length = 10 ∧
    (readHoldingRegisters (Socket.mk true [] [some [0, 7, 0, 0, 0, 7, 1, 3, 4, 0, 10, 0, 20]] [])
        7 1 0 2 Status.Timeout).result.length = 2 ∧
    (readFifoQueue (Socket.mk true [] [some [0, 7, 0, 0, 0, 6, 1, 0x18, 0, 8, 0, 4]] []) 7 1 0
        Status.Timeout).result.length = 4 :=
  ⟨(accepted_result_size (Socket.mk true [] [some [0, 7, 0, 0, 0, 5, 1, 1, 2, 0xA5, 0x03]] [])
      7 Status.Timeout 1 0 10 0 [] [] []).1 (by decide) (by decide),
   (accepted_result_size (Socket.mk true [] [some [0, 7, 0, 0, 0, 7, 1, 3, 4, 0, 10, 0, 20]] [])
      7 Status.Timeout 1 0 2 0 [] [] []).2.2.1 (by decide) (by decide),
   (accepted_result_size (Socket.mk true [] [some [0, 7, 0, 0, 0, 6, 1, 0x18, 0, 8, 0, 4]] [])
      7 Status.Timeout 1 0 0 0 [] [0, 7, 0, 0, 0, 6, 1, 0x18, 0, 8, 0, 4] []).2.2.2.2.2
      rfl (by decide) (by decide) (by decide)⟩

/-- C23, counterexample to the claim as worded ("whenever the operation reports status `Ok`").
Whatever byte the header gives to `Ok`: a response cut after nine bytes whose ninth byte is that
value, followed by a wait that times out, makes `readHoldingRegisters` for four registers store
the byte of `Ok` in the status variable and return the empty list; an exception frame with that
exception byte does the same to `readCoils` for ten coils.  Hence for no numeric value of `Ok`
does the byte of `Ok` in the status variable guarantee a list of `q` elements. -/
theorem ok_byte_with_empty_list :
    (∀ e : StatusValues,
      Status.toByte e (readHoldingRegisters
        (Socket.mk true [] [some [0, 7, 0, 0, 0, 11, 1, 3, e.ok % 256], none] [])
        7 1 0 4 Status.Timeout).status = Status.toByte e Status.Ok ∧
      (readHoldingRegisters
        (Socket.mk true [] [some [0, 7, 0, 0, 0, 11, 1, 3, e.ok % 256], none] [])
        7 1 0 4 Status.Timeout).result = []) ∧
    (∀ e : StatusValues,
      Status.toByte e (readCoils
        (Socket.mk true [] [some [0, 7, 0, 0, 0, 3, 1, 0x81, e.ok % 256]] [])
        7 1 0 10 Status.Timeout).status = Status.toByte e Status.Ok ∧
      (readCoils
        (Socket.mk true [] [some [0, 7, 0, 0, 0, 3, 1, 0x81, e.ok % 256]] [])
        7 1 0 10 Status.Timeout).result = []) ∧
    ¬ ∃ e : StatusValues, ∀ (sock : Socket) (q : Nat),
      Status.toByte e (readHoldingRegisters sock 7 1 0 q Status.Timeout).status =
          Status.toByte e Status.Ok →
        (readHoldingRegisters sock 7 1 0 q Status.Timeout).result.length = q := by
  have h1 : ∀ e : StatusValues,
      Status.toByte e (readHoldingRegisters
        (Socket.mk true [] [some [0, 7, 0, 0, 0, 11, 1, 3, e.ok % 256], none] [])
        7 1 0 4 Status.Timeout).status = Status.toByte e Status.Ok ∧
      (readHoldingRegisters
        (Socket.mk true [] [some [0, 7, 0, 0, 0, 11, 1, 3, e.ok % 256], none] [])
        7 1 0 4 Status.Timeout).result = [] :=
    fun e => by
      have h3 : highBit 3 = false := by decide
      simp [readHoldingRegisters, Socket.awaitResponse, Socket.readAll, Socket.write, recvLoop,
        h3, neededRegs, whatWasWrong, Status.toByte]
  have h2 : ∀ e : StatusValues,
      Status.toByte e (readCoils
        (Socket.mk true [] [some [0, 7, 0, 0, 0, 3, 1, 0x81, e.ok % 256]] [])
        7 1 0 10 Status.Timeout).status = Status.toByte e Status.Ok ∧
      (readCoils
        (Socket.mk true [] [some [0, 7, 0, 0, 0, 3, 1, 0x81, e.ok % 256]] [])
        7 1 0 10 Status.Timeout).result = [] :=
    fun e => by
      simp [readCoils, Socket.awaitResponse, Socket.readAll, Socket.write, recvLoop,
        neededBits, whatWasWrong, Status.toByte]
  refine ⟨h1, h2, ?_⟩
  rintro ⟨e, h⟩
  have h2 := h _ 4 (h1 e).1
  rw [(h1 e).2] at h2
  exact absurd h2 (by decide)

/-- C24: FIFO acceptance condition, stated for the runs that accept a burst.  Whenever
`readFifoQueue` reads a burst `c` of at least 12 bytes without the high bit at offset 7 and ends
with the status `Ok`, which on that branch is assigned only after the header fields compared
equal, the burst has, with `N` its FIFO count field, `N ≥ 4`, a byte count field equal to `2N`,
a length field equal to `2N - 2` and a total size of exactly `2N + 4` bytes, so that only
`N - 4` register words follow its 12-byte head, while the operation returns `N` values. -/
theorem fifo_acceptance_condition (sock : Socket) (r dev a : Nat) (st : Status)
    (c : Bytes) (rest : List (Option Bytes)) (hin : sock.incoming = some c :: rest)
    (hsize : 12 ≤ c.length) (hbit : highBit (c.getD 7 0) = false)
    (h : (readFifoQueue sock r dev a st).status = Status.Ok) :
    4 ≤ c.getD 10 0 * 256 + c.getD 11 0 ∧
    c.getD 8 0 * 256 + c.getD 9 0 = 2 * (c.getD 10 0 * 256 + c.getD 11 0) ∧
    c.getD 4 0 * 256 + c.getD 5 0 = 2 * (c.getD 10 0 * 256 + c.getD 11 0) - 2 ∧
    c.length = 2 * (c.getD 10 0 * 256 + c.getD 11 0) + 4 ∧
    c.length - 12 = 2 * (c.getD 10 0 * 256 + c.getD 11 0 - 4) ∧
    (readFifoQueue sock r dev a st).result.length = c.getD 10 0 * 256 + c.getD 11 0 := by
  obtain ⟨hbc, hlf, hlen, hres⟩ := readFifoQueue_ok sock r dev a st c rest hin hsize hbit h
  refine ⟨?_, hbc, ?_, hlen, ?_, hres⟩ <;> omega

/-- Witness of C24: the twelve-byte burst with length field 6, byte count 8 and FIFO count 4 is
accepted; four values are returned although no register word follows the head. -/
theorem fifo_acceptance_condition_witness :
    4 ≤ ([0, 7, 0, 0, 0, 6, 1, 0x18, 0, 8, 0, 4] : Bytes).getD 10 0 * 256 + ([0, 7, 0, 0, 0, 6, 1, 0x18, 0, 8, 0, 4] : Bytes).getD 11 0 ∧
    (readFifoQueue (Socket.mk true [] [some [0, 7, 0, 0, 0, 6, 1, 0x18, 0, 8, 0, 4]] []) 7 1 0
      Status.Timeout).result.length = 4 :=
  have h := fifo_acceptance_condition (Socket.mk true [] [some [0, 7, 0, 0, 0, 6, 1, 0x18, 0, 8, 0, 4]] [])
    7 1 0 Status.Timeout [0, 7, 0, 0, 0, 6, 1, 0x18, 0, 8, 0, 4] [] rfl (by decide) (by decide) (by decide)
  ⟨h.1, h.2.2.2.2.2⟩

/-- C24, counterexample to the claim as worded ("whenever `readFifoQueue` reports status `Ok`").
Whatever byte the header gives to `Ok`: a burst of nine bytes whose ninth byte is that value
makes `readFifoQueue` store the byte of `Ok` in the status variable, although the burst has no
FIFO count field at all and its size, 9, is not of the form `2N + 4`.  Hence for no numeric
value of `Ok` does the byte of `Ok` in the status variable guarantee the shape of the frame. -/
theorem fifo_ok_byte_on_nine_bytes :
    (∀ e : StatusValues,
      Status.toByte e (readFifoQueue
        (Socket.mk true [] [some [0, 7, 0, 0, 0, 3, 1, 0x18, e.ok % 256]] [])
        7 1 0 Status.Timeout).status = Status.toByte e Status.Ok ∧
      (readFifoQueue
        (Socket.mk true [] [some [0, 7, 0, 0, 0, 3, 1, 0x18, e.ok % 256]] [])
        7 1 0 Status.Timeout).result = []) ∧
    ¬ ∃ e : StatusValues, ∀ (sock : Socket),
      Status.toByte e (readFifoQueue sock 7 1 0 Status.Timeout).status =
          Status.toByte e Status.Ok →
        ∃ c rest, sock.incoming = some c :: rest ∧
          c.length = 2 * (c.getD 10 0 * 256 + c.getD 11 0) + 4 := by
  have h1 : ∀ e : StatusValues,
      Status.toByte e (readFifoQueue
        (Socket.mk true [] [some [0, 7, 0, 0, 0, 3, 1, 0x18, e.ok % 256]] [])
        7 1 0 Status.Timeout).status = Status.toByte e Status.Ok ∧
      (readFifoQueue
        (Socket.mk true [] [some [0, 7, 0, 0, 0, 3, 1, 0x18, e.ok % 256]] [])
        7 1 0 Status.Timeout).result = [] :=
    fun e => by
      simp [readFifoQueue, Socket.waitForReadyRead, Socket.readAll, Socket.write,
        whatWasWrong, Status.toByte]
  refine ⟨h1, ?_⟩
  rintro ⟨e, h⟩
  obtain ⟨c, rest, hin, hlen⟩ := h _ (h1 e).1
  simp only [List.cons.injEq, Option.some.injEq] at hin
  obtain ⟨hc, _⟩ := hin
  subst hc
  simp at hlen

/-- C25: large reads are never accepted.  For every quantity `qr` with `128 ≤ qr ≤ 32767` and
every response stream made of byte values, `readHoldingRegisters`, `readInputRegisters` and
`writeReadMultipleRegisters` (reading `qr` registers) never take the accepting branch, because
the one-byte count of the response cannot equal the expected data size `2 * qr`: the result is
empty and the status is `NoConnection`, `UnknownError`, `Timeout`, or the ninth byte of an
accumulation that ended at exactly nine bytes; likewise `readCoils` and `readDiscreteInputs`
for a 16-bit quantity `qb > 2040`. -/
theorem large_reads_never_accepted (sock : Socket) (r : Nat) (st : Status)
    (dev a qr qb ra : Nat) (regs : List Nat)
    (hbytes : ∀ c, some c ∈ sock.incoming → ∀ b ∈ c, b < 256)
    (hqr1 : 128 ≤ qr) (hqr : qr ≤ 32767) (hqb1 : 2040 < qb) (hqb : qb ≤ 65535) :
    ((readHoldingRegisters sock r dev a qr st).result = [] ∧
      ((readHoldingRegisters sock r dev a qr st).status = Status.NoConnection ∨
        (readHoldingRegisters sock r dev a qr st).status = Status.UnknownError ∨
        (readHoldingRegisters sock r dev a qr st).status = Status.Timeout ∨
        ((recvLoop (neededRegs qr + 9) sock.incoming [] []).1.length = 9 ∧
          (readHoldingRegisters sock r dev a qr st).status =
            Status.Code ((recvLoop (neededRegs qr + 9) sock.incoming [] []).1.getD 8 0)))) ∧
    ((readInputRegisters sock r dev a qr st).result = [] ∧
      ((readInputRegisters sock r dev a qr st).status = Status.NoConnection ∨
        (readInputRegisters sock r dev a qr st).status = Status.UnknownError ∨
        (readInputRegisters sock r dev a qr st).status = Status.Timeout ∨
        ((recvLoop (neededRegs qr + 9) sock.incoming [] []).1.length = 9 ∧
          (readInputRegisters sock r dev a qr st).status =
            Status.Code ((recvLoop (neededRegs qr + 9) sock.incoming [] []).1.getD 8 0)))) ∧
    ((writeReadMultipleRegisters sock r dev a regs ra qr st).result = [] ∧
      ((writeReadMultipleRegisters sock r dev a regs ra qr st).status = Status.NoConnection ∨
        (writeReadMultipleRegisters sock r dev a regs ra qr st).status = Status.UnknownError ∨
        (writeReadMultipleRegisters sock r dev a regs ra qr st).status = Status.Timeout ∨
        ((recvLoop (neededRegs qr + 9) sock.incoming [] []).1.length = 9 ∧
          (writeReadMultipleRegisters sock r dev a regs ra qr st).status =
            Status.Code ((recvLoop (neededRegs qr + 9) sock.incoming [] []).1.getD 8 0)))) ∧
    ((readCoils sock r dev a qb st).result = [] ∧
      ((readCoils sock r dev a qb st).status = Status.NoConnection ∨
        (readCoils sock r dev a qb st).status = Status.UnknownError ∨
        (readCoils sock r dev a qb st).status = Status.Timeout ∨
        ((recvLoop (neededBits qb + 9) sock.incoming [] []).1.length = 9 ∧
          (readCoils sock r dev a qb st).status =
            Status.Code ((recvLoop (neededBits qb + 9) sock.incoming [] []).1.getD 8 0)))) ∧
    ((readDiscreteInputs sock r dev a qb st).result = [] ∧
      ((readDiscreteInputs sock r dev a qb st).status = Status.NoConnection ∨
        (readDiscreteInputs sock r dev a qb st).status = Status.UnknownError ∨
        (readDiscreteInputs sock r dev a qb st).status = Status.Timeout ∨
        ((recvLoop (neededBits qb + 9) sock.incoming [] []).1.length = 9 ∧
          (readDiscreteInputs sock r dev a qb st).status =
            Status.Code ((recvLoop (neededBits qb + 9) sock.incoming [] []).1.getD 8 0)))) := by
  have hr : 256 ≤ neededRegs qr := by unfold neededRegs; omega
  have hb : 256 ≤ neededBits qb := by unfold neededBits; split <;> omega
  exact ⟨readHoldingRegisters_never_accepts sock r dev a qr st hbytes hr,
    readInputRegisters_never_accepts sock r dev a qr st hbytes hr,
    writeReadMultipleRegisters_never_accepts sock r dev a regs ra qr st hbytes hr,
    readCoils_never_accepts sock r dev a qb st hbytes hb,
    readDiscreteInputs_never_accepts sock r dev a qb st hbytes hb⟩

/-- Witness of C25: 128 registers requested; eleven bytes arrive with the right transaction id,
device and function code, the call is not accepted and returns the empty list. -/
theorem large_reads_never_accepted_witness :
    (readHoldingRegisters (Socket.mk true [] [some [0, 7, 0, 0, 1, 3, 1, 3, 0, 0, 10]] [])
      7 1 0 128 Status.Ok).result = [] ∧
    (readCoils (Socket.mk true [] [some [0, 7, 0, 0, 1, 3, 1, 3, 0, 0, 10]] [])
      7 1 0 2041 Status.Ok).result = [] :=
  have h := large_reads_never_accepted (Socket.mk true [] [some [0, 7, 0, 0, 1, 3, 1, 3, 0, 0, 10]] [])
    7 Status.Ok 1 0 128 2041 0 []
    (by
      intro c hc b hb
      simp only [List.mem_singleton, Option.some.injEq] at hc
      subst hc
      simp only [List.mem_cons, List.mem_singleton, List.not_mem_nil, or_false] at hb
      rcases hb with h | h | h | h | h | h | h | h | h | h | h <;> subst h <;> decide)
    (by decide) (by decide) (by decide) (by decide)
  ⟨h.1.1, h.2.2.2.1.1⟩

/-- C25, counterexample to the claim as worded ("never report status `Ok`").  Whatever byte the
header gives to `Ok`: nine bytes whose ninth byte is that value, followed by a wait that times
out, make `readHoldingRegisters` for 128 registers (target 265) and `readCoils` for 2041 coils
(target 265) store the byte of `Ok` in the status variable.  Hence for no numeric value of `Ok`
is the byte of `Ok` excluded for every stream of byte values. -/
theorem large_read_stores_ok_byte :
    (∀ e : StatusValues,
      Status.toByte e (readHoldingRegisters
        (Socket.mk true [] [some [0, 7, 0, 0, 1, 3, 1, 3, e.ok % 256], none] [])
        7 1 0 128 Status.Timeout).status = Status.toByte e Status.Ok) ∧
    (∀ e : StatusValues,
      Status.toByte e (readCoils
        (Socket.mk true [] [some [0, 7, 0, 0, 1, 3, 1, 1, e.ok % 256], none] [])
        7 1 0 2041 Status.Timeout).status = Status.toByte e Status.Ok) ∧
    ¬ ∃ e : StatusValues, ∀ (sock : Socket),
      (∀ c, some c ∈ sock.incoming → ∀ b ∈ c, b < 256) →
        Status.toByte e (readHoldingRegisters sock 7 1 0 128 Status.Timeout).status ≠
          Status.toByte e Status.Ok := by
  have h1 : ∀ e : StatusValues,
      Status.toByte e (readHoldingRegisters
        (Socket.mk true [] [some [0, 7, 0, 0, 1, 3, 1, 3, e.ok % 256], none] [])
        7 1 0 128 Status.Timeout).status = Status.toByte e Status.Ok :=
    fun e => by
      have h3 : highBit 3 = false := by decide
      simp [readHoldingRegisters, Socket.awaitResponse, Socket.readAll, Socket.write, recvLoop,
        h3, neededRegs, whatWasWrong, Status.toByte]
  have h2 : ∀ e : StatusValues,
      Status.toByte e (readCoils
        (Socket.mk true [] [some [0, 7, 0, 0, 1, 3, 1, 1, e.ok % 256], none] [])
        7 1 0 2041 Status.Timeout).status = Status.toByte e Status.Ok :=
    fun e => by
      have h3 : highBit 1 = false := by decide
      simp [readCoils, Socket.awaitResponse, Socket.readAll, Socket.write, recvLoop,
        h3, neededBits, whatWasWrong, Status.toByte]
  refine ⟨h1, h2, ?_⟩
  rintro ⟨e, h⟩
  refine h _ ?_ (h1 e)
  intro c hc b hb
  have hk : e.ok % 256 < 256 := Nat.mod_lt _ (by decide)
  simp only [List.mem_cons, List.mem_singleton, List.not_mem_nil, or_false,
    Option.some.injEq, reduceCtorEq] at hc
  subst hc
  simp only [List.mem_cons, List.mem_singleton, List.not_mem_nil, or_false] at hb
  rcases hb with h | h | h | h | h | h | h | h | h <;> subst h <;> first | decide | exact hk

/-- C26: custom function with a response shorter than nine bytes.  When the single read of
`executeCustomFunction` returns a burst `c` of fewer than nine bytes, the status is `Timeout`
and the result is the empty byte array, whatever `c` contains; in particular for the well-formed
eight-byte frame transaction id, protocol 0, length 2, device address, function code, which
carries no payload. -/
theorem custom_short_frame (stale : Bytes) (wr : List Bytes) (rest : List (Option Bytes))
    (c : Bytes) (r dev f : Nat) (data : Bytes) (st : Status) :
    (c.length < 9 →
      (executeCustomFunction (Socket.mk true stale (some c :: rest) wr) r dev f data
        st).status = Status.Timeout ∧
      (executeCustomFunction (Socket.mk true stale (some c :: rest) wr) r dev f data
        st).result = []) ∧
    ((executeCustomFunction (Socket.mk true stale
        (some (putU16 (r % 65536) ++ putU16 0 ++ putU16 2 ++ putU8 dev ++ putU8 f) :: rest) wr)
        r dev f data st).status = Status.Timeout ∧
      (executeCustomFunction (Socket.mk true stale
        (some (putU16 (r % 65536) ++ putU16 0 ++ putU16 2 ++ putU8 dev ++ putU8 f) :: rest) wr)
        r dev f data st).result = []) := by
  have hshort : ∀ c : Bytes, c.length < 9 →
      (executeCustomFunction (Socket.mk true stale (some c :: rest) wr) r dev f data
        st).status = Status.Timeout ∧
      (executeCustomFunction (Socket.mk true stale (some c :: rest) wr) r dev f data
        st).result = [] := by
    intro c hc
    have h9 : ¬ 9 ≤ c.length := by omega
    have hne : ¬ c.length = 9 := by omega
    unfold executeCustomFunction
    simp only [Socket.waitForReadyRead, Socket.readAll, Socket.write, Bool.not_true,
      Bool.false_eq_true, if_false, List.nil_append, h9, false_and, whatWasWrong, hne]
    exact ⟨trivial, trivial⟩
  exact ⟨hshort c, hshort _ (by simp [putU16, putU8])⟩

/-- Witness of C26: the eight-byte frame for transaction id 7, device 1, function 0x41, and a
burst of three arbitrary bytes. -/
theorem custom_short_frame_witness :
    ((executeCustomFunction (Socket.mk true [] (some [9, 9, 9] :: []) []) 7 1 0x41 [5]
        Status.Ok).status = Status.Timeout ∧
      (executeCustomFunction (Socket.mk true [] (some [9, 9, 9] :: []) []) 7 1 0x41 [5]
        Status.Ok).result = []) ∧
    ((executeCustomFunction (Socket.mk true []
        (some (putU16 (7 % 65536) ++ putU16 0 ++ putU16 2 ++ putU8 1 ++ putU8 0x41) :: []) [])
        7 1 0x41 [5] Status.Ok).status = Status.Timeout ∧
      (executeCustomFunction (Socket.mk true []
        (some (putU16 (7 % 65536) ++ putU16 0 ++ putU16 2 ++ putU8 1 ++ putU8 0x41) :: []) [])
        7 1 0x41 [5] Status.Ok).result = []) :=
  ⟨(custom_short_frame [] [] [] [9, 9, 9] 7 1 0x41 [5] Status.Ok).1 (by decide),
   (custom_short_frame [] [] [] [9, 9, 9] 7 1 0x41 [5] Status.Ok).2⟩

end QTcpModbus
